import Mathlib

/-!
# InvenSense IAM20680 sensors HAL: the data path of `MPLSensor.cpp`

A shallow embedding of `src/iam20680/sensors/MPLSensor.cpp`.  The driver object
becomes the record `MPLSensor`; every member function becomes a function
from the record (and the outcome of the external calls it makes) to its return value and
the new record.  C `int`/`int64_t` values are `Int`; byte buffers are lists of
naturals read modulo 256; the `float` scaling of event values is left out, an event
carries the integer body-frame vector that the C code multiplies by the scale.
-/

namespace Iam20680

/-! ## Constants -/

/-- Modelled from the spec: the channel indices of `MPLSensor.h` (not under `src/`).
The spec lists the channels as gyroscope, accelerometer, magnetometer, in this
fixed iteration order. -/
def RawGyro : Nat := 0

/-- Modelled from the spec: the accelerometer channel index of `MPLSensor.h`. -/
def Accelerometer : Nat := 1

/-- Modelled from the spec: the magnetometer channel index of `MPLSensor.h`. -/
def RawMagneticField : Nat := 2

/-- Modelled from the spec: the number of channels of `MPLSensor.h`. -/
def TotalNumSensors : Nat := 3

/-- Modelled from the spec: the external handle of the gyroscope channel (`MPLSensor.h`). -/
def ID_RG : Int := 0

/-- Modelled from the spec: the external handle of the accelerometer channel. -/
def ID_A : Int := 1

/-- Modelled from the spec: the external handle of the magnetometer channel. -/
def ID_RM : Int := 2

/-- Modelled from the spec: the number of external handles (`MPLSensor.h`). -/
def ID_NUMBER : Nat := 3

/-- Android `hardware/sensors.h`. -/
def SENSOR_TYPE_META_DATA : Int := 0
def SENSOR_TYPE_ACCELEROMETER : Int := 1
def SENSOR_TYPE_MAGNETIC_FIELD_UNCALIBRATED : Int := 14
def SENSOR_TYPE_GYROSCOPE_UNCALIBRATED : Int := 16
def META_DATA_FLUSH_COMPLETE : Int := 1
def SENSOR_STATUS_UNRELIABLE : Int := 0
def SENSORS_BATCH_DRY_RUN : Nat := 1
def SENSORS_BATCH_WAKE_UPON_FIFO_FULL : Nat := 2
def EINVAL : Int := 22
def NS_PER_SECOND : Int := 1000000000

/-- The "no batching" sentinel `100000000000LL` of the constructor, `batch` and
`updateBatchTimeout`. -/
def BATCH_SENTINEL : Int := 100000000000

/-- The stream-format and sizing constants of `MPLSensor.h`, which is not under `src/`:
they are parameters of the embedding. -/
structure Layout where
  DATA_FORMAT_MARKER : Nat
  DATA_FORMAT_EMPTY_MARKER : Nat
  DATA_FORMAT_RAW_GYRO : Nat
  DATA_FORMAT_ACCEL : Nat
  DATA_FORMAT_MARKER_SZ : Nat
  DATA_FORMAT_EMPTY_MARKER_SZ : Nat
  DATA_FORMAT_RAW_GYRO_SZ : Nat
  DATA_FORMAT_ACCEL_SZ : Nat
  /-- The value of `sizeof(mIIOReadBuffer)`. -/
  IIO_READ_BUFFER_SZ : Nat
  COMPASS_SEN_EVENT_RESV_SZ : Nat
  /-- The value of `MAX_DELAY_US` (320000, or 250000 under `ODR_SMPLRT_DIV`). -/
  MAX_DELAY_US : Int
  deriving DecidableEq, Repr

/-- The constraints a C compiler puts on the constants: the four `case` labels of the
decoder's `switch` are pairwise distinct, and every packet kind has a positive size. -/
def Layout.wf (L : Layout) : Prop :=
  L.DATA_FORMAT_MARKER ≠ L.DATA_FORMAT_EMPTY_MARKER ∧
  L.DATA_FORMAT_MARKER ≠ L.DATA_FORMAT_RAW_GYRO ∧
  L.DATA_FORMAT_MARKER ≠ L.DATA_FORMAT_ACCEL ∧
  L.DATA_FORMAT_EMPTY_MARKER ≠ L.DATA_FORMAT_RAW_GYRO ∧
  L.DATA_FORMAT_EMPTY_MARKER ≠ L.DATA_FORMAT_ACCEL ∧
  L.DATA_FORMAT_RAW_GYRO ≠ L.DATA_FORMAT_ACCEL ∧
  0 < L.DATA_FORMAT_MARKER_SZ ∧ 0 < L.DATA_FORMAT_EMPTY_MARKER_SZ ∧
  0 < L.DATA_FORMAT_RAW_GYRO_SZ ∧ 0 < L.DATA_FORMAT_ACCEL_SZ

instance (L : Layout) : Decidable L.wf := by
  unfold Layout.wf; infer_instance

/-- Modelled from the spec: a concrete choice of the `MPLSensor.h` constants, used where
a concrete run is evaluated.  Markers are 8 bytes (section 6 of the spec); a sample packet
is 2 header bytes, 2 pad bytes, three 4-byte axes and an 8-byte timestamp, which the decoder
reads up to offset 24; one output slot is reserved for the compass. -/
def iamLayout : Layout where
  DATA_FORMAT_MARKER := 17
  DATA_FORMAT_EMPTY_MARKER := 18
  DATA_FORMAT_RAW_GYRO := 2
  DATA_FORMAT_ACCEL := 1
  DATA_FORMAT_MARKER_SZ := 8
  DATA_FORMAT_EMPTY_MARKER_SZ := 8
  DATA_FORMAT_RAW_GYRO_SZ := 24
  DATA_FORMAT_ACCEL_SZ := 24
  IIO_READ_BUFFER_SZ := 96
  COMPASS_SEN_EVENT_RESV_SZ := 1
  MAX_DELAY_US := 320000

/-! ## Data model -/

/-- A C array `int v[3]`. -/
structure Vec3 where
  x : Int
  y : Int
  z : Int
  deriving DecidableEq, Repr

/-- A C array of `TotalNumSensors` elements, indexed by channel. -/
structure Arr3 (α : Type) where
  e0 : α
  e1 : α
  e2 : α
  deriving DecidableEq, Repr

/-- The element `a[i]`. -/
def Arr3.get {α : Type} (a : Arr3 α) (i : Nat) : α :=
  match i with
  | 0 => a.e0
  | 1 => a.e1
  | _ => a.e2

/-- The array after `a[i] = v`. -/
def Arr3.set {α : Type} (a : Arr3 α) (i : Nat) (v : α) : Arr3 α :=
  match i with
  | 0 => { a with e0 := v }
  | 1 => { a with e1 := v }
  | 2 => { a with e2 := v }
  | _ => a

/-- The part of the `sensors_event_t` union an event uses. -/
inductive Payload where
  /-- All zero, as after `memset`. -/
  | zero
  /-- A three-axis value (before the float scaling) and its status. -/
  | vec (v : Vec3) (status : Int)
  /-- The `meta_data` member. -/
  | metaData (what : Int) (sensor : Int)
  deriving DecidableEq, Repr

/-- The fields of `sensors_event_t` the driver writes (`version` and `reserved0` left out). -/
structure sensors_event_t where
  sensor : Int
  type : Int
  timestamp : Int
  payload : Payload
  deriving DecidableEq, Repr

/-- The fields of `sensor_t` that `batch` reads. -/
structure sensor_t where
  handle : Int
  minDelay : Int
  maxDelay : Int
  fifoMaxEventCount : Int
  deriving DecidableEq, Repr

/-- The table `sRawSensorList` with `BATCH_MODE_SUPPORT` and `COMPASS_SUPPORT` defined;
the handles are those of the three channels. -/
def sRawSensorList (L : Layout) : List sensor_t :=
  [ { handle := ID_RG, minDelay := 5000, maxDelay := L.MAX_DELAY_US,
      fifoMaxEventCount := 512 * 7 / 10 / 6 },
    { handle := ID_A, minDelay := 5000, maxDelay := L.MAX_DELAY_US,
      fifoMaxEventCount := 512 * 7 / 10 / 6 },
    { handle := ID_RM, minDelay := 20000, maxDelay := 250000, fifoMaxEventCount := 0 } ]

/-- A directive sent to the device or to the compass collaborator. -/
inductive Directive where
  | gyroEnable (en : Int)
  | accelEnable (en : Int)
  | compassEnable (en : Int)
  | batchTimeout (ms : Int)
  | flushBatch (handle : Int)
  | gyroRate (period_ns : Int)
  | accelRate (period_ns : Int)
  | magRate (period_ns : Int)
  | highResMode (v : Int)
  | accelFsr
  | gyroFsr
  deriving DecidableEq, Repr

/-- The members of `class MPLSensor` that the data path uses.  `mCompassSensor` records
whether the collaborator pointer is non-null; `sysfs` is the sequence of directives issued
so far. -/
structure MPLSensor where
  mChipDetected : Bool
  mCompassSensor : Bool
  mEnabled : Nat
  mIIOReadSize : Nat
  mIIOReadBuffer : List Nat
  mCachedGyroData : Vec3
  mCachedAccelData : Vec3
  mCachedCompassData : Vec3
  mGyroSensorTimestamp : Int
  mAccelSensorTimestamp : Int
  mCompassTimestamp : Int
  mGyroSensorPrevTimestamp : Int
  mAccelSensorPrevTimestamp : Int
  mCompassPrevTimestamp : Int
  mGyroOrientationMatrix : List Int
  mAccelOrientationMatrix : List Int
  mCompassOrientationMatrix : List Int
  mEnabledTime : Arr3 Int
  mBatchEnabled : Nat
  mBatchTimeouts : Arr3 Int
  mBatchTimeoutInMs : Int
  mFlushSensorEnabledVector : List Int
  mPendingEvents : Arr3 sensors_event_t
  mNumSensors : Nat
  currentSensorList : List sensor_t
  sysfs : List Directive
  deriving DecidableEq, Repr

/-! ## Machine arithmetic and buffer access -/

/-- The value of a 32-bit two's complement word. -/
def wrap32 (z : Int) : Int := (z + 2147483648) % 4294967296 - 2147483648

/-- The value of a 64-bit two's complement word. -/
def wrap64 (z : Int) : Int :=
  (z + 9223372036854775808) % 18446744073709551616 - 9223372036854775808

/-- The byte `buf[i]` as an unsigned char. -/
def rdU8 (buf : List Nat) (i : Nat) : Nat := buf.getD i 0 % 256

/-- The little-endian `unsigned short` at `buf + i`. -/
def rdU16 (buf : List Nat) (i : Nat) : Nat := rdU8 buf i + 256 * rdU8 buf (i + 1)

/-- The little-endian unsigned 32-bit word at `buf + i`. -/
def rdU32 (buf : List Nat) (i : Nat) : Nat :=
  rdU8 buf i + 256 * rdU8 buf (i + 1) + 65536 * rdU8 buf (i + 2) + 16777216 * rdU8 buf (i + 3)

/-- The little-endian `int` at `buf + i`. -/
def rdS32 (buf : List Nat) (i : Nat) : Int := wrap32 (rdU32 buf i)

/-- The little-endian `long long` at `buf + i`. -/
def rdS64 (buf : List Nat) (i : Nat) : Int :=
  wrap64 ((rdU32 buf i : Int) + 4294967296 * (rdU32 buf (i + 4) : Int))

/-- The buffer after the bytes `bs` are stored from index `off` on (stores past the end
of the array are dropped). -/
def writeAt : List Nat → Nat → List Nat → List Nat
  | buf, _, [] => buf
  | buf, off, b :: bs => writeAt (buf.set off b) (off + 1) bs

/-- The buffer after `memmove(buf, &buf[ptr], n)`. -/
def memmoveFront (buf : List Nat) (ptr n : Nat) : List Nat :=
  writeAt buf 0 ((buf.drop ptr).take n)

/-- The 64-bit complement `~x`. -/
def not64 (x : Nat) : Nat := x ^^^ 18446744073709551615

/-- The entry `m[i]` of a mounting matrix. -/
def mat (m : List Int) (i : Nat) : Int := m.getD i 0

/-- The body-frame conversion loop of the three handlers:
`data[i] = c[0] * m[i*3] + c[1] * m[i*3+1] + c[2] * m[i*3+2]` in `int` arithmetic. -/
def toBodyFrame (c : Vec3) (m : List Int) : Vec3 :=
  { x := wrap32 (c.x * mat m 0 + c.y * mat m 1 + c.z * mat m 2),
    y := wrap32 (c.x * mat m 3 + c.y * mat m 4 + c.z * mat m 5),
    z := wrap32 (c.x * mat m 6 + c.y * mat m 7 + c.z * mat m 8) }

/-! ## Batch timeout -/

/-- `MPLSensor::setBatchTimeout`. -/
def setBatchTimeout (s : MPLSensor) (timeout_ns : Int) : MPLSensor :=
  let timeout_ms := wrap32 (Int.tdiv timeout_ns 1000000)
  { s with sysfs := s.sysfs ++ [Directive.batchTimeout timeout_ms],
           mBatchTimeoutInMs := timeout_ms }

/-- One iteration of the loop of `updateBatchTimeout`. -/
def batchTimeoutStep (s : MPLSensor) (batchingTimeout : Int) (i : Nat) : Int :=
  if s.mEnabled &&& (1 <<< i) ≠ 0 then
    let ns := if s.mBatchEnabled &&& (1 <<< i) ≠ 0 then s.mBatchTimeouts.get i else 0
    if ns < batchingTimeout then ns else batchingTimeout
  else batchingTimeout

/-- The value `batchingTimeout` that `updateBatchTimeout` computes. -/
def batchingTimeout (s : MPLSensor) : Int :=
  if s.mBatchEnabled ≠ 0 then
    (List.range TotalNumSensors).foldl (batchTimeoutStep s) BATCH_SENTINEL
  else 0

/-- `MPLSensor::updateBatchTimeout`. -/
def updateBatchTimeout (s : MPLSensor) : MPLSensor :=
  if s.mBatchTimeoutInMs ≠ batchingTimeout s then setBatchTimeout s (batchingTimeout s) else s

/-! ## Enable -/

/-- `MPLSensor::enableGyro`. -/
def enableGyro (s : MPLSensor) (en : Int) : MPLSensor :=
  { s with sysfs := s.sysfs ++ [Directive.gyroEnable en] }

/-- `MPLSensor::enableAccel`. -/
def enableAccel (s : MPLSensor) (en : Int) : MPLSensor :=
  { s with sysfs := s.sysfs ++ [Directive.accelEnable en] }

/-- `MPLSensor::enableCompass`. -/
def enableCompass (s : MPLSensor) (en : Int) : MPLSensor :=
  if s.mCompassSensor then { s with sysfs := s.sysfs ++ [Directive.compassEnable en] } else s

/-- `MPLSensor::getHandle`: the value left in `what`. -/
def getHandle (handle : Int) : Int :=
  if handle ≥ ID_NUMBER then -1
  else if handle = ID_RG then RawGyro
  else if handle = ID_A then Accelerometer
  else if handle = ID_RM then RawMagneticField
  else handle

/-- `MPLSensor::enable`; `now` is the value `getTimestamp()` returns. -/
def enable (s : MPLSensor) (handle : Int) (en : Int) (now : Int) : Int × MPLSensor :=
  if !s.mChipDetected then (-EINVAL, s)
  else
    let what := getHandle handle
    if what < 0 then (-EINVAL, s)
    else
      let w := what.toNat
      let s1 := if en = 0 then { s with mBatchEnabled := s.mBatchEnabled &&& not64 (1 <<< w) }
                else s
      let s2 := if s1.mEnabled = 0 then { s1 with mIIOReadSize := 0 } else s1
      let newState : Nat := if en ≠ 0 then 1 else 0
      let s3 :=
        if (newState <<< w) ≠ (s2.mEnabled &&& (1 <<< w)) then
          let s4 := { s2 with mEnabled := (s2.mEnabled &&& not64 (1 <<< w)) ||| (newState <<< w) }
          let s5 := match w with
            | 0 => enableGyro s4 en
            | 1 => enableAccel s4 en
            | 2 => enableCompass s4 en
            | _ => s4
          { s5 with mEnabledTime := s5.mEnabledTime.set w (if en ≠ 0 then now else 0) }
        else s2
      (0, updateBatchTimeout s3)

/-! ## Handlers and event assembly -/

/-- The "timestamp check" of the three handlers. -/
def freshSample (ts prev enabledTime : Int) : Int :=
  if ts > prev ∧ ts > enabledTime then 1 else 0

/-- `MPLSensor::rawGyroHandler` applied to `mPendingEvents + RawGyro`. -/
def rawGyroHandler (s : MPLSensor) : Int × MPLSensor :=
  let data := toBodyFrame s.mCachedGyroData s.mGyroOrientationMatrix
  let ev := { s.mPendingEvents.get RawGyro with
                payload := Payload.vec data SENSOR_STATUS_UNRELIABLE,
                timestamp := s.mGyroSensorTimestamp }
  let update := freshSample s.mGyroSensorTimestamp s.mGyroSensorPrevTimestamp
                  (s.mEnabledTime.get RawGyro)
  (update, { s with mPendingEvents := s.mPendingEvents.set RawGyro ev,
                    mGyroSensorPrevTimestamp := s.mGyroSensorTimestamp })

/-- `MPLSensor::accelHandler` applied to `mPendingEvents + Accelerometer`. -/
def accelHandler (s : MPLSensor) : Int × MPLSensor :=
  let data := toBodyFrame s.mCachedAccelData s.mAccelOrientationMatrix
  let ev := { s.mPendingEvents.get Accelerometer with
                payload := Payload.vec data SENSOR_STATUS_UNRELIABLE,
                timestamp := s.mAccelSensorTimestamp }
  let update := freshSample s.mAccelSensorTimestamp s.mAccelSensorPrevTimestamp
                  (s.mEnabledTime.get Accelerometer)
  (update, { s with mPendingEvents := s.mPendingEvents.set Accelerometer ev,
                    mAccelSensorPrevTimestamp := s.mAccelSensorTimestamp })

/-- `MPLSensor::rawCompassHandler` applied to `mPendingEvents + RawMagneticField`. -/
def rawCompassHandler (s : MPLSensor) : Int × MPLSensor :=
  let data := toBodyFrame s.mCachedCompassData s.mCompassOrientationMatrix
  let ev := { s.mPendingEvents.get RawMagneticField with
                payload := Payload.vec data SENSOR_STATUS_UNRELIABLE,
                timestamp := s.mCompassTimestamp }
  let update := freshSample s.mCompassTimestamp s.mCompassPrevTimestamp
                  (s.mEnabledTime.get RawMagneticField)
  (update, { s with mPendingEvents := s.mPendingEvents.set RawMagneticField ev,
                    mCompassPrevTimestamp := s.mCompassTimestamp })

/-- The call `CALL_MEMBER_FN(this, mHandlers[i])(mPendingEvents + i)` with the handler
table the constructor sets up. -/
def mHandlers (i : Nat) (s : MPLSensor) : Int × MPLSensor :=
  match i with
  | 0 => rawGyroHandler s
  | 1 => accelHandler s
  | _ => rawCompassHandler s

/-- `MPLSensor::metaHandler`: the update flag, the event written to `*s` and the
new driver state. -/
def metaHandler (s : MPLSensor) (flags : Int) : Int × sensors_event_t × MPLSensor :=
  if flags = META_DATA_FLUSH_COMPLETE then
    (1,
     { sensor := 0, type := SENSOR_TYPE_META_DATA, timestamp := 0,
       payload := Payload.metaData flags (s.mFlushSensorEnabledVector.headD 0) },
     { s with mFlushSensorEnabledVector := s.mFlushSensorEnabledVector.tail })
  else
    (1, { sensor := 0, type := 0, timestamp := 0, payload := Payload.zero }, s)

/-- The local variables of `readEvents`, with the events written through `data` so far. -/
structure EvAcc where
  s : MPLSensor
  out : List sensors_event_t
  count : Int
  numEventReceived : Int
  deriving DecidableEq, Repr

/-- The "handle flush complete event" block of `readEvents`. -/
def readEventsFlush (s : MPLSensor) (count : Int) : EvAcc :=
  if s.mFlushSensorEnabledVector ≠ [] then
    let r := metaHandler s META_DATA_FLUSH_COMPLETE
    if r.1 = 1 ∧ count > 0 then
      { s := r.2.2, out := [r.2.1], count := count - 1, numEventReceived := 1 }
    else
      { s := r.2.2, out := [], count := count, numEventReceived := 0 }
  else
    { s := s, out := [], count := count, numEventReceived := 0 }

/-- One iteration of the `for (i = 0; i < ID_NUMBER; i++)` loop of `readEvents`. -/
def readEventsStep (acc : EvAcc) (i : Nat) : EvAcc :=
  if acc.s.mEnabled &&& (1 <<< i) ≠ 0 then
    let r := mHandlers i acc.s
    if r.1 ≠ 0 ∧ acc.count > 0 then
      { s := r.2, out := acc.out ++ [r.2.mPendingEvents.get i], count := acc.count - 1,
        numEventReceived := acc.numEventReceived + 1 }
    else
      { acc with s := r.2 }
  else acc

/-- The final local state of `MPLSensor::readEvents(data, count)`: `out` is the content
of the slots `data[0]`, `data[1]`, ... written, `numEventReceived` the return value. -/
def readEvents (s : MPLSensor) (count : Int) : EvAcc :=
  (List.range ID_NUMBER).foldl readEventsStep (readEventsFlush s count)

/-! ## Packet decoder -/

/-- The outcome of the device `read` call: a negative return value, or the bytes
delivered (their number is the return value). -/
inductive ReadOutcome where
  | error
  | data (bytes : List Nat)
  deriving DecidableEq, Repr

/-- The effect of the `switch (header)` statement of `readMpuEvents`: `detected` is the
identifier reported on the "MARKER DETECTED" log line, if the statement reaches one. -/
structure SwitchResult where
  s : MPLSensor
  ptr : Nat
  data_found : Bool
  left_over : Nat
  detected : Option Int
  deriving DecidableEq, Repr

/-- The `switch (header)` statement of `readMpuEvents` at position `ptr`. -/
def decodeSwitch (L : Layout) (s : MPLSensor) (ptr : Nat) (left_over : Nat) : SwitchResult :=
  let buf := s.mIIOReadBuffer
  let header := rdU16 buf ptr
  if header = L.DATA_FORMAT_MARKER then
    if s.mIIOReadSize - ptr < L.DATA_FORMAT_MARKER_SZ then
      { s := s, ptr := ptr, data_found := false, left_over := s.mIIOReadSize - ptr,
        detected := none }
    else
      let sensor := rdS32 buf (ptr + 4)
      { s := { s with mFlushSensorEnabledVector := s.mFlushSensorEnabledVector ++ [sensor] },
        ptr := ptr + L.DATA_FORMAT_MARKER_SZ, data_found := true, left_over := left_over,
        detected := some sensor }
  else if header = L.DATA_FORMAT_EMPTY_MARKER then
    if s.mIIOReadSize - ptr < L.DATA_FORMAT_EMPTY_MARKER_SZ then
      { s := s, ptr := ptr, data_found := false, left_over := s.mIIOReadSize - ptr,
        detected := none }
    else
      let sensor := rdS32 buf (ptr + 4)
      { s := { s with mFlushSensorEnabledVector := s.mFlushSensorEnabledVector ++ [sensor] },
        ptr := ptr + L.DATA_FORMAT_EMPTY_MARKER_SZ, data_found := true, left_over := left_over,
        detected := some sensor }
  else if header = L.DATA_FORMAT_RAW_GYRO then
    if s.mIIOReadSize - ptr < L.DATA_FORMAT_RAW_GYRO_SZ then
      { s := s, ptr := ptr, data_found := false, left_over := s.mIIOReadSize - ptr,
        detected := none }
    else
      { s := { s with
                 mCachedGyroData :=
                   { x := rdS32 buf (ptr + 4), y := rdS32 buf (ptr + 8),
                     z := rdS32 buf (ptr + 12) },
                 mGyroSensorTimestamp := rdS64 buf (ptr + 16) },
        ptr := ptr + L.DATA_FORMAT_RAW_GYRO_SZ, data_found := true, left_over := left_over,
        detected := none }
  else if header = L.DATA_FORMAT_ACCEL then
    if s.mIIOReadSize - ptr < L.DATA_FORMAT_ACCEL_SZ then
      { s := s, ptr := ptr, data_found := false, left_over := s.mIIOReadSize - ptr,
        detected := none }
    else
      { s := { s with
                 mCachedAccelData :=
                   { x := rdS32 buf (ptr + 4), y := rdS32 buf (ptr + 8),
                     z := rdS32 buf (ptr + 12) },
                 mAccelSensorTimestamp := rdS64 buf (ptr + 16) },
        ptr := ptr + L.DATA_FORMAT_ACCEL_SZ, data_found := true, left_over := left_over,
        detected := none }
  else
    { s := s, ptr := ptr + 1, data_found := false, left_over := left_over, detected := none }

/-- The local variables of the decode loop of `readMpuEvents`, with the events written
through `s` so far (`out`), and two records kept for stating properties: the marker
identifiers detected so far (`markers`) and the `count` argument of every `readEvents`
call made so far (`calls`). -/
structure LoopState where
  s : MPLSensor
  ptr : Nat
  count : Int
  numEventReceived : Int
  left_over : Nat
  out : List sensors_event_t
  markers : List Int
  calls : List Int
  deriving DecidableEq, Repr

/-- One iteration of the `while (ptr < mIIOReadSize)` loop; the flag tells whether the
iteration leaves the loop through a `break`. -/
def decodeIter (L : Layout) (ls : LoopState) : LoopState × Bool :=
  let r := decodeSwitch L ls.s ls.ptr ls.left_over
  let ls1 : LoopState :=
    { ls with s := r.s, ptr := r.ptr, left_over := r.left_over,
              markers := ls.markers ++ r.detected.toList }
  if r.data_found then
    let e := readEvents ls1.s ls1.count
    let num := e.numEventReceived
    let ls2 : LoopState :=
      { ls1 with s := e.s, out := ls1.out ++ e.out, calls := ls1.calls ++ [ls1.count] }
    if num > 0 then
      let ls3 : LoopState :=
        { ls2 with count := ls2.count - num, numEventReceived := ls2.numEventReceived + num }
      if ls3.count = 0 then (ls3, true)
      else if ls3.count < 0 then (ls3, true)
      else (ls3, decide (ls3.left_over ≠ 0))
    else (ls2, decide (ls2.left_over ≠ 0))
  else (ls1, decide (ls1.left_over ≠ 0))

/-- The `while (ptr < mIIOReadSize)` loop, run for at most `fuel` iterations: `none` when
the loop is still running after them. -/
def decodeLoop (L : Layout) : Nat → LoopState → Option LoopState
  | 0, ls => if ls.ptr < ls.s.mIIOReadSize then none else some ls
  | fuel + 1, ls =>
    if ls.ptr < ls.s.mIIOReadSize then
      let r := decodeIter L ls
      if r.2 then some r.1 else decodeLoop L fuel r.1
    else some ls

/-- The result of `readMpuEvents`: the return value, the events written to `s[0]`,
`s[1]`, ..., the new driver state, and the two records of `LoopState`. -/
structure MpuResult where
  s : MPLSensor
  numEventReceived : Int
  out : List sensors_event_t
  markers : List Int
  calls : List Int
  deriving DecidableEq, Repr

/-- The number `nbytes` that `readMpuEvents` asks the device for; the product
`count * packet_size` is formed in `int`. -/
def readNbytes (L : Layout) (s : MPLSensor) (count : Int) : Int :=
  let count := if s.mCompassSensor then count - L.COMPASS_SEN_EVENT_RESV_SZ else count
  let nbytes : Int := (L.IIO_READ_BUFFER_SZ : Int) - s.mIIOReadSize
  let packet_size : Int := L.DATA_FORMAT_RAW_GYRO_SZ
  if nbytes > wrap32 (count * packet_size) then wrap32 (count * packet_size) else nbytes

/-- The tail of `readMpuEvents`: keep the left-over bytes at the front of the buffer. -/
def carryOver (ls : LoopState) : MPLSensor :=
  if ls.left_over > 0 then
    { ls.s with mIIOReadBuffer := memmoveFront ls.s.mIIOReadBuffer ls.ptr ls.left_over,
                mIIOReadSize := ls.left_over }
  else
    { ls.s with mIIOReadSize := 0 }

/-- `MPLSensor::readMpuEvents(s, count)`; `dev n` is the outcome of the device `read` call
when `n` bytes are asked for.  `none` stands for a decode loop that does not end. -/
def readMpuEvents (L : Layout) (s : MPLSensor) (count : Int) (dev : Int → ReadOutcome) :
    Option MpuResult :=
  if s.mEnabled = 0 then
    let buf := match dev L.IIO_READ_BUFFER_SZ with
      | ReadOutcome.error => s.mIIOReadBuffer
      | ReadOutcome.data bs => writeAt s.mIIOReadBuffer 0 bs
    some { s := { s with mIIOReadBuffer := buf, mIIOReadSize := 0 },
           numEventReceived := 0, out := [], markers := [], calls := [] }
  else
    let count1 := if s.mCompassSensor then count - L.COMPASS_SEN_EVENT_RESV_SZ else count
    match dev (readNbytes L s count) with
    | ReadOutcome.error =>
      some { s := s, numEventReceived := 0, out := [], markers := [], calls := [] }
    | ReadOutcome.data bs =>
      if bs.length = 0 then
        some { s := s, numEventReceived := 0, out := [], markers := [], calls := [] }
      else
        let s1 := { s with mIIOReadBuffer := writeAt s.mIIOReadBuffer s.mIIOReadSize bs,
                           mIIOReadSize := s.mIIOReadSize + bs.length }
        match decodeLoop L s1.mIIOReadSize
            { s := s1, ptr := 0, count := count1, numEventReceived := 0, left_over := 0,
              out := [], markers := [], calls := [] } with
        | none => none
        | some ls =>
          some { s := carryOver ls, numEventReceived := ls.numEventReceived, out := ls.out,
                 markers := ls.markers, calls := ls.calls }

/-- The result of `readCompassEvents`. -/
structure CompassResult where
  s : MPLSensor
  numEventReceived : Int
  out : List sensors_event_t
  calls : List Int
  deriving DecidableEq, Repr

/-- `MPLSensor::readCompassEvents(s, count)`; `sample` and `ts` are what the collaborator's
`readSample` stores into `mCachedCompassData` and `mCompassTimestamp`. -/
def readCompassEvents (L : Layout) (s : MPLSensor) (count : Int) (sample : Vec3) (ts : Int) :
    CompassResult :=
  let count1 := if count > L.COMPASS_SEN_EVENT_RESV_SZ then (L.COMPASS_SEN_EVENT_RESV_SZ : Int)
                else count
  if s.mCompassSensor then
    let s1 := { s with mCachedCompassData := sample, mCompassTimestamp := ts }
    let e := readEvents s1 count1
    if e.numEventReceived > 0 then
      { s := e.s, numEventReceived := e.numEventReceived, out := e.out, calls := [count1] }
    else
      { s := e.s, numEventReceived := 0, out := e.out, calls := [count1] }
  else
    { s := s, numEventReceived := 0, out := [], calls := [] }

/-! ## Batch and flush -/

/-- The "find sensor_t struct for this sensor" loop of `batch`. -/
def findListIndex (list : List sensor_t) (mNumSensors : Nat) (handle : Int) : Nat :=
  ((List.range mNumSensors).find? (fun i => (list.get? i).any (fun e => e.handle = handle))).getD 0

/-- The rate rounding and clamping of `batch`: `none` when a division by zero is reached.
The sum `NS_PER_SECOND + (period_ns - 1)` is formed in the 64-bit type of `period_ns`, and
the quotient is stored in the `int` variable `period_ns_int`. -/
def batchPeriod (e : sensor_t) (period_ns : Int) : Option Int :=
  let rounded : Option Int :=
    if period_ns ≠ e.maxDelay * 1000 then
      if period_ns = 0 then none
      else
        let period_ns_int :=
          wrap32 (Int.tdiv (wrap64 (NS_PER_SECOND + wrap64 (period_ns - 1))) period_ns)
        if period_ns_int = 0 then none else some (Int.tdiv NS_PER_SECOND period_ns_int)
    else some period_ns
  rounded.map (fun p =>
    let p1 := if p > e.maxDelay * 1000 then e.maxDelay * 1000 else p
    if p1 < e.minDelay * 1000 then e.minDelay * 1000 else p1)

/-- `MPLSensor::setGyroRate`, `setAccelRate` and `setMagRate`, selected by `what`. -/
def setRate (s : MPLSensor) (what : Nat) (period_ns : Int) : MPLSensor :=
  match what with
  | 0 => { s with sysfs := s.sysfs ++ [Directive.gyroRate period_ns] }
  | 1 => { s with sysfs := s.sysfs ++ [Directive.accelRate period_ns] }
  | 2 => if s.mCompassSensor then { s with sysfs := s.sysfs ++ [Directive.magRate period_ns] }
         else s
  | _ => s

/-- `MPLSensor::batch` with `BATCH_MODE_SUPPORT`: `none` when the C code divides by zero
or reads a sensor list that has no entry at `list_index`. -/
def batch (s : MPLSensor) (handle : Int) (flags : Nat) (period_ns : Int) (timeout : Int) :
    Option (Int × MPLSensor) :=
  if !s.mChipDetected then some (-EINVAL, s)
  else
    let what := getHandle handle
    if what < 0 then some (-EINVAL, s)
    else if flags &&& SENSORS_BATCH_WAKE_UPON_FIFO_FULL ≠ 0 then some (-EINVAL, s)
    else
      let list_index := findListIndex s.currentSensorList s.mNumSensors handle
      match s.currentSensorList.get? list_index with
      | none => none
      | some e =>
        match batchPeriod e period_ns with
        | none => none
        | some period =>
          let timeout1 := if e.fifoMaxEventCount ≠ 0 then timeout
                          else if timeout > 0 then 0 else timeout
          if flags &&& SENSORS_BATCH_DRY_RUN ≠ 0 then some (0, s)
          else
            let w := what.toNat
            let s1 :=
              if timeout1 = 0 then
                { s with mBatchEnabled := s.mBatchEnabled &&& not64 (1 <<< w),
                         mBatchTimeouts := s.mBatchTimeouts.set w BATCH_SENTINEL }
              else
                { s with mBatchEnabled := s.mBatchEnabled ||| (1 <<< w),
                         mBatchTimeouts := s.mBatchTimeouts.set w timeout1 }
            some (0, setRate (updateBatchTimeout s1) w period)

/-- `MPLSensor::flush`. -/
def flush (s : MPLSensor) (handle : Int) : Int × MPLSensor :=
  if !s.mChipDetected then (-EINVAL, s)
  else
    let what := getHandle handle
    if what < 0 then (-EINVAL, s)
    else (0, { s with sysfs := s.sysfs ++ [Directive.flushBatch handle] })

/-! ## Construction -/

/-- `MPLSensor::MPLSensor(compass)`.  `raw` is the object before construction: the
members the constructor does not initialise (read buffer, cached samples and their
timestamps, `mNumSensors`) keep the value they have there.  `chip` tells whether
`inv_get_chip_name` succeeds; `gyroOrient`, `accelOrient` and `compassOrient` are the
mounting matrices read from the device and the collaborator, when the read succeeds.
The constructor itself does not assign `currentSensorList`: the value given here is the one
`populateSensorList` assigns, so that the result stands for a driver whose sensor list has
been populated when `raw.mNumSensors` is the number of entries of the table. -/
def construct (L : Layout) (raw : MPLSensor) (compass : Bool) (chip : Bool)
    (gyroOrient accelOrient compassOrient : Option (List Int)) : MPLSensor :=
  let zeroEv : sensors_event_t := { sensor := 0, type := 0, timestamp := 0, payload := Payload.zero }
  let zeroMat : List Int := List.replicate 9 0
  { raw with
    mChipDetected := chip
    mCompassSensor := compass
    mEnabled := 0
    mIIOReadSize := 0
    mGyroSensorPrevTimestamp := 0
    mAccelSensorPrevTimestamp := 0
    mCompassPrevTimestamp := 0
    mGyroOrientationMatrix := gyroOrient.getD zeroMat
    mAccelOrientationMatrix := accelOrient.getD zeroMat
    mCompassOrientationMatrix := if compass then compassOrient.getD zeroMat else zeroMat
    mFlushSensorEnabledVector := List.replicate TotalNumSensors 0
    mEnabledTime := { e0 := 0, e1 := 0, e2 := 0 }
    mBatchEnabled := 0
    mBatchTimeouts := { e0 := BATCH_SENTINEL, e1 := BATCH_SENTINEL, e2 := BATCH_SENTINEL }
    mBatchTimeoutInMs := 0
    mPendingEvents :=
      { e0 := { zeroEv with sensor := ID_RG, type := SENSOR_TYPE_GYROSCOPE_UNCALIBRATED },
        e1 := { zeroEv with sensor := ID_A, type := SENSOR_TYPE_ACCELEROMETER },
        e2 := { zeroEv with sensor := ID_RM, type := SENSOR_TYPE_MAGNETIC_FIELD_UNCALIBRATED } }
    currentSensorList := sRawSensorList L
    sysfs :=
      [Directive.gyroEnable 0, Directive.accelEnable 0] ++
      (if compass then [Directive.compassEnable 0] else []) ++
      [Directive.highResMode 0, Directive.accelFsr, Directive.gyroFsr,
       Directive.batchTimeout 0] }

/-! ## Views of the state used to state properties -/

/-- The test `mEnabled & (1LL << i)` of `readEvents`. -/
def chanEnabled (s : MPLSensor) (i : Nat) : Prop := s.mEnabled &&& (1 <<< i) ≠ 0

instance (s : MPLSensor) (i : Nat) : Decidable (chanEnabled s i) := by
  unfold chanEnabled; infer_instance

/-- The cached sample timestamp of channel `i`. -/
def cachedTimestamp (s : MPLSensor) (i : Nat) : Int :=
  match i with
  | 0 => s.mGyroSensorTimestamp
  | 1 => s.mAccelSensorTimestamp
  | _ => s.mCompassTimestamp

/-- The previous timestamp of channel `i`. -/
def prevTimestamp (s : MPLSensor) (i : Nat) : Int :=
  match i with
  | 0 => s.mGyroSensorPrevTimestamp
  | 1 => s.mAccelSensorPrevTimestamp
  | _ => s.mCompassPrevTimestamp

/-- The cached raw sample of channel `i`. -/
def cachedData (s : MPLSensor) (i : Nat) : Vec3 :=
  match i with
  | 0 => s.mCachedGyroData
  | 1 => s.mCachedAccelData
  | _ => s.mCachedCompassData

/-- The mounting matrix of channel `i`. -/
def orientationMatrix (s : MPLSensor) (i : Nat) : List Int :=
  match i with
  | 0 => s.mGyroOrientationMatrix
  | 1 => s.mAccelOrientationMatrix
  | _ => s.mCompassOrientationMatrix

/-- The data event of channel `i`: the pending event of the channel with the body-frame
value of the cached sample and the cached timestamp. -/
def dataEvent (s : MPLSensor) (i : Nat) : sensors_event_t :=
  { s.mPendingEvents.get i with
      payload := Payload.vec (toBodyFrame (cachedData s i) (orientationMatrix s i))
                   SENSOR_STATUS_UNRELIABLE,
      timestamp := cachedTimestamp s i }

/-- The flush-complete meta event for the channel identifier `x`. -/
def flushEvent (x : Int) : sensors_event_t :=
  { sensor := 0, type := SENSOR_TYPE_META_DATA, timestamp := 0,
    payload := Payload.metaData META_DATA_FLUSH_COMPLETE x }

/-- The channel identifiers of the flush-complete events among `out`, in order. -/
def flushIds (out : List sensors_event_t) : List Int :=
  out.filterMap (fun e =>
    match e.payload with
    | Payload.metaData _ sensor => some sensor
    | _ => none)

/-- The driver state with the members that event emission changes blanked out. -/
def core (s : MPLSensor) : MPLSensor :=
  { s with mPendingEvents := { e0 := flushEvent 0, e1 := flushEvent 0, e2 := flushEvent 0 },
           mGyroSensorPrevTimestamp := 0, mAccelSensorPrevTimestamp := 0,
           mCompassPrevTimestamp := 0, mFlushSensorEnabledVector := [] }

/-- The bookkeeping invariant of `readEvents`: the return value counts the slots written,
`count` and the return value add up to the capacity `c0`, and nothing is written when the
capacity is not positive. -/
def EvAcc.ok (c0 : Int) (acc : EvAcc) : Prop :=
  acc.numEventReceived = acc.out.length ∧ acc.count + acc.numEventReceived = c0 ∧
  (0 ≤ c0 → 0 ≤ acc.count) ∧ (c0 ≤ 0 → acc.out = [])

theorem metaHandler_flush (s : MPLSensor) :
    metaHandler s META_DATA_FLUSH_COMPLETE =
      (1, flushEvent (s.mFlushSensorEnabledVector.headD 0),
       { s with mFlushSensorEnabledVector := s.mFlushSensorEnabledVector.tail }) := rfl

/-- How the state `t` reached before the loop of `readEvents` handles channel `i` relates
to the state `s` at entry: the stable part is that of `s`, the channels still to come are
untouched, the enabled channels already handled have their previous timestamp updated. -/
def stageInv (s t : MPLSensor) (i : Nat) : Prop :=
  core t = core s ∧
  (∀ j, i ≤ j → j < 3 →
    t.mPendingEvents.get j = s.mPendingEvents.get j ∧ prevTimestamp t j = prevTimestamp s j) ∧
  (∀ j, j < i → chanEnabled s j → prevTimestamp t j = cachedTimestamp s j)

/-- The stale-data test of channel `i` in state `s`. -/
def isFresh (s : MPLSensor) (i : Nat) : Prop :=
  cachedTimestamp s i > prevTimestamp s i ∧ cachedTimestamp s i > s.mEnabledTime.get i

/-- The driver state with the members that decoding and event emission change blanked
out. -/
def frame (s : MPLSensor) : MPLSensor :=
  { core s with mCachedGyroData := ⟨0, 0, 0⟩, mCachedAccelData := ⟨0, 0, 0⟩,
                mGyroSensorTimestamp := 0, mAccelSensorTimestamp := 0 }

/-- The bookkeeping invariant of the decode loop for the capacity `c0`: the return value
counts the slots written, `count` and the return value add up to `c0`, and nothing is
written when the capacity is not positive. -/
def LoopState.ok (c0 : Int) (ls : LoopState) : Prop :=
  ls.numEventReceived = ls.out.length ∧ ls.count + ls.numEventReceived = c0 ∧
  (0 ≤ c0 → 0 ≤ ls.count) ∧ (c0 ≤ 0 → ls.out = [])

/-- The number of bytes the device `read` call delivers. -/
def bytesReturned : ReadOutcome → Nat
  | ReadOutcome.error => 0
  | ReadOutcome.data bs => bs.length

/-! ## Concrete objects for evaluated runs -/

/-- A driver object before construction: every member zero, a 96-byte read buffer filled
with `0xFF` bytes. -/
def demoRaw : MPLSensor :=
  { mChipDetected := false, mCompassSensor := false, mEnabled := 0, mIIOReadSize := 0,
    mIIOReadBuffer := List.replicate 96 255,
    mCachedGyroData := ⟨0, 0, 0⟩, mCachedAccelData := ⟨0, 0, 0⟩, mCachedCompassData := ⟨0, 0, 0⟩,
    mGyroSensorTimestamp := 0, mAccelSensorTimestamp := 0, mCompassTimestamp := 0,
    mGyroSensorPrevTimestamp := 0, mAccelSensorPrevTimestamp := 0, mCompassPrevTimestamp := 0,
    mGyroOrientationMatrix := [], mAccelOrientationMatrix := [], mCompassOrientationMatrix := [],
    mEnabledTime := ⟨0, 0, 0⟩, mBatchEnabled := 0, mBatchTimeouts := ⟨0, 0, 0⟩,
    mBatchTimeoutInMs := 0, mFlushSensorEnabledVector := [],
    mPendingEvents := ⟨flushEvent 0, flushEvent 0, flushEvent 0⟩,
    mNumSensors := 3, currentSensorList := [], sysfs := [] }

/-- The identity mounting matrix. -/
def identityMatrix : List Int := [1, 0, 0, 0, 1, 0, 0, 0, 1]

/-- A freshly constructed driver (chip detected, identity mounting matrices), with or
without a compass collaborator. -/
def demoDriver (compass : Bool) : MPLSensor :=
  construct iamLayout demoRaw compass true (some identityMatrix) (some identityMatrix)
    (some identityMatrix)

/-- The driver `demoDriver compass` after `enable(ID_RG, 1)` at time 5, with the flush
queue emptied. -/
def demoGyroOn (compass : Bool) : MPLSensor :=
  { (enable (demoDriver compass) ID_RG 1 5).2 with mFlushSensorEnabledVector := [] }

/-- A device whose `read` delivers the bytes `bs`, whatever number is asked for. -/
def devBytes (bs : List Nat) : Int → ReadOutcome := fun _ => ReadOutcome.data bs

/-- A RAW_GYRO packet of `iamLayout` with axes (100, 0, 0) and timestamp 1000. -/
def demoGyroPacket : List Nat :=
  [2, 0, 0, 0, 100, 0, 0, 0, 0, 0, 0, 0, 0, 0, 0, 0, 232, 3, 0, 0, 0, 0, 0, 0]

/-- A MARKER packet of `iamLayout` carrying the identifier `x` (below 256). -/
def demoMarker (x : Nat) : List Nat := [17, 0, 0, 0, x, 0, 0, 0]

/-! ## Sequences of decode passes -/

/-- One call of `readMpuEvents`: its `count` argument and the behaviour of the device
`read` during the call. -/
structure Pass where
  count : Int
  dev : Int → ReadOutcome

/-- What a sequence of `readMpuEvents` calls produces: the final state, the events written
(in emission order), the marker identifiers detected (in decode order) and the `count`
arguments of the `readEvents` calls made. -/
structure RunResult where
  s : MPLSensor
  out : List sensors_event_t
  markers : List Int
  calls : List Int
  deriving DecidableEq, Repr

/-- A sequence of `readMpuEvents` calls, one per element of the list. -/
def runPasses (L : Layout) : MPLSensor → List Pass → Option RunResult
  | s, [] => some { s := s, out := [], markers := [], calls := [] }
  | s, p :: ps =>
    match readMpuEvents L s p.count p.dev with
    | none => none
    | some r =>
      match runPasses L r.s ps with
      | none => none
      | some rr =>
        some { s := rr.s, out := r.out ++ rr.out, markers := r.markers ++ rr.markers,
               calls := r.calls ++ rr.calls }

/-- A RAW_ACCEL packet of `iamLayout` with axes (0, 0, 16384) and timestamp 1000. -/
def demoAccelPacket : List Nat :=
  [1, 0, 0, 0, 0, 0, 0, 0, 0, 0, 0, 0, 0, 64, 0, 0, 232, 3, 0, 0, 0, 0, 0, 0]

/-- The loop state at the start of the decode loop when the read buffer of
`demoGyroOn false` holds exactly the bytes `pkt`. -/
def demoLoopState (pkt : List Nat) : LoopState :=
  { s := { demoGyroOn false with
             mIIOReadBuffer := writeAt (demoGyroOn false).mIIOReadBuffer 0 pkt,
             mIIOReadSize := pkt.length },
    ptr := 0, count := 4, numEventReceived := 0, left_over := 0, out := [], markers := [],
    calls := [] }

/-- The driver `demoGyroOn compass` with the flush queue `q`. -/
def demoWithQueue (compass : Bool) (q : List Int) : MPLSensor :=
  { demoGyroOn compass with mFlushSensorEnabledVector := q }

/-- Two calls of `readMpuEvents` with capacity `count`, the device delivering the first
`k` bytes of `p` during the first call and the remaining bytes during the second: the
final state and all events written. -/
def splitRun (L : Layout) (s : MPLSensor) (count : Int) (p : List Nat) (k : Nat) :
    Option (MPLSensor × List sensors_event_t) :=
  match readMpuEvents L s count (devBytes (p.take k)) with
  | none => none
  | some r1 =>
    match readMpuEvents L r1.s count (devBytes (p.drop k)) with
    | none => none
    | some r2 => some (r2.s, r1.out ++ r2.out)

/-- One call of `readMpuEvents` with capacity `count`, the device delivering all of `p`:
the final state and the events written. -/
def wholeRun (L : Layout) (s : MPLSensor) (count : Int) (p : List Nat) :
    Option (MPLSensor × List sensors_event_t) :=
  (readMpuEvents L s count (devBytes p)).map (fun r => (r.s, r.out))

/-! ## Batch timeout: views and the claimed value -/

/-- The test `mBatchEnabled & (1LL << i)` of `updateBatchTimeout`. -/
def batchActive (s : MPLSensor) (i : Nat) : Prop := s.mBatchEnabled &&& (1 <<< i) ≠ 0

instance (s : MPLSensor) (i : Nat) : Decidable (batchActive s i) := by
  unfold batchActive; infer_instance

/-- The latency an enabled channel asks for: its requested latency when it is
batching-active, zero when it streams. -/
def requestedNs (s : MPLSensor) (c : Nat) : Int :=
  if batchActive s c then s.mBatchTimeouts.get c else 0

/-- The effective timeout in nanoseconds in words: zero when no channel is batching-active,
otherwise the least of the sentinel and of what the enabled channels ask for. -/
def amendedTimeoutNs (s : MPLSensor) : Int :=
  if s.mBatchEnabled = 0 then 0
  else
    (((List.range TotalNumSensors).filter (fun c => chanEnabled s c)).map
      (requestedNs s)).foldl min BATCH_SENTINEL

/-- The effective batch timeout in milliseconds as claim C10 words it: the floor of
`m / 1000000` for the least requested latency `m` among the channels that are both enabled
and batching-active, and zero when there is no such channel. -/
def claimedBatchTimeoutMs (s : MPLSensor) : Int :=
  match (((List.range TotalNumSensors).filter
      (fun c => chanEnabled s c ∧ batchActive s c)).map (fun c => s.mBatchTimeouts.get c)).min? with
  | none => 0
  | some m => Int.fdiv m 1000000

/-- The driver state with the stored batch timeout and the directive record blanked out. -/
def bcore (s : MPLSensor) : MPLSensor :=
  { s with mBatchTimeoutInMs := 0, sysfs := [] }

/-- The state `enable` reaches just before its final `updateBatchTimeout()` call, for an
accepted request on channel `w`. -/
def enableBody (s : MPLSensor) (w : Nat) (en now : Int) : MPLSensor :=
  let s1 := if en = 0 then { s with mBatchEnabled := s.mBatchEnabled &&& not64 (1 <<< w) }
            else s
  let s2 := if s1.mEnabled = 0 then { s1 with mIIOReadSize := 0 } else s1
  let newState : Nat := if en ≠ 0 then 1 else 0
  if (newState <<< w) ≠ (s2.mEnabled &&& (1 <<< w)) then
    let s4 := { s2 with mEnabled := (s2.mEnabled &&& not64 (1 <<< w)) ||| (newState <<< w) }
    let s5 := match w with
      | 0 => enableGyro s4 en
      | 1 => enableAccel s4 en
      | 2 => enableCompass s4 en
      | _ => s4
    { s5 with mEnabledTime := s5.mEnabledTime.set w (if en ≠ 0 then now else 0) }
  else s2

/-- The state `batch` reaches just before its `updateBatchTimeout()` call, for channel `w`
and the timeout left after the batch-support test. -/
def batchBody (s : MPLSensor) (w : Nat) (timeout1 : Int) : MPLSensor :=
  if timeout1 = 0 then
    { s with mBatchEnabled := s.mBatchEnabled &&& not64 (1 <<< w),
             mBatchTimeouts := s.mBatchTimeouts.set w BATCH_SENTINEL }
  else
    { s with mBatchEnabled := s.mBatchEnabled ||| (1 <<< w),
             mBatchTimeouts := s.mBatchTimeouts.set w timeout1 }

/-- The timeout `batch` goes on with after the "does not support batch mode" test. -/
def batchTimeout1 (e : sensor_t) (timeout : Int) : Int :=
  if e.fifoMaxEventCount ≠ 0 then timeout else if timeout > 0 then 0 else timeout

/-- The driver `demoDriver compass` after `enable(ID_RG, 1)` at time 5 and
`enable(ID_A, 1)` at time 6. -/
def demoBothOn (compass : Bool) : MPLSensor :=
  (enable (enable (demoDriver compass) ID_RG 1 5).2 ID_A 1 6).2

/-- The first two statements of `enable` after the handle test: the batch flag of the
channel is cleared when `en` is zero, and the carry length is reset when no channel is
enabled. -/
def enablePre (s : MPLSensor) (w : Nat) (en : Int) : MPLSensor :=
  let s1 := if en = 0 then { s with mBatchEnabled := s.mBatchEnabled &&& not64 (1 <<< w) }
            else s
  if s1.mEnabled = 0 then { s1 with mIIOReadSize := 0 } else s1

/-- The body of the `if` of `enable` that changes the enabled state of channel `w`. -/
def enableChange (s2 : MPLSensor) (w : Nat) (en now : Int) : MPLSensor :=
  let newState : Nat := if en ≠ 0 then 1 else 0
  let s4 := { s2 with mEnabled := (s2.mEnabled &&& not64 (1 <<< w)) ||| (newState <<< w) }
  let s5 := match w with
    | 0 => enableGyro s4 en
    | 1 => enableAccel s4 en
    | 2 => enableCompass s4 en
    | _ => s4
  { s5 with mEnabledTime := s5.mEnabledTime.set w (if en ≠ 0 then now else 0) }


/-- One `enable` request: the handle, the flag `en` and the time of the call. -/
structure EnableCall where
  handle : Int
  en : Int
  now : Int
  deriving DecidableEq, Repr

/-- A sequence of `enable` calls, the return values dropped. -/
def runEnables (s : MPLSensor) : List EnableCall → MPLSensor
  | [] => s
  | c :: cs => runEnables (enable s c.handle c.en c.now).2 cs

/-- Whether the most recent call of the list that addresses channel `c` asks for the
enabled state; `init` when no call addresses the channel. -/
def lastRequest (init : Bool) (c : Nat) : List EnableCall → Bool
  | [] => init
  | x :: xs => lastRequest (if getHandle x.handle = c then decide (x.en ≠ 0) else init) c xs

/-! ## Resynchronisation: views -/

/-- The state with the stream buffer and its fill level replaced. -/
def setBuf (s : MPLSensor) (b : List Nat) (n : Nat) : MPLSensor :=
  { s with mIIOReadBuffer := b, mIIOReadSize := n }

/-- The header `h` is one of the four `case` labels of the decoder's `switch`. -/
def knownHeader (L : Layout) (h : Nat) : Prop :=
  h = L.DATA_FORMAT_MARKER ∨ h = L.DATA_FORMAT_EMPTY_MARKER ∨
  h = L.DATA_FORMAT_RAW_GYRO ∨ h = L.DATA_FORMAT_ACCEL

instance (L : Layout) (h : Nat) : Decidable (knownHeader L h) := by
  unfold knownHeader; infer_instance

/-- The bytes `p` are one complete packet: they start with a known header and are as many
as the size of that packet kind. -/
def completePacket (L : Layout) (p : List Nat) : Prop :=
  (rdU16 p 0 = L.DATA_FORMAT_MARKER ∧ p.length = L.DATA_FORMAT_MARKER_SZ) ∨
  (rdU16 p 0 = L.DATA_FORMAT_EMPTY_MARKER ∧ p.length = L.DATA_FORMAT_EMPTY_MARKER_SZ) ∨
  (rdU16 p 0 = L.DATA_FORMAT_RAW_GYRO ∧ p.length = L.DATA_FORMAT_RAW_GYRO_SZ) ∨
  (rdU16 p 0 = L.DATA_FORMAT_ACCEL ∧ p.length = L.DATA_FORMAT_ACCEL_SZ)

instance (L : Layout) (p : List Nat) : Decidable (completePacket L p) := by
  unfold completePacket; infer_instance

/-- Every packet kind is at least as long as the bytes the decoder reads of it: the marker
identifier ends at offset 8, the timestamp of a sample packet at offset 24. -/
def Layout.fieldsFit (L : Layout) : Prop :=
  8 ≤ L.DATA_FORMAT_MARKER_SZ ∧ 8 ≤ L.DATA_FORMAT_EMPTY_MARKER_SZ ∧
  24 ≤ L.DATA_FORMAT_RAW_GYRO_SZ ∧ 24 ≤ L.DATA_FORMAT_ACCEL_SZ

instance (L : Layout) : Decidable L.fieldsFit := by
  unfold Layout.fieldsFit; infer_instance

/-- The local variables of `readMpuEvents` at the entry of its decode loop, after the device
delivered the bytes `bs`. -/
def loopStart (L : Layout) (s : MPLSensor) (count : Int) (bs : List Nat) : LoopState :=
  { s := { s with mIIOReadBuffer := writeAt s.mIIOReadBuffer s.mIIOReadSize bs,
                  mIIOReadSize := s.mIIOReadSize + bs.length },
    ptr := 0,
    count := if s.mCompassSensor then count - L.COMPASS_SEN_EVENT_RESV_SZ else count,
    numEventReceived := 0, left_over := 0, out := [], markers := [], calls := [] }

/-- The loop state after `n` iterations of the decode loop that do not leave it. -/
def iterate (L : Layout) : Nat → LoopState → LoopState
  | 0, ls => ls
  | n + 1, ls => iterate L n (decodeIter L ls).1

/-- The `switch (header)` statement of `readMpuEvents` as a function of the values it reads
at the decode position: the header, the three words at offsets 4, 8 and 12, the long word
at offset 16, and the number `rem` of bytes from the decode position to the fill level. -/
def applyHeader (L : Layout) (s : MPLSensor) (header : Nat) (w4 w8 w12 t16 : Int)
    (rem ptr left_over : Nat) : SwitchResult :=
  if header = L.DATA_FORMAT_MARKER then
    if rem < L.DATA_FORMAT_MARKER_SZ then
      { s := s, ptr := ptr, data_found := false, left_over := rem, detected := none }
    else
      { s := { s with mFlushSensorEnabledVector := s.mFlushSensorEnabledVector ++ [w4] },
        ptr := ptr + L.DATA_FORMAT_MARKER_SZ, data_found := true, left_over := left_over,
        detected := some w4 }
  else if header = L.DATA_FORMAT_EMPTY_MARKER then
    if rem < L.DATA_FORMAT_EMPTY_MARKER_SZ then
      { s := s, ptr := ptr, data_found := false, left_over := rem, detected := none }
    else
      { s := { s with mFlushSensorEnabledVector := s.mFlushSensorEnabledVector ++ [w4] },
        ptr := ptr + L.DATA_FORMAT_EMPTY_MARKER_SZ, data_found := true, left_over := left_over,
        detected := some w4 }
  else if header = L.DATA_FORMAT_RAW_GYRO then
    if rem < L.DATA_FORMAT_RAW_GYRO_SZ then
      { s := s, ptr := ptr, data_found := false, left_over := rem, detected := none }
    else
      { s := { s with mCachedGyroData := { x := w4, y := w8, z := w12 },
                      mGyroSensorTimestamp := t16 },
        ptr := ptr + L.DATA_FORMAT_RAW_GYRO_SZ, data_found := true, left_over := left_over,
        detected := none }
  else if header = L.DATA_FORMAT_ACCEL then
    if rem < L.DATA_FORMAT_ACCEL_SZ then
      { s := s, ptr := ptr, data_found := false, left_over := rem, detected := none }
    else
      { s := { s with mCachedAccelData := { x := w4, y := w8, z := w12 },
                      mAccelSensorTimestamp := t16 },
        ptr := ptr + L.DATA_FORMAT_ACCEL_SZ, data_found := true, left_over := left_over,
        detected := none }
  else
    { s := s, ptr := ptr + 1, data_found := false, left_over := left_over, detected := none }

/-- The result `r` of the `switch` at position `q`, moved to position `p` of the buffer `b`
with fill level `n`. -/
def shiftResult (r : SwitchResult) (b : List Nat) (n p q : Nat) : SwitchResult :=
  { s := setBuf r.s b n, ptr := p + (r.ptr - q), data_found := r.data_found,
    left_over := r.left_over, detected := r.detected }

/-- The loop state `x` reached from position `q`, moved to position `p` of the buffer `b`
with fill level `n`. -/
def shiftLoop (x : LoopState) (b : List Nat) (n p q : Nat) : LoopState :=
  { x with s := setBuf x.s b n, ptr := p + (x.ptr - q) }

/-! ## The carry: views -/

/-- The size of the packet kind the decoder's `switch` selects for the header `h`, if it
selects one. -/
def packetSize (L : Layout) (h : Nat) : Option Nat :=
  if h = L.DATA_FORMAT_MARKER then some L.DATA_FORMAT_MARKER_SZ
  else if h = L.DATA_FORMAT_EMPTY_MARKER then some L.DATA_FORMAT_EMPTY_MARKER_SZ
  else if h = L.DATA_FORMAT_RAW_GYRO then some L.DATA_FORMAT_RAW_GYRO_SZ
  else if h = L.DATA_FORMAT_ACCEL then some L.DATA_FORMAT_ACCEL_SZ
  else none

/-! # Theorems -/

/-! ## Event assembly: basic facts -/

theorem range_ID_NUMBER : List.range ID_NUMBER = [0, 1, 2] := by decide

theorem mHandlers_core (i : Nat) (s : MPLSensor) : core (mHandlers i s).2 = core s := by
  unfold mHandlers
  split <;> rfl

theorem mHandlers_flush (i : Nat) (s : MPLSensor) :
    (mHandlers i s).2.mFlushSensorEnabledVector = s.mFlushSensorEnabledVector := by
  unfold mHandlers
  split <;> rfl

theorem mHandlers_update (i : Nat) (hi : i < 3) (s : MPLSensor) :
    (mHandlers i s).1 =
      freshSample (cachedTimestamp s i) (prevTimestamp s i) (s.mEnabledTime.get i) := by
  interval_cases i <;> rfl

theorem mHandlers_event (i : Nat) (hi : i < 3) (s : MPLSensor) :
    (mHandlers i s).2.mPendingEvents.get i = dataEvent s i := by
  interval_cases i <;> rfl

theorem mHandlers_prev (i : Nat) (hi : i < 3) (s : MPLSensor) :
    prevTimestamp (mHandlers i s).2 i = cachedTimestamp s i := by
  interval_cases i <;> rfl

theorem mHandlers_prev_other (i j : Nat) (hi : i < 3) (hj : j < 3) (hij : i ≠ j)
    (s : MPLSensor) : prevTimestamp (mHandlers j s).2 i = prevTimestamp s i := by
  interval_cases i <;> interval_cases j <;> first | rfl | exact absurd rfl hij

theorem mHandlers_pending_other (i j : Nat) (hi : i < 3) (hj : j < 3) (hij : i ≠ j)
    (s : MPLSensor) : (mHandlers j s).2.mPendingEvents.get i = s.mPendingEvents.get i := by
  interval_cases i <;> interval_cases j <;> first | rfl | exact absurd rfl hij

theorem freshSample_cases (a b c : Int) :
    (freshSample a b c = 1 ∧ a > b ∧ a > c) ∨ (freshSample a b c = 0 ∧ ¬ (a > b ∧ a > c)) := by
  unfold freshSample
  split_ifs with h
  · exact Or.inl ⟨rfl, h⟩
  · exact Or.inr ⟨rfl, h⟩

theorem core_eq_enabled {s t : MPLSensor} (h : core s = core t) (i : Nat) :
    chanEnabled s i ↔ chanEnabled t i := by
  have : s.mEnabled = t.mEnabled := by
    have h9 := congrArg MPLSensor.mEnabled h; exact h9
  unfold chanEnabled; rw [this]

theorem core_eq_cachedTimestamp {s t : MPLSensor} (h : core s = core t) (i : Nat) :
    cachedTimestamp s i = cachedTimestamp t i := by
  have h0 : s.mGyroSensorTimestamp = t.mGyroSensorTimestamp := by
    have h9 := congrArg MPLSensor.mGyroSensorTimestamp h; exact h9
  have h1 : s.mAccelSensorTimestamp = t.mAccelSensorTimestamp := by
    have h9 := congrArg MPLSensor.mAccelSensorTimestamp h; exact h9
  have h2 : s.mCompassTimestamp = t.mCompassTimestamp := by
    have h9 := congrArg MPLSensor.mCompassTimestamp h; exact h9
  unfold cachedTimestamp; split <;> assumption

theorem core_eq_cachedData {s t : MPLSensor} (h : core s = core t) (i : Nat) :
    cachedData s i = cachedData t i := by
  have h0 : s.mCachedGyroData = t.mCachedGyroData := by
    have h9 := congrArg MPLSensor.mCachedGyroData h; exact h9
  have h1 : s.mCachedAccelData = t.mCachedAccelData := by
    have h9 := congrArg MPLSensor.mCachedAccelData h; exact h9
  have h2 : s.mCachedCompassData = t.mCachedCompassData := by
    have h9 := congrArg MPLSensor.mCachedCompassData h; exact h9
  unfold cachedData; split <;> assumption

theorem core_eq_orientationMatrix {s t : MPLSensor} (h : core s = core t) (i : Nat) :
    orientationMatrix s i = orientationMatrix t i := by
  have h0 : s.mGyroOrientationMatrix = t.mGyroOrientationMatrix := by
    have h9 := congrArg MPLSensor.mGyroOrientationMatrix h; exact h9
  have h1 : s.mAccelOrientationMatrix = t.mAccelOrientationMatrix := by
    have h9 := congrArg MPLSensor.mAccelOrientationMatrix h; exact h9
  have h2 : s.mCompassOrientationMatrix = t.mCompassOrientationMatrix := by
    have h9 := congrArg MPLSensor.mCompassOrientationMatrix h; exact h9
  unfold orientationMatrix; split <;> assumption

theorem core_eq_enabledTime {s t : MPLSensor} (h : core s = core t) :
    s.mEnabledTime = t.mEnabledTime := by
    have h9 := congrArg MPLSensor.mEnabledTime h; exact h9

/-- The data event of a channel depends only on the stable part of the state and on the
pending event of the channel. -/
theorem dataEvent_congr {s t : MPLSensor} (h : core s = core t) (i : Nat)
    (hp : s.mPendingEvents.get i = t.mPendingEvents.get i) : dataEvent s i = dataEvent t i := by
  unfold dataEvent
  rw [hp, core_eq_cachedData h, core_eq_orientationMatrix h, core_eq_cachedTimestamp h]

theorem readEventsStep_core (acc : EvAcc) (i : Nat) :
    core (readEventsStep acc i).s = core acc.s := by
  unfold readEventsStep
  dsimp only
  split_ifs <;> simp [mHandlers_core]

theorem readEventsFlush_core (s : MPLSensor) (count : Int) :
    core (readEventsFlush s count).s = core s := by
  unfold readEventsFlush metaHandler
  dsimp only
  split_ifs <;> rfl

theorem readEvents_core (s : MPLSensor) (count : Int) :
    core (readEvents s count).s = core s := by
  simp [readEvents, range_ID_NUMBER, readEventsStep_core, readEventsFlush_core]

theorem readEventsFlush_ok (s : MPLSensor) (count : Int) :
    (readEventsFlush s count).ok count := by
  unfold readEventsFlush EvAcc.ok
  rw [metaHandler_flush]
  dsimp only
  split_ifs with h1 h2
  · refine ⟨by simp, by simp, fun _ => by simp; omega, fun h => ?_⟩
    exact absurd h2.2 (by omega)
  all_goals simp

theorem readEventsStep_ok (c0 : Int) (acc : EvAcc) (i : Nat) (h : acc.ok c0) :
    (readEventsStep acc i).ok c0 := by
  obtain ⟨h1, h2, h3, h4⟩ := h
  unfold readEventsStep EvAcc.ok
  dsimp only
  split_ifs with ha hb
  · refine ⟨by simp [h1], by simp; omega, fun h => by simp; have := h3 h; omega, fun h => ?_⟩
    exfalso
    have := hb.2
    have := h4 h
    simp [this] at h1
    omega
  · exact ⟨h1, h2, h3, h4⟩
  · exact ⟨h1, h2, h3, h4⟩

theorem readEvents_ok (s : MPLSensor) (count : Int) : (readEvents s count).ok count := by
  simp only [readEvents, range_ID_NUMBER, List.foldl]
  exact readEventsStep_ok _ _ _ (readEventsStep_ok _ _ _ (readEventsStep_ok _ _ _
    (readEventsFlush_ok s count)))

/-! ## Event assembly: what `readEvents` writes -/

theorem readEventsFlush_stage (s : MPLSensor) (count : Int) :
    stageInv s (readEventsFlush s count).s 0 := by
  refine ⟨readEventsFlush_core s count, fun j _ _ => ?_, fun j hj => absurd hj (by omega)⟩
  unfold readEventsFlush
  rw [metaHandler_flush]
  dsimp only
  split_ifs <;> exact ⟨rfl, by unfold prevTimestamp; rfl⟩

theorem readEventsStep_stage (s : MPLSensor) (acc : EvAcc) (i : Nat) (hi : i < 3)
    (h : stageInv s acc.s i) :
    stageInv s (readEventsStep acc i).s (i + 1) ∧
    (readEventsStep acc i).s.mFlushSensorEnabledVector = acc.s.mFlushSensorEnabledVector ∧
    ∃ d, (readEventsStep acc i).out = acc.out ++ d ∧
      (d = [] ∨ (d = [dataEvent s i] ∧ chanEnabled s i ∧ isFresh s i ∧ acc.count > 0)) := by
  obtain ⟨hc, hfut, hpast⟩ := h
  have hen : chanEnabled acc.s i ↔ chanEnabled s i := core_eq_enabled hc i
  by_cases he : chanEnabled acc.s i
  · -- the handler of channel i runs
    have hs : (readEventsStep acc i).s = (mHandlers i acc.s).2 := by
      unfold readEventsStep
      have he1 : acc.s.mEnabled &&& (1 <<< i) ≠ 0 := he
      rw [if_pos he1]
      dsimp only
      split_ifs <;> rfl
    have hstage : stageInv s (mHandlers i acc.s).2 (i + 1) := by
      refine ⟨(mHandlers_core i acc.s).trans hc, fun j hj hj3 => ?_, fun j hj hjen => ?_⟩
      · have hne : j ≠ i := by omega
        rw [mHandlers_pending_other j i hj3 hi hne, mHandlers_prev_other j i hj3 hi hne]
        exact hfut j (by omega) hj3
      · by_cases hji : j = i
        · subst hji
          rw [mHandlers_prev j hi, core_eq_cachedTimestamp hc]
        · rw [mHandlers_prev_other j i (by omega) hi hji]
          exact hpast j (by omega) hjen
    refine ⟨hs ▸ hstage, by rw [hs, mHandlers_flush], ?_⟩
    have hev : (mHandlers i acc.s).2.mPendingEvents.get i = dataEvent s i := by
      rw [mHandlers_event i hi]
      exact dataEvent_congr hc i (hfut i (le_refl i) hi).1
    have hup : (mHandlers i acc.s).1 =
        freshSample (cachedTimestamp s i) (prevTimestamp s i) (s.mEnabledTime.get i) := by
      rw [mHandlers_update i hi, core_eq_cachedTimestamp hc, (hfut i (le_refl i) hi).2,
        core_eq_enabledTime hc]
    by_cases hw : (mHandlers i acc.s).1 ≠ 0 ∧ acc.count > 0
    · refine ⟨[dataEvent s i], ?_, Or.inr ⟨rfl, hen.mp he, ?_, hw.2⟩⟩
      · unfold readEventsStep
        have he1 : acc.s.mEnabled &&& (1 <<< i) ≠ 0 := he
        rw [if_pos he1]
        dsimp only
        rw [if_pos hw, hev]
      · rcases freshSample_cases (cachedTimestamp s i) (prevTimestamp s i)
          (s.mEnabledTime.get i) with h1 | h1
        · exact h1.2
        · exact absurd (hup.trans h1.1) hw.1
    · refine ⟨[], ?_, Or.inl rfl⟩
      unfold readEventsStep
      have he1 : acc.s.mEnabled &&& (1 <<< i) ≠ 0 := he
      rw [if_pos he1]
      dsimp only
      rw [if_neg hw]
      simp
  · -- channel i is not enabled: nothing happens
    have hs : readEventsStep acc i = acc := by
      unfold readEventsStep
      have he1 : ¬ (acc.s.mEnabled &&& (1 <<< i) ≠ 0) := he
      rw [if_neg he1]
    rw [hs]
    refine ⟨⟨hc, fun j hj hj3 => hfut j (by omega) hj3, fun j hj hjen => ?_⟩, rfl, [], by simp,
      Or.inl rfl⟩
    by_cases hji : j = i
    · subst hji
      exact absurd (hen.mpr hjen) he
    · exact hpast j (by omega) hjen

/-- The events `readEvents` writes: at most one flush-complete event, then at most one data
event per channel in increasing channel index, each only for an enabled channel whose cached
sample passes the stale-data test at entry; afterwards the flush queue has lost its front
entry and every enabled channel has its previous timestamp equal to the cached one. -/
theorem readEvents_out (s : MPLSensor) (count : Int) :
    ∃ d0 d1 d2,
      (readEvents s count).out = (readEventsFlush s count).out ++ d0 ++ d1 ++ d2 ∧
      (d0 = [] ∨ (d0 = [dataEvent s 0] ∧ chanEnabled s 0 ∧ isFresh s 0)) ∧
      (d1 = [] ∨ (d1 = [dataEvent s 1] ∧ chanEnabled s 1 ∧ isFresh s 1)) ∧
      (d2 = [] ∨ (d2 = [dataEvent s 2] ∧ chanEnabled s 2 ∧ isFresh s 2)) ∧
      (readEvents s count).s.mFlushSensorEnabledVector = s.mFlushSensorEnabledVector.tail ∧
      ∀ j, j < 3 → chanEnabled s j →
        prevTimestamp (readEvents s count).s j = cachedTimestamp s j := by
  simp only [readEvents, range_ID_NUMBER, List.foldl]
  obtain ⟨hs0, hf0, d0, ho0, hd0⟩ :=
    readEventsStep_stage s (readEventsFlush s count) 0 (by omega) (readEventsFlush_stage s count)
  obtain ⟨hs1, hf1, d1, ho1, hd1⟩ := readEventsStep_stage s _ 1 (by omega) hs0
  obtain ⟨hs2, hf2, d2, ho2, hd2⟩ := readEventsStep_stage s _ 2 (by omega) hs1
  refine ⟨d0, d1, d2, by rw [ho2, ho1, ho0], ?_, ?_, ?_, ?_, fun j hj hen => hs2.2.2 j hj hen⟩
  · rcases hd0 with h | h
    · exact Or.inl h
    · exact Or.inr ⟨h.1, h.2.1, h.2.2.1⟩
  · rcases hd1 with h | h
    · exact Or.inl h
    · exact Or.inr ⟨h.1, h.2.1, h.2.2.1⟩
  · rcases hd2 with h | h
    · exact Or.inl h
    · exact Or.inr ⟨h.1, h.2.1, h.2.2.1⟩
  · rw [hf2, hf1, hf0]
    unfold readEventsFlush
    rw [metaHandler_flush]
    dsimp only
    split_ifs with h1 h2
    · rfl
    · rfl
    · simp at h1
      simp [h1]

theorem readEventsFlush_out (s : MPLSensor) (count : Int) :
    (readEventsFlush s count).out =
      if s.mFlushSensorEnabledVector ≠ [] ∧ count > 0 then
        [flushEvent (s.mFlushSensorEnabledVector.headD 0)]
      else [] := by
  unfold readEventsFlush
  rw [metaHandler_flush]
  dsimp only
  split_ifs with h1 h2 h3 h4 h5 <;> first | rfl | (exfalso; simp_all) 

/-! ## Claims on event assembly -/

/-- C4 (stale-data suppression).  Each of the handlers `rawGyroHandler`, `accelHandler` and
`rawCompassHandler` reports an update only if the cached timestamp of its channel is
strictly greater than both the previous timestamp and `mEnabledTime` of the channel; it
always leaves the previous timestamp equal to the (unchanged) cached timestamp and stamps
the pending event with it.  Every event `readEvents` writes is a flush-complete event or the
data event of an enabled channel whose cached timestamp passes that test at entry, carrying
the cached timestamp; and after `readEvents` every enabled channel has its previous
timestamp equal to its cached timestamp, whether or not its event was written. -/
theorem C4_stale_data_suppression (s : MPLSensor) (count : Int) :
    (((rawGyroHandler s).1 ≠ 0 →
        s.mGyroSensorTimestamp > s.mGyroSensorPrevTimestamp ∧
        s.mGyroSensorTimestamp > s.mEnabledTime.get RawGyro) ∧
      (rawGyroHandler s).2.mGyroSensorTimestamp = s.mGyroSensorTimestamp ∧
      (rawGyroHandler s).2.mGyroSensorPrevTimestamp = s.mGyroSensorTimestamp ∧
      ((rawGyroHandler s).2.mPendingEvents.get RawGyro).timestamp = s.mGyroSensorTimestamp) ∧
    (((accelHandler s).1 ≠ 0 →
        s.mAccelSensorTimestamp > s.mAccelSensorPrevTimestamp ∧
        s.mAccelSensorTimestamp > s.mEnabledTime.get Accelerometer) ∧
      (accelHandler s).2.mAccelSensorTimestamp = s.mAccelSensorTimestamp ∧
      (accelHandler s).2.mAccelSensorPrevTimestamp = s.mAccelSensorTimestamp ∧
      ((accelHandler s).2.mPendingEvents.get Accelerometer).timestamp =
        s.mAccelSensorTimestamp) ∧
    (((rawCompassHandler s).1 ≠ 0 →
        s.mCompassTimestamp > s.mCompassPrevTimestamp ∧
        s.mCompassTimestamp > s.mEnabledTime.get RawMagneticField) ∧
      (rawCompassHandler s).2.mCompassTimestamp = s.mCompassTimestamp ∧
      (rawCompassHandler s).2.mCompassPrevTimestamp = s.mCompassTimestamp ∧
      ((rawCompassHandler s).2.mPendingEvents.get RawMagneticField).timestamp =
        s.mCompassTimestamp) ∧
    (∀ e ∈ (readEvents s count).out,
      (∃ x, e = flushEvent x) ∨
      ∃ i, i < 3 ∧ e = dataEvent s i ∧ chanEnabled s i ∧
        cachedTimestamp s i > prevTimestamp s i ∧
        cachedTimestamp s i > s.mEnabledTime.get i ∧
        e.timestamp = cachedTimestamp s i) ∧
    (∀ i, i < 3 → chanEnabled s i →
      prevTimestamp (readEvents s count).s i = cachedTimestamp s i ∧
      cachedTimestamp (readEvents s count).s i = cachedTimestamp s i) := by
  have hfresh : ∀ a b c : Int, freshSample a b c ≠ 0 → a > b ∧ a > c := by
    intro a b c h
    rcases freshSample_cases a b c with h1 | h1
    · exact h1.2
    · exact absurd h1.1 h
  refine ⟨⟨hfresh _ _ _, rfl, rfl, rfl⟩, ⟨hfresh _ _ _, rfl, rfl, rfl⟩,
    ⟨hfresh _ _ _, rfl, rfl, rfl⟩, ?_, ?_⟩
  · obtain ⟨d0, d1, d2, hout, h0, h1, h2, -, -⟩ := readEvents_out s count
    intro e he
    rw [hout, readEventsFlush_out] at he
    simp only [List.mem_append] at he
    rcases he with ((he | he) | he) | he
    · left
      split_ifs at he
      · exact ⟨_, List.mem_singleton.mp he⟩
      · exact absurd he (List.not_mem_nil e)
    · right
      rcases h0 with h | h
      · rw [h] at he; exact absurd he (List.not_mem_nil e)
      · rw [h.1] at he
        have := List.mem_singleton.mp he
        exact ⟨0, by omega, this, h.2.1, h.2.2.1, h.2.2.2, by rw [this]; rfl⟩
    · right
      rcases h1 with h | h
      · rw [h] at he; exact absurd he (List.not_mem_nil e)
      · rw [h.1] at he
        have := List.mem_singleton.mp he
        exact ⟨1, by omega, this, h.2.1, h.2.2.1, h.2.2.2, by rw [this]; rfl⟩
    · right
      rcases h2 with h | h
      · rw [h] at he; exact absurd he (List.not_mem_nil e)
      · rw [h.1] at he
        have := List.mem_singleton.mp he
        exact ⟨2, by omega, this, h.2.1, h.2.2.1, h.2.2.2, by rw [this]; rfl⟩
  · obtain ⟨d0, d1, d2, -, -, -, -, -, hprev⟩ := readEvents_out s count
    intro i hi hen
    exact ⟨hprev i hi hen, core_eq_cachedTimestamp (readEvents_core s count) i⟩

/-- C5 (flush priority within one call).  When the flush queue is `x :: rest` and
`count ≥ 1`, `readEvents` writes into slot 0 the `SENSOR_TYPE_META_DATA` event with
`meta_data.what = META_DATA_FLUSH_COMPLETE` and `meta_data.sensor = x`, leaves the queue
equal to `rest`, and writes after it at most one data event per channel in the order
gyroscope, accelerometer, magnetometer; when the queue is empty the output consists of such
data events only, none of which is a meta event, and the queue stays empty. -/
theorem C5_flush_priority (s : MPLSensor) (count : Int) :
    ∃ d0 d1 d2,
      (d0 = [] ∨ d0 = [dataEvent s RawGyro]) ∧
      (d1 = [] ∨ d1 = [dataEvent s Accelerometer]) ∧
      (d2 = [] ∨ d2 = [dataEvent s RawMagneticField]) ∧
      (∀ e ∈ d0 ++ d1 ++ d2, ∀ w x, e.payload ≠ Payload.metaData w x) ∧
      (∀ x rest, s.mFlushSensorEnabledVector = x :: rest → 1 ≤ count →
        (readEvents s count).out =
          { sensor := 0, type := SENSOR_TYPE_META_DATA, timestamp := 0,
            payload := Payload.metaData META_DATA_FLUSH_COMPLETE x } :: (d0 ++ d1 ++ d2) ∧
        (readEvents s count).s.mFlushSensorEnabledVector = rest) ∧
      (s.mFlushSensorEnabledVector = [] →
        (readEvents s count).out = d0 ++ d1 ++ d2 ∧
        (readEvents s count).s.mFlushSensorEnabledVector = []) := by
  obtain ⟨d0, d1, d2, hout, h0, h1, h2, hfl, -⟩ := readEvents_out s count
  have hd0 : d0 = [] ∨ d0 = [dataEvent s RawGyro] := h0.imp id (fun h => h.1)
  have hd1 : d1 = [] ∨ d1 = [dataEvent s Accelerometer] := h1.imp id (fun h => h.1)
  have hd2 : d2 = [] ∨ d2 = [dataEvent s RawMagneticField] := h2.imp id (fun h => h.1)
  refine ⟨d0, d1, d2, hd0, hd1, hd2, ?_, ?_, ?_⟩
  · intro e he w x
    simp only [List.mem_append] at he
    have hde : ∀ i, (dataEvent s i).payload ≠ Payload.metaData w x := by
      intro i h
      simp [dataEvent] at h
    rcases he with (he | he) | he
    · rcases hd0 with h | h <;> rw [h] at he
      · exact absurd he (List.not_mem_nil e)
      · rw [List.mem_singleton.mp he]; exact hde _
    · rcases hd1 with h | h <;> rw [h] at he
      · exact absurd he (List.not_mem_nil e)
      · rw [List.mem_singleton.mp he]; exact hde _
    · rcases hd2 with h | h <;> rw [h] at he
      · exact absurd he (List.not_mem_nil e)
      · rw [List.mem_singleton.mp he]; exact hde _
  · intro x rest hq hc
    refine ⟨?_, by rw [hfl, hq]; rfl⟩
    rw [hout, readEventsFlush_out, if_pos ⟨by rw [hq]; simp, by omega⟩, hq]
    simp [flushEvent]
  · intro hq
    refine ⟨?_, by rw [hfl, hq]; rfl⟩
    rw [hout, readEventsFlush_out, if_neg (by rw [hq]; simp)]
    simp

/-! ## The decode loop: basic facts -/

theorem frame_of_core {s t : MPLSensor} (h : core s = core t) : frame s = frame t := by
  unfold frame; rw [h]

theorem frame_eq_size {s t : MPLSensor} (h : frame s = frame t) :
    s.mIIOReadSize = t.mIIOReadSize := by
  have h9 := congrArg MPLSensor.mIIOReadSize h; exact h9

theorem frame_eq_buffer {s t : MPLSensor} (h : frame s = frame t) :
    s.mIIOReadBuffer = t.mIIOReadBuffer := by
  have h9 := congrArg MPLSensor.mIIOReadBuffer h; exact h9

theorem frame_set_flush (s : MPLSensor) (v : List Int) :
    frame { s with mFlushSensorEnabledVector := v } = frame s := rfl

theorem frame_set_gyro (s : MPLSensor) (v : Vec3) (t : Int) :
    frame { s with mCachedGyroData := v, mGyroSensorTimestamp := t } = frame s := rfl

theorem frame_set_accel (s : MPLSensor) (v : Vec3) (t : Int) :
    frame { s with mCachedAccelData := v, mAccelSensorTimestamp := t } = frame s := rfl

theorem decodeSwitch_frame (L : Layout) (s : MPLSensor) (ptr lo : Nat) :
    frame (decodeSwitch L s ptr lo).s = frame s := by
  unfold decodeSwitch
  dsimp only
  split_ifs
  · rfl
  · exact frame_set_flush _ _
  · rfl
  · exact frame_set_flush _ _
  · rfl
  · exact frame_set_gyro _ _ _
  · rfl
  · exact frame_set_accel _ _ _
  · rfl

/-- A step of the `switch` either finds a truncated packet (then `left_over` is positive and
nothing else changes) or moves the decode position forward. -/
theorem decodeSwitch_progress (L : Layout) (hwf : L.wf) (s : MPLSensor) (ptr lo : Nat) :
    ((decodeSwitch L s ptr lo).left_over = s.mIIOReadSize - ptr ∧
      (decodeSwitch L s ptr lo).data_found = false ∧
      (decodeSwitch L s ptr lo).ptr = ptr ∧ (decodeSwitch L s ptr lo).s = s ∧
      (decodeSwitch L s ptr lo).detected = none) ∨
    ((decodeSwitch L s ptr lo).left_over = lo ∧ ptr < (decodeSwitch L s ptr lo).ptr) := by
  obtain ⟨-, -, -, -, -, -, h1, h2, h3, h4⟩ := hwf
  unfold decodeSwitch
  dsimp only
  split_ifs
  · exact Or.inl ⟨rfl, rfl, rfl, rfl, rfl⟩
  · exact Or.inr ⟨rfl, by dsimp only; omega⟩
  · exact Or.inl ⟨rfl, rfl, rfl, rfl, rfl⟩
  · exact Or.inr ⟨rfl, by dsimp only; omega⟩
  · exact Or.inl ⟨rfl, rfl, rfl, rfl, rfl⟩
  · exact Or.inr ⟨rfl, by dsimp only; omega⟩
  · exact Or.inl ⟨rfl, rfl, rfl, rfl, rfl⟩
  · exact Or.inr ⟨rfl, by dsimp only; omega⟩
  · exact Or.inr ⟨rfl, by dsimp only; omega⟩

theorem decodeIter_frame (L : Layout) (ls : LoopState) :
    frame (decodeIter L ls).1.s = frame ls.s := by
  have h1 := decodeSwitch_frame L ls.s ls.ptr ls.left_over
  have h2 := frame_of_core (readEvents_core (decodeSwitch L ls.s ls.ptr ls.left_over).s ls.count)
  unfold decodeIter
  dsimp only
  split_ifs <;> first | exact h2.trans h1 | exact h1

theorem decodeIter_ptr (L : Layout) (ls : LoopState) :
    (decodeIter L ls).1.ptr = (decodeSwitch L ls.s ls.ptr ls.left_over).ptr := by
  unfold decodeIter
  dsimp only
  split_ifs <;> rfl

theorem decodeIter_left_over (L : Layout) (ls : LoopState) :
    (decodeIter L ls).1.left_over = (decodeSwitch L ls.s ls.ptr ls.left_over).left_over := by
  unfold decodeIter
  dsimp only
  split_ifs <;> rfl

/-- An iteration that does not leave the loop moves the decode position forward and
leaves `left_over` as it was. -/
theorem decodeIter_progress (L : Layout) (hwf : L.wf) (ls : LoopState)
    (hptr : ls.ptr < ls.s.mIIOReadSize) (hlo : ls.left_over = 0)
    (hcont : (decodeIter L ls).2 = false) :
    ls.ptr < (decodeIter L ls).1.ptr ∧ (decodeIter L ls).1.left_over = 0 := by
  rw [decodeIter_ptr, decodeIter_left_over]
  rcases decodeSwitch_progress L hwf ls.s ls.ptr ls.left_over with h | h
  · exfalso
    have hpos : (decodeSwitch L ls.s ls.ptr ls.left_over).left_over ≠ 0 := by
      rw [h.1]; omega
    unfold decodeIter at hcont
    dsimp only at hcont
    rw [h.2.1] at hcont
    simp [hpos] at hcont
  · exact ⟨h.2, h.1.trans hlo⟩

theorem decodeLoop_done (L : Layout) (fuel : Nat) (ls : LoopState)
    (h : ¬ ls.ptr < ls.s.mIIOReadSize) : decodeLoop L fuel ls = some ls := by
  cases fuel <;> simp [decodeLoop, h]

/-- The decode loop ends: when every packet kind has a positive size, as many iterations
as there are bytes left are enough. -/
theorem decodeLoop_total (L : Layout) (hwf : L.wf) :
    ∀ (fuel : Nat) (ls : LoopState), ls.left_over = 0 → ls.s.mIIOReadSize - ls.ptr ≤ fuel →
      ∃ ls', decodeLoop L fuel ls = some ls' := by
  intro fuel
  induction fuel with
  | zero =>
    intro ls _ h
    exact ⟨ls, decodeLoop_done L 0 ls (by omega)⟩
  | succ n ih =>
    intro ls hlo h
    by_cases hptr : ls.ptr < ls.s.mIIOReadSize
    · cases hb : (decodeIter L ls).2 with
      | true => exact ⟨(decodeIter L ls).1, by simp [decodeLoop, hptr, hb]⟩
      | false =>
        obtain ⟨hp, hl⟩ := decodeIter_progress L hwf ls hptr hlo hb
        have hsz := frame_eq_size (decodeIter_frame L ls)
        obtain ⟨ls', h'⟩ := ih (decodeIter L ls).1 hl (by omega)
        exact ⟨ls', by simp [decodeLoop, hptr, hb, h']⟩
    · exact ⟨ls, decodeLoop_done L _ ls hptr⟩

/-- Induction over the iterations of the decode loop. -/
theorem decodeLoop_induct (L : Layout) (P : LoopState → Prop)
    (hstep : ∀ ls, ls.ptr < ls.s.mIIOReadSize → P ls → P (decodeIter L ls).1) :
    ∀ (fuel : Nat) (ls ls' : LoopState), decodeLoop L fuel ls = some ls' → P ls → P ls' := by
  intro fuel
  induction fuel with
  | zero =>
    intro ls ls' h hp
    unfold decodeLoop at h
    split_ifs at h
    cases h
    exact hp
  | succ n ih =>
    intro ls ls' h hp
    by_cases hptr : ls.ptr < ls.s.mIIOReadSize
    · cases hb : (decodeIter L ls).2 with
      | true =>
        simp [decodeLoop, hptr, hb] at h
        subst h
        exact hstep ls hptr hp
      | false =>
        simp [decodeLoop, hptr, hb] at h
        exact ih _ _ h (hstep ls hptr hp)
    · rw [decodeLoop_done L _ ls hptr] at h
      cases h
      exact hp

theorem decodeIter_ok (L : Layout) (c0 : Int) (ls : LoopState) (h : ls.ok c0) :
    (decodeIter L ls).1.ok c0 := by
  obtain ⟨h1, h2, h3, h4⟩ := h
  obtain ⟨e1, e2, e3, e4⟩ :=
    readEvents_ok (decodeSwitch L ls.s ls.ptr ls.left_over).s ls.count
  have key : ∀ ls3 : LoopState,
      ls3.count = ls.count - (readEvents (decodeSwitch L ls.s ls.ptr ls.left_over).s
        ls.count).numEventReceived →
      ls3.numEventReceived = ls.numEventReceived + (readEvents
        (decodeSwitch L ls.s ls.ptr ls.left_over).s ls.count).numEventReceived →
      ls3.out = ls.out ++ (readEvents (decodeSwitch L ls.s ls.ptr ls.left_over).s
        ls.count).out →
      ls3.ok c0 := by
    intro ls3 hc hn ho
    refine ⟨?_, ?_, ?_, ?_⟩
    · rw [hn, ho, h1, e1]; simp
    · rw [hc, hn]; omega
    · intro hc0
      have := h3 hc0
      have := e3 this
      rw [hc]; omega
    · intro hc0
      have hle : ls.count ≤ 0 := by
        have := h4 hc0
        rw [this] at h1
        simp at h1
        omega
      rw [ho, h4 hc0, e4 hle]; rfl
  unfold decodeIter
  dsimp only
  split_ifs with ha hb hc hd
  · exact key _ rfl rfl rfl
  · exact key _ rfl rfl rfl
  · exact key _ rfl rfl rfl
  · -- no event received: the output is unchanged
    have hz : (readEvents (decodeSwitch L ls.s ls.ptr ls.left_over).s ls.count).out = [] := by
      have hn : (readEvents (decodeSwitch L ls.s ls.ptr ls.left_over).s
          ls.count).numEventReceived = 0 := by
        have : (0 : Int) ≤ ((readEvents (decodeSwitch L ls.s ls.ptr ls.left_over).s
          ls.count).out.length : Int) := Int.natCast_nonneg _
        omega
      rw [hn] at e1
      exact List.length_eq_zero.mp (by exact_mod_cast e1.symm)
    refine ⟨?_, h2, h3, fun hc0 => ?_⟩
    · show ls.numEventReceived = ((ls.out ++ _).length : Int)
      rw [hz, h1]; simp
    · show ls.out ++ _ = []
      rw [hz, h4 hc0]; rfl
  · exact ⟨h1, h2, h3, h4⟩

theorem decodeLoop_ok (L : Layout) (c0 : Int) (fuel : Nat) (ls ls' : LoopState)
    (h : decodeLoop L fuel ls = some ls') (hok : ls.ok c0) : ls'.ok c0 :=
  decodeLoop_induct L (fun x => x.ok c0) (fun x _ hx => decodeIter_ok L c0 x hx) fuel ls ls' h hok

/-! ## Output capacity -/

/-- The value of `readMpuEvents` exists, counts the slots written, and stays within the
capacity left after the compass reservation. -/
theorem readMpuEvents_spec (L : Layout) (hwf : L.wf) (s : MPLSensor) (count : Int)
    (dev : Int → ReadOutcome) :
    ∃ r, readMpuEvents L s count dev = some r ∧
      r.numEventReceived = r.out.length ∧
      (0 ≤ (if s.mCompassSensor then count - L.COMPASS_SEN_EVENT_RESV_SZ else count) →
        r.numEventReceived ≤
          (if s.mCompassSensor then count - L.COMPASS_SEN_EVENT_RESV_SZ else count)) ∧
      ((if s.mCompassSensor then count - L.COMPASS_SEN_EVENT_RESV_SZ else count) ≤ 0 →
        r.out = []) := by
  unfold readMpuEvents
  by_cases hen : s.mEnabled = 0
  · rw [if_pos hen]
    exact ⟨_, rfl, by simp, fun h => h, fun _ => rfl⟩
  · rw [if_neg hen]
    dsimp only
    cases hd : dev (readNbytes L s count) with
    | error => exact ⟨_, rfl, by simp, fun h => h, fun _ => rfl⟩
    | data bs =>
      dsimp only
      by_cases hl : bs.length = 0
      · rw [if_pos hl]
        exact ⟨_, rfl, by simp, fun h => h, fun _ => rfl⟩
      · rw [if_neg hl]
        obtain ⟨ls', hls⟩ := decodeLoop_total L hwf (s.mIIOReadSize + bs.length)
          { s := { s with mIIOReadBuffer := writeAt s.mIIOReadBuffer s.mIIOReadSize bs,
                          mIIOReadSize := s.mIIOReadSize + bs.length },
            ptr := 0,
            count := if s.mCompassSensor then count - L.COMPASS_SEN_EVENT_RESV_SZ else count,
            numEventReceived := 0, left_over := 0, out := [], markers := [], calls := [] }
          rfl (by dsimp only; omega)
        rw [hls]
        obtain ⟨h1, h2, h3, h4⟩ := decodeLoop_ok L _ _ _ _ hls
          (show LoopState.ok
              (if s.mCompassSensor then count - L.COMPASS_SEN_EVENT_RESV_SZ else count) _ from
            ⟨by simp, by simp, fun h => h, fun _ => rfl⟩)
        exact ⟨_, rfl, h1, fun h => by have := h3 h; dsimp only; omega, fun h => h4 h⟩

/-- C3, as stated, fails: with a compass collaborator present and `count = 0`,
`readMpuEvents` returns 0 events, which is more than `count - COMPASS_SEN_EVENT_RESV_SZ`;
this holds for a driver with no channel enabled and for one with the gyroscope enabled,
with a device that delivers no byte at all. -/
theorem C3_counterexample :
    (∃ r, readMpuEvents iamLayout (demoDriver true) 0 (devBytes []) = some r ∧
      (demoDriver true).mCompassSensor = true ∧
      ¬ (r.numEventReceived ≤ 0 - iamLayout.COMPASS_SEN_EVENT_RESV_SZ)) ∧
    (∃ r, readMpuEvents iamLayout (demoGyroOn true) 0 (devBytes []) = some r ∧
      (demoGyroOn true).mCompassSensor = true ∧
      ¬ (r.numEventReceived ≤ 0 - iamLayout.COMPASS_SEN_EVENT_RESV_SZ)) := by
  refine ⟨⟨_, rfl, rfl, by decide⟩, ⟨_, rfl, rfl, by decide⟩⟩

/-- C3 (output capacity is never exceeded), amended.  For every state and every
`count ≥ 0`, `readEvents(data, count)` returns `n` with `0 ≤ n ≤ count` and writes exactly
the slots `0 .. n-1`; `readMpuEvents(s, count)` returns a value, which counts the slots it
writes, is at most `count`, and is at most `max 0 (count - COMPASS_SEN_EVENT_RESV_SZ)`
when a compass collaborator is present. -/
theorem C3_output_capacity (L : Layout) (hwf : L.wf) (s : MPLSensor) (count : Int)
    (dev : Int → ReadOutcome) (hcount : 0 ≤ count) :
    (0 ≤ (readEvents s count).numEventReceived ∧
      (readEvents s count).numEventReceived ≤ count ∧
      ((readEvents s count).out.length : Int) = (readEvents s count).numEventReceived) ∧
    ∃ r, readMpuEvents L s count dev = some r ∧
      (r.out.length : Int) = r.numEventReceived ∧
      0 ≤ r.numEventReceived ∧ r.numEventReceived ≤ count ∧
      (s.mCompassSensor = true →
        r.numEventReceived ≤ max 0 (count - L.COMPASS_SEN_EVENT_RESV_SZ)) := by
  constructor
  · obtain ⟨e1, e2, e3, -⟩ := readEvents_ok s count
    have := e3 hcount
    have : (0 : Int) ≤ ((readEvents s count).out.length : Int) := Int.natCast_nonneg _
    exact ⟨by omega, by omega, e1.symm⟩
  · obtain ⟨r, hr, h1, h2, h3⟩ := readMpuEvents_spec L hwf s count dev
    have hnn : (0 : Int) ≤ (r.out.length : Int) := Int.natCast_nonneg _
    have hz : r.out = [] → r.numEventReceived = 0 := by
      intro h
      rw [h1, h]; rfl
    refine ⟨r, hr, h1.symm, by omega, ?_, ?_⟩
    · cases hc : s.mCompassSensor with
      | false =>
        rw [hc] at h2
        simp only [Bool.false_eq_true, if_false] at h2
        exact h2 hcount
      | true =>
        rw [hc] at h2 h3
        simp only [if_true] at h2 h3
        by_cases hpos : 0 ≤ count - (L.COMPASS_SEN_EVENT_RESV_SZ : Int)
        · have := h2 hpos
          omega
        · have := hz (h3 (by omega))
          omega
    · intro hc
      rw [hc] at h2 h3
      simp only [if_true] at h2 h3
      by_cases hpos : 0 ≤ count - (L.COMPASS_SEN_EVENT_RESV_SZ : Int)
      · have := h2 hpos
        exact le_max_of_le_right this
      · have := hz (h3 (by omega))
        rw [this]
        exact le_max_left _ _

theorem C3_output_capacity_witness :
    iamLayout.wf ∧ (0 : Int) ≤ 2 ∧
    ((0 ≤ (readEvents (demoGyroOn true) 2).numEventReceived ∧
      (readEvents (demoGyroOn true) 2).numEventReceived ≤ 2 ∧
      ((readEvents (demoGyroOn true) 2).out.length : Int) =
        (readEvents (demoGyroOn true) 2).numEventReceived) ∧
    ∃ r, readMpuEvents iamLayout (demoGyroOn true) 2 (devBytes demoGyroPacket) = some r ∧
      (r.out.length : Int) = r.numEventReceived ∧
      0 ≤ r.numEventReceived ∧ r.numEventReceived ≤ 2 ∧
      ((demoGyroOn true).mCompassSensor = true →
        r.numEventReceived ≤ max 0 (2 - iamLayout.COMPASS_SEN_EVENT_RESV_SZ))) :=
  ⟨by decide, by decide,
    C3_output_capacity iamLayout (by decide) (demoGyroOn true) 2 (devBytes demoGyroPacket)
      (by decide)⟩

/-! ## Decoding of single packets -/

theorem decodeSwitch_gyro (L : Layout) (hwf : L.wf) (s : MPLSensor) (ptr lo : Nat)
    (hh : rdU16 s.mIIOReadBuffer ptr = L.DATA_FORMAT_RAW_GYRO)
    (hsz : L.DATA_FORMAT_RAW_GYRO_SZ ≤ s.mIIOReadSize - ptr) :
    decodeSwitch L s ptr lo =
      { s := { s with
                 mCachedGyroData :=
                   { x := rdS32 s.mIIOReadBuffer (ptr + 4), y := rdS32 s.mIIOReadBuffer (ptr + 8),
                     z := rdS32 s.mIIOReadBuffer (ptr + 12) },
                 mGyroSensorTimestamp := rdS64 s.mIIOReadBuffer (ptr + 16) },
        ptr := ptr + L.DATA_FORMAT_RAW_GYRO_SZ, data_found := true, left_over := lo,
        detected := none } := by
  obtain ⟨-, h2, -, h4, -, -, -, -, -, -⟩ := hwf
  unfold decodeSwitch
  dsimp only
  rw [hh, if_neg (Ne.symm h2), if_neg (Ne.symm h4), if_pos rfl, if_neg (by omega)]

theorem decodeSwitch_accel (L : Layout) (hwf : L.wf) (s : MPLSensor) (ptr lo : Nat)
    (hh : rdU16 s.mIIOReadBuffer ptr = L.DATA_FORMAT_ACCEL)
    (hsz : L.DATA_FORMAT_ACCEL_SZ ≤ s.mIIOReadSize - ptr) :
    decodeSwitch L s ptr lo =
      { s := { s with
                 mCachedAccelData :=
                   { x := rdS32 s.mIIOReadBuffer (ptr + 4), y := rdS32 s.mIIOReadBuffer (ptr + 8),
                     z := rdS32 s.mIIOReadBuffer (ptr + 12) },
                 mAccelSensorTimestamp := rdS64 s.mIIOReadBuffer (ptr + 16) },
        ptr := ptr + L.DATA_FORMAT_ACCEL_SZ, data_found := true, left_over := lo,
        detected := none } := by
  obtain ⟨-, -, h3, -, h5, h6, -, -, -, -⟩ := hwf
  unfold decodeSwitch
  dsimp only
  rw [hh, if_neg (Ne.symm h3), if_neg (Ne.symm h5), if_neg (Ne.symm h6), if_pos rfl,
    if_neg (by omega)]

theorem decodeSwitch_marker (L : Layout) (s : MPLSensor) (ptr lo : Nat)
    (hh : rdU16 s.mIIOReadBuffer ptr = L.DATA_FORMAT_MARKER)
    (hsz : L.DATA_FORMAT_MARKER_SZ ≤ s.mIIOReadSize - ptr) :
    decodeSwitch L s ptr lo =
      { s := { s with mFlushSensorEnabledVector :=
                 s.mFlushSensorEnabledVector ++ [rdS32 s.mIIOReadBuffer (ptr + 4)] },
        ptr := ptr + L.DATA_FORMAT_MARKER_SZ, data_found := true, left_over := lo,
        detected := some (rdS32 s.mIIOReadBuffer (ptr + 4)) } := by
  unfold decodeSwitch
  dsimp only
  rw [hh, if_pos rfl, if_neg (by omega)]

theorem decodeSwitch_empty_marker (L : Layout) (hwf : L.wf) (s : MPLSensor) (ptr lo : Nat)
    (hh : rdU16 s.mIIOReadBuffer ptr = L.DATA_FORMAT_EMPTY_MARKER)
    (hsz : L.DATA_FORMAT_EMPTY_MARKER_SZ ≤ s.mIIOReadSize - ptr) :
    decodeSwitch L s ptr lo =
      { s := { s with mFlushSensorEnabledVector :=
                 s.mFlushSensorEnabledVector ++ [rdS32 s.mIIOReadBuffer (ptr + 4)] },
        ptr := ptr + L.DATA_FORMAT_EMPTY_MARKER_SZ, data_found := true, left_over := lo,
        detected := some (rdS32 s.mIIOReadBuffer (ptr + 4)) } := by
  obtain ⟨h1, -, -, -, -, -, -, -, -, -⟩ := hwf
  unfold decodeSwitch
  dsimp only
  rw [hh, if_neg (Ne.symm h1), if_pos rfl, if_neg (by omega)]

/-- The state after an iteration is the state after the `switch`, or that state after
`readEvents`: its stable part is that of the state after the `switch`. -/
theorem decodeIter_core (L : Layout) (ls : LoopState) :
    core (decodeIter L ls).1.s = core (decodeSwitch L ls.s ls.ptr ls.left_over).s := by
  have h := readEvents_core (decodeSwitch L ls.s ls.ptr ls.left_over).s ls.count
  unfold decodeIter
  dsimp only
  split_ifs <;> first | exact h | rfl

theorem core_eq_set_gyro {X s : MPLSensor} {v : Vec3} {t : Int}
    (h : core X = core { s with mCachedGyroData := v, mGyroSensorTimestamp := t }) :
    X.mCachedGyroData = v ∧ X.mGyroSensorTimestamp = t ∧
    X.mCachedAccelData = s.mCachedAccelData ∧
    X.mAccelSensorTimestamp = s.mAccelSensorTimestamp ∧
    X.mCachedCompassData = s.mCachedCompassData ∧
    X.mCompassTimestamp = s.mCompassTimestamp := by
  have g1 := congrArg MPLSensor.mCachedGyroData h
  have g2 := congrArg MPLSensor.mGyroSensorTimestamp h
  have g3 := congrArg MPLSensor.mCachedAccelData h
  have g4 := congrArg MPLSensor.mAccelSensorTimestamp h
  have g5 := congrArg MPLSensor.mCachedCompassData h
  have g6 := congrArg MPLSensor.mCompassTimestamp h
  exact ⟨g1, g2, g3, g4, g5, g6⟩

theorem core_eq_set_accel {X s : MPLSensor} {v : Vec3} {t : Int}
    (h : core X = core { s with mCachedAccelData := v, mAccelSensorTimestamp := t }) :
    X.mCachedAccelData = v ∧ X.mAccelSensorTimestamp = t ∧
    X.mCachedGyroData = s.mCachedGyroData ∧
    X.mGyroSensorTimestamp = s.mGyroSensorTimestamp ∧
    X.mCachedCompassData = s.mCachedCompassData ∧
    X.mCompassTimestamp = s.mCompassTimestamp := by
  have g1 := congrArg MPLSensor.mCachedAccelData h
  have g2 := congrArg MPLSensor.mAccelSensorTimestamp h
  have g3 := congrArg MPLSensor.mCachedGyroData h
  have g4 := congrArg MPLSensor.mGyroSensorTimestamp h
  have g5 := congrArg MPLSensor.mCachedCompassData h
  have g6 := congrArg MPLSensor.mCompassTimestamp h
  exact ⟨g1, g2, g3, g4, g5, g6⟩

theorem decodeSwitch_gyro_s (L : Layout) (hwf : L.wf) (s : MPLSensor) (ptr lo : Nat)
    (hh : rdU16 s.mIIOReadBuffer ptr = L.DATA_FORMAT_RAW_GYRO)
    (hsz : L.DATA_FORMAT_RAW_GYRO_SZ ≤ s.mIIOReadSize - ptr) :
    (decodeSwitch L s ptr lo).s =
      { s with
          mCachedGyroData :=
            { x := rdS32 s.mIIOReadBuffer (ptr + 4), y := rdS32 s.mIIOReadBuffer (ptr + 8),
              z := rdS32 s.mIIOReadBuffer (ptr + 12) },
          mGyroSensorTimestamp := rdS64 s.mIIOReadBuffer (ptr + 16) } ∧
    (decodeSwitch L s ptr lo).ptr = ptr + L.DATA_FORMAT_RAW_GYRO_SZ := by
  rw [decodeSwitch_gyro L hwf s ptr lo hh hsz]
  exact ⟨rfl, rfl⟩

theorem decodeSwitch_accel_s (L : Layout) (hwf : L.wf) (s : MPLSensor) (ptr lo : Nat)
    (hh : rdU16 s.mIIOReadBuffer ptr = L.DATA_FORMAT_ACCEL)
    (hsz : L.DATA_FORMAT_ACCEL_SZ ≤ s.mIIOReadSize - ptr) :
    (decodeSwitch L s ptr lo).s =
      { s with
          mCachedAccelData :=
            { x := rdS32 s.mIIOReadBuffer (ptr + 4), y := rdS32 s.mIIOReadBuffer (ptr + 8),
              z := rdS32 s.mIIOReadBuffer (ptr + 12) },
          mAccelSensorTimestamp := rdS64 s.mIIOReadBuffer (ptr + 16) } ∧
    (decodeSwitch L s ptr lo).ptr = ptr + L.DATA_FORMAT_ACCEL_SZ := by
  rw [decodeSwitch_accel L hwf s ptr lo hh hsz]
  exact ⟨rfl, rfl⟩

/-- C2 (decoding of sample packets).  When the decode position holds a complete RAW_GYRO
packet, the iteration of the decode loop of `readMpuEvents` sets the cached gyroscope sample
to the signed 32-bit little-endian integers at packet offsets 4, 8 and 12 and the gyroscope
timestamp to the signed 64-bit integer at offset 16, leaves the cached accelerometer and
magnetometer samples and timestamps unchanged, and moves the decode position past the
packet; symmetrically, a complete RAW_ACCEL packet updates only the accelerometer cache. -/
theorem C2_sample_packet_decoding (L : Layout) (hwf : L.wf) (ls : LoopState) :
    (rdU16 ls.s.mIIOReadBuffer ls.ptr = L.DATA_FORMAT_RAW_GYRO →
      L.DATA_FORMAT_RAW_GYRO_SZ ≤ ls.s.mIIOReadSize - ls.ptr →
      (decodeIter L ls).1.s.mCachedGyroData =
        { x := rdS32 ls.s.mIIOReadBuffer (ls.ptr + 4),
          y := rdS32 ls.s.mIIOReadBuffer (ls.ptr + 8),
          z := rdS32 ls.s.mIIOReadBuffer (ls.ptr + 12) } ∧
      (decodeIter L ls).1.s.mGyroSensorTimestamp = rdS64 ls.s.mIIOReadBuffer (ls.ptr + 16) ∧
      (decodeIter L ls).1.s.mCachedAccelData = ls.s.mCachedAccelData ∧
      (decodeIter L ls).1.s.mAccelSensorTimestamp = ls.s.mAccelSensorTimestamp ∧
      (decodeIter L ls).1.s.mCachedCompassData = ls.s.mCachedCompassData ∧
      (decodeIter L ls).1.s.mCompassTimestamp = ls.s.mCompassTimestamp ∧
      (decodeIter L ls).1.ptr = ls.ptr + L.DATA_FORMAT_RAW_GYRO_SZ) ∧
    (rdU16 ls.s.mIIOReadBuffer ls.ptr = L.DATA_FORMAT_ACCEL →
      L.DATA_FORMAT_ACCEL_SZ ≤ ls.s.mIIOReadSize - ls.ptr →
      (decodeIter L ls).1.s.mCachedAccelData =
        { x := rdS32 ls.s.mIIOReadBuffer (ls.ptr + 4),
          y := rdS32 ls.s.mIIOReadBuffer (ls.ptr + 8),
          z := rdS32 ls.s.mIIOReadBuffer (ls.ptr + 12) } ∧
      (decodeIter L ls).1.s.mAccelSensorTimestamp = rdS64 ls.s.mIIOReadBuffer (ls.ptr + 16) ∧
      (decodeIter L ls).1.s.mCachedGyroData = ls.s.mCachedGyroData ∧
      (decodeIter L ls).1.s.mGyroSensorTimestamp = ls.s.mGyroSensorTimestamp ∧
      (decodeIter L ls).1.s.mCachedCompassData = ls.s.mCachedCompassData ∧
      (decodeIter L ls).1.s.mCompassTimestamp = ls.s.mCompassTimestamp ∧
      (decodeIter L ls).1.ptr = ls.ptr + L.DATA_FORMAT_ACCEL_SZ) := by
  have hc := decodeIter_core L ls
  have hp := decodeIter_ptr L ls
  constructor
  · intro hh hsz
    obtain ⟨e1, e2⟩ := decodeSwitch_gyro_s L hwf ls.s ls.ptr ls.left_over hh hsz
    rw [e1] at hc
    rw [e2] at hp
    obtain ⟨g1, g2, g3, g4, g5, g6⟩ := core_eq_set_gyro hc
    exact ⟨g1, g2, g3, g4, g5, g6, hp⟩
  · intro hh hsz
    obtain ⟨e1, e2⟩ := decodeSwitch_accel_s L hwf ls.s ls.ptr ls.left_over hh hsz
    rw [e1] at hc
    rw [e2] at hp
    obtain ⟨g1, g2, g3, g4, g5, g6⟩ := core_eq_set_accel hc
    exact ⟨g1, g2, g3, g4, g5, g6, hp⟩

/-! ## FIFO order of flush completions -/

theorem flushIds_append (a b : List sensors_event_t) :
    flushIds (a ++ b) = flushIds a ++ flushIds b := by
  unfold flushIds
  exact List.filterMap_append _ _ _

theorem flushIds_data (d : List sensors_event_t) (s : MPLSensor) (i : Nat)
    (h : d = [] ∨ d = [dataEvent s i]) : flushIds d = [] := by
  rcases h with h | h <;> rw [h] <;> rfl

/-- With room for one event, `readEvents` moves the front of the flush queue to the
output: the identifiers written followed by the queue left are the queue at entry. -/
theorem readEvents_flushIds (s : MPLSensor) (count : Int) (hc : 1 ≤ count) :
    flushIds (readEvents s count).out ++ (readEvents s count).s.mFlushSensorEnabledVector =
      s.mFlushSensorEnabledVector := by
  obtain ⟨d0, d1, d2, hout, h0, h1, h2, hfl, -⟩ := readEvents_out s count
  rw [hout, hfl, flushIds_append, flushIds_append, flushIds_append,
    flushIds_data d0 s 0 (h0.imp id (fun h => h.1)),
    flushIds_data d1 s 1 (h1.imp id (fun h => h.1)),
    flushIds_data d2 s 2 (h2.imp id (fun h => h.1)), readEventsFlush_out]
  cases hq : s.mFlushSensorEnabledVector with
  | nil => simp [flushIds]
  | cons x rest =>
    rw [if_pos ⟨by simp, by omega⟩]
    simp [flushIds, flushEvent]

theorem flush_set_flush (s : MPLSensor) (x : Int) :
    ({ s with mFlushSensorEnabledVector := s.mFlushSensorEnabledVector ++ [x] } :
        MPLSensor).mFlushSensorEnabledVector =
      s.mFlushSensorEnabledVector ++ (some x).toList := rfl

theorem flush_set_gyro (s : MPLSensor) (v : Vec3) (t : Int) :
    ({ s with mCachedGyroData := v, mGyroSensorTimestamp := t } :
        MPLSensor).mFlushSensorEnabledVector =
      s.mFlushSensorEnabledVector ++ (none : Option Int).toList :=
  (List.append_nil _).symm

theorem flush_set_accel (s : MPLSensor) (v : Vec3) (t : Int) :
    ({ s with mCachedAccelData := v, mAccelSensorTimestamp := t } :
        MPLSensor).mFlushSensorEnabledVector =
      s.mFlushSensorEnabledVector ++ (none : Option Int).toList :=
  (List.append_nil _).symm

theorem flush_same (s : MPLSensor) :
    s.mFlushSensorEnabledVector = s.mFlushSensorEnabledVector ++ (none : Option Int).toList :=
  (List.append_nil _).symm

theorem decodeSwitch_flush (L : Layout) (s : MPLSensor) (ptr lo : Nat) :
    (decodeSwitch L s ptr lo).s.mFlushSensorEnabledVector =
      s.mFlushSensorEnabledVector ++ (decodeSwitch L s ptr lo).detected.toList := by
  unfold decodeSwitch
  dsimp only
  split_ifs
  · exact flush_same s
  · exact flush_set_flush _ _
  · exact flush_same s
  · exact flush_set_flush _ _
  · exact flush_same s
  · exact flush_set_gyro _ _ _
  · exact flush_same s
  · exact flush_set_accel _ _ _
  · exact flush_same s

/-- The flush-queue invariant of the decode loop, relative to the queue `q0` at the start
of the pass. -/
theorem decodeIter_fifo (L : Layout) (q0 : List Int) (ls : LoopState)
    (h : (∀ c ∈ ls.calls, 1 ≤ c) →
      flushIds ls.out ++ ls.s.mFlushSensorEnabledVector = q0 ++ ls.markers) :
    (∀ c ∈ (decodeIter L ls).1.calls, 1 ≤ c) →
      flushIds (decodeIter L ls).1.out ++ (decodeIter L ls).1.s.mFlushSensorEnabledVector =
        q0 ++ (decodeIter L ls).1.markers := by
  have hsw := decodeSwitch_flush L ls.s ls.ptr ls.left_over
  have key : (∀ c ∈ ls.calls ++ [ls.count], 1 ≤ c) →
      flushIds (ls.out ++ (readEvents (decodeSwitch L ls.s ls.ptr ls.left_over).s ls.count).out)
        ++ (readEvents (decodeSwitch L ls.s ls.ptr ls.left_over).s
              ls.count).s.mFlushSensorEnabledVector =
      q0 ++ (ls.markers ++ (decodeSwitch L ls.s ls.ptr ls.left_over).detected.toList) := by
    intro hc
    have hcalls : ∀ c ∈ ls.calls, 1 ≤ c := fun c hcm => hc c (List.mem_append_left _ hcm)
    have hcount : 1 ≤ ls.count := hc ls.count (List.mem_append_right _ (List.mem_singleton.mpr rfl))
    rw [flushIds_append, List.append_assoc, readEvents_flushIds _ _ hcount, hsw,
      ← List.append_assoc, h hcalls, List.append_assoc]
  have nokey : (∀ c ∈ ls.calls, 1 ≤ c) →
      flushIds ls.out ++ (decodeSwitch L ls.s ls.ptr ls.left_over).s.mFlushSensorEnabledVector =
      q0 ++ (ls.markers ++ (decodeSwitch L ls.s ls.ptr ls.left_over).detected.toList) := by
    intro hc
    rw [hsw, ← List.append_assoc, h hc, List.append_assoc]
  unfold decodeIter
  dsimp only
  split_ifs <;> first | exact key | exact nokey

theorem carryOver_flush (ls : LoopState) :
    (carryOver ls).mFlushSensorEnabledVector = ls.s.mFlushSensorEnabledVector := by
  unfold carryOver
  split_ifs <;> rfl

/-- One pass keeps the flush-queue invariant. -/
theorem readMpuEvents_fifo (L : Layout) (s : MPLSensor) (count : Int) (dev : Int → ReadOutcome)
    (r : MpuResult) (hr : readMpuEvents L s count dev = some r)
    (hcalls : ∀ c ∈ r.calls, 1 ≤ c) :
    flushIds r.out ++ r.s.mFlushSensorEnabledVector = s.mFlushSensorEnabledVector ++ r.markers := by
  unfold readMpuEvents at hr
  by_cases hen : s.mEnabled = 0
  · rw [if_pos hen] at hr
    cases hr
    simp [flushIds]
  · rw [if_neg hen] at hr
    dsimp only at hr
    cases hd : dev (readNbytes L s count) with
    | error =>
      rw [hd] at hr
      cases hr
      simp [flushIds]
    | data bs =>
      rw [hd] at hr
      dsimp only at hr
      by_cases hl : bs.length = 0
      · rw [if_pos hl] at hr
        cases hr
        simp [flushIds]
      · rw [if_neg hl] at hr
        cases hloop : decodeLoop L (s.mIIOReadSize + bs.length)
            { s := { s with mIIOReadBuffer := writeAt s.mIIOReadBuffer s.mIIOReadSize bs,
                            mIIOReadSize := s.mIIOReadSize + bs.length },
              ptr := 0,
              count := if s.mCompassSensor then count - L.COMPASS_SEN_EVENT_RESV_SZ else count,
              numEventReceived := 0, left_over := 0, out := [], markers := [], calls := [] } with
        | none =>
          rw [hloop] at hr
          cases hr
        | some ls' =>
          rw [hloop] at hr
          cases hr
          have := decodeLoop_induct L
            (fun x => (∀ c ∈ x.calls, 1 ≤ c) →
              flushIds x.out ++ x.s.mFlushSensorEnabledVector =
                s.mFlushSensorEnabledVector ++ x.markers)
            (fun x _ hx => decodeIter_fifo L s.mFlushSensorEnabledVector x hx) _ _ _ hloop
            (fun _ => by simp [flushIds])
          dsimp only at hcalls ⊢
          rw [carryOver_flush]
          exact this hcalls

theorem runPasses_total (L : Layout) (hwf : L.wf) :
    ∀ (ps : List Pass) (s : MPLSensor), ∃ r, runPasses L s ps = some r := by
  intro ps
  induction ps with
  | nil => exact fun s => ⟨_, rfl⟩
  | cons p ps ih =>
    intro s
    obtain ⟨r, hr, -⟩ := readMpuEvents_spec L hwf s p.count p.dev
    obtain ⟨rr, hrr⟩ := ih r.s
    exact ⟨{ s := rr.s, out := r.out ++ rr.out, markers := r.markers ++ rr.markers,
             calls := r.calls ++ rr.calls }, by simp [runPasses, hr, hrr]⟩

theorem runPasses_fifo (L : Layout) :
    ∀ (ps : List Pass) (s : MPLSensor) (r : RunResult), runPasses L s ps = some r →
      (∀ c ∈ r.calls, 1 ≤ c) →
      flushIds r.out ++ r.s.mFlushSensorEnabledVector =
        s.mFlushSensorEnabledVector ++ r.markers := by
  intro ps
  induction ps with
  | nil =>
    intro s r h _
    simp [runPasses] at h
    subst h
    simp [flushIds]
  | cons p ps ih =>
    intro s r h hcalls
    unfold runPasses at h
    cases h1 : readMpuEvents L s p.count p.dev with
    | none => rw [h1] at h; cases h
    | some r1 =>
      rw [h1] at h
      dsimp only at h
      cases h2 : runPasses L r1.s ps with
      | none => rw [h2] at h; cases h
      | some r2 =>
        rw [h2] at h
        cases h
        dsimp only at hcalls ⊢
        have e1 := readMpuEvents_fifo L s p.count p.dev r1 h1
          (fun c hc => hcalls c (List.mem_append_left _ hc))
        have e2 := ih r1.s r2 h2 (fun c hc => hcalls c (List.mem_append_right _ hc))
        rw [flushIds_append, List.append_assoc, e2, ← List.append_assoc, e1, List.append_assoc]

/-- C6 (FIFO order of flush completions).  A complete MARKER packet and a complete
EMPTY_MARKER packet at the decode position are handled alike: the `switch` appends the
32-bit integer at packet offset 4 to the back of the flush queue and reports it as
detected.  Every sequence of `readMpuEvents` passes returns, and when each `readEvents`
call made in it has `count ≥ 1`, the identifiers of the flush-complete events emitted, in
emission order, followed by the queue left at the end are the queue before the first pass
followed by the identifiers of the markers decoded, in decode order; so the identifiers
emitted are a prefix of the latter list. -/
theorem C6_flush_fifo (L : Layout) (hwf : L.wf) (s : MPLSensor) (ps : List Pass) :
    (∀ ptr lo, rdU16 s.mIIOReadBuffer ptr = L.DATA_FORMAT_MARKER →
      L.DATA_FORMAT_MARKER_SZ ≤ s.mIIOReadSize - ptr →
      (decodeSwitch L s ptr lo).s.mFlushSensorEnabledVector =
        s.mFlushSensorEnabledVector ++ [rdS32 s.mIIOReadBuffer (ptr + 4)] ∧
      (decodeSwitch L s ptr lo).detected = some (rdS32 s.mIIOReadBuffer (ptr + 4)) ∧
      (decodeSwitch L s ptr lo).data_found = true ∧
      (decodeSwitch L s ptr lo).ptr = ptr + L.DATA_FORMAT_MARKER_SZ) ∧
    (∀ ptr lo, rdU16 s.mIIOReadBuffer ptr = L.DATA_FORMAT_EMPTY_MARKER →
      L.DATA_FORMAT_EMPTY_MARKER_SZ ≤ s.mIIOReadSize - ptr →
      (decodeSwitch L s ptr lo).s.mFlushSensorEnabledVector =
        s.mFlushSensorEnabledVector ++ [rdS32 s.mIIOReadBuffer (ptr + 4)] ∧
      (decodeSwitch L s ptr lo).detected = some (rdS32 s.mIIOReadBuffer (ptr + 4)) ∧
      (decodeSwitch L s ptr lo).data_found = true ∧
      (decodeSwitch L s ptr lo).ptr = ptr + L.DATA_FORMAT_EMPTY_MARKER_SZ) ∧
    ∃ r, runPasses L s ps = some r ∧
      ((∀ c ∈ r.calls, 1 ≤ c) →
        flushIds r.out ++ r.s.mFlushSensorEnabledVector =
          s.mFlushSensorEnabledVector ++ r.markers ∧
        flushIds r.out <+: s.mFlushSensorEnabledVector ++ r.markers) := by
  refine ⟨fun ptr lo hh hsz => ?_, fun ptr lo hh hsz => ?_, ?_⟩
  · rw [decodeSwitch_marker L s ptr lo hh hsz]
    exact ⟨rfl, rfl, rfl, rfl⟩
  · rw [decodeSwitch_empty_marker L hwf s ptr lo hh hsz]
    exact ⟨rfl, rfl, rfl, rfl⟩
  · obtain ⟨r, hr⟩ := runPasses_total L hwf ps s
    refine ⟨r, hr, fun hcalls => ?_⟩
    have h := runPasses_fifo L ps s r hr hcalls
    exact ⟨h, ⟨_, h⟩⟩

/-! ## Evaluated runs -/

/-- C1, failing input.  The driver has the gyroscope enabled, an empty carry and a read
buffer whose old content is `0xFF` bytes.  When the device delivers a RAW_GYRO packet
(axes (100, 0, 0), timestamp 1000) in one read, `readMpuEvents` caches the sample and emits
its event.  When the device delivers the first byte alone and then the other 23 bytes, the
two-byte header is read from the one new byte and one old byte, is not recognised, and the
byte is dropped instead of being kept as carry: both calls together emit no event and the
cache keeps its old content.  Splitting at every other offset gives the result of the
single read. -/
theorem C1_split_after_first_byte :
    (wholeRun iamLayout (demoGyroOn false) 4 demoGyroPacket).map
        (fun r => (r.2, r.1.mCachedGyroData, r.1.mGyroSensorTimestamp, r.1.mIIOReadSize)) =
      some ([{ sensor := 0, type := SENSOR_TYPE_GYROSCOPE_UNCALIBRATED, timestamp := 1000,
               payload := Payload.vec ⟨100, 0, 0⟩ SENSOR_STATUS_UNRELIABLE }],
            ⟨100, 0, 0⟩, 1000, 0) ∧
    (splitRun iamLayout (demoGyroOn false) 4 demoGyroPacket 1).map
        (fun r => (r.2, r.1.mCachedGyroData, r.1.mGyroSensorTimestamp, r.1.mIIOReadSize)) =
      some ([], ⟨0, 0, 0⟩, 0, 0) ∧
    (readMpuEvents iamLayout (demoGyroOn false) 4 (devBytes (demoGyroPacket.take 1))).map
        (fun r => r.s.mIIOReadSize) = some 0 ∧
    (∀ k ∈ List.range 24, 2 ≤ k →
      splitRun iamLayout (demoGyroOn false) 4 demoGyroPacket k =
        wholeRun iamLayout (demoGyroOn false) 4 demoGyroPacket) := by
  refine ⟨by decide, by decide, by decide, by decide⟩

/-- C7, failing input.  The constructor calls `mFlushSensorEnabledVector.resize`, which
leaves `TotalNumSensors` zero entries in the flush queue: the queue of a fresh driver is
`[0, 0, 0]`.  After `enable(ID_RG, 1)`, one `readMpuEvents` pass over a single RAW_GYRO
packet decodes no marker and yet emits a flush-complete event (for channel 0). -/
theorem C7_fresh_queue_not_empty :
    (∀ (L : Layout) (raw : MPLSensor) (compass chip : Bool)
        (g a c : Option (List Int)),
      (construct L raw compass chip g a c).mFlushSensorEnabledVector = [0, 0, 0]) ∧
    (readMpuEvents iamLayout (enable (demoDriver false) ID_RG 1 5).2 4
        (devBytes demoGyroPacket)).map
        (fun r => (flushIds r.out, r.markers, r.s.mFlushSensorEnabledVector)) =
      some ([0], [], [0, 0]) := by
  refine ⟨fun _ _ _ _ _ _ _ => rfl, by decide⟩

/-- C8, failing input.  With the flush queue `[7]` and `count = 0`, `readEvents` writes
nothing and still removes the entry, and so does `readCompassEvents(s, 0)`, which passes
its `count` on to `readEvents`: the pending flush completion is never delivered. -/
theorem C8_flush_entry_dropped :
    (readEvents (demoWithQueue true [7]) 0).out = [] ∧
    (readEvents (demoWithQueue true [7]) 0).numEventReceived = 0 ∧
    (readEvents (demoWithQueue true [7]) 0).s.mFlushSensorEnabledVector = [] ∧
    (readCompassEvents iamLayout (demoWithQueue true [7]) 0 ⟨1, 2, 3⟩ 50).out = [] ∧
    (readCompassEvents iamLayout (demoWithQueue true [7]) 0 ⟨1, 2, 3⟩
      50).s.mFlushSensorEnabledVector = [] := by
  refine ⟨by decide, by decide, by decide, by decide, by decide⟩

/-- C9, failing inputs.  (a) With capacity 1 the driver asks for 24 bytes; the device
delivers three 8-byte MARKER packets (ids 5, 6, 7).  After the first marker the capacity is
used up, the loop stops, and the 16 bytes not yet decoded are not kept: the carry is empty
and only marker 5 ever reaches the flush queue.  (b) With the flush queue `[9]` and
capacity 1, a RAW_GYRO packet is decoded into the cache, the one slot goes to the
flush-complete event, and the handler has already moved the previous timestamp to the
sample's: the sample is cached, was not written, and no later `readEvents` writes it. -/
theorem C9_capacity_exhausted_loses_data :
    readNbytes iamLayout (demoGyroOn false) 1 = 24 ∧
    (readMpuEvents iamLayout (demoGyroOn false) 1
        (devBytes (demoMarker 5 ++ demoMarker 6 ++ demoMarker 7))).map
        (fun r => (r.out, r.markers, r.s.mFlushSensorEnabledVector, r.s.mIIOReadSize)) =
      some ([flushEvent 5], [5], [], 0) ∧
    (readMpuEvents iamLayout (demoWithQueue false [9]) 1 (devBytes demoGyroPacket)).map
        (fun r => (r.out, r.s.mCachedGyroData, r.s.mGyroSensorTimestamp,
          r.s.mGyroSensorPrevTimestamp, (rawGyroHandler r.s).1, (readEvents r.s 4).out)) =
      some ([flushEvent 9], ⟨100, 0, 0⟩, 1000, 1000, 0, []) := by
  refine ⟨by decide, by decide, by decide⟩

theorem C2_sample_packet_decoding_witness :
    iamLayout.wf ∧
    ((decodeIter iamLayout (demoLoopState demoGyroPacket)).1.s.mCachedGyroData = ⟨100, 0, 0⟩ ∧
      (decodeIter iamLayout (demoLoopState demoGyroPacket)).1.s.mGyroSensorTimestamp = 1000 ∧
      (decodeIter iamLayout (demoLoopState demoGyroPacket)).1.s.mCachedAccelData =
        (demoLoopState demoGyroPacket).s.mCachedAccelData) ∧
    ((decodeIter iamLayout (demoLoopState demoAccelPacket)).1.s.mCachedAccelData =
        ⟨0, 0, 16384⟩ ∧
      (decodeIter iamLayout (demoLoopState demoAccelPacket)).1.s.mAccelSensorTimestamp = 1000 ∧
      (decodeIter iamLayout (demoLoopState demoAccelPacket)).1.s.mCachedGyroData =
        (demoLoopState demoAccelPacket).s.mCachedGyroData) :=
  ⟨by decide,
   ⟨((C2_sample_packet_decoding iamLayout (by decide) (demoLoopState demoGyroPacket)).1
        (by decide) (by decide)).1.trans (by decide),
    ((C2_sample_packet_decoding iamLayout (by decide) (demoLoopState demoGyroPacket)).1
        (by decide) (by decide)).2.1.trans (by decide),
    ((C2_sample_packet_decoding iamLayout (by decide) (demoLoopState demoGyroPacket)).1
        (by decide) (by decide)).2.2.1⟩,
   ⟨((C2_sample_packet_decoding iamLayout (by decide) (demoLoopState demoAccelPacket)).2
        (by decide) (by decide)).1.trans (by decide),
    ((C2_sample_packet_decoding iamLayout (by decide) (demoLoopState demoAccelPacket)).2
        (by decide) (by decide)).2.1.trans (by decide),
    ((C2_sample_packet_decoding iamLayout (by decide) (demoLoopState demoAccelPacket)).2
        (by decide) (by decide)).2.2.1⟩⟩

theorem C6_flush_fifo_witness :
    iamLayout.wf ∧
    ∃ r, runPasses iamLayout (demoWithQueue false [9])
        [⟨4, devBytes (demoMarker 5 ++ demoMarker 6)⟩, ⟨4, devBytes demoGyroPacket⟩] = some r ∧
      ((∀ c ∈ r.calls, 1 ≤ c) →
        flushIds r.out ++ r.s.mFlushSensorEnabledVector =
          (demoWithQueue false [9]).mFlushSensorEnabledVector ++ r.markers ∧
        flushIds r.out <+: (demoWithQueue false [9]).mFlushSensorEnabledVector ++ r.markers) :=
  ⟨by decide,
   (C6_flush_fifo iamLayout (by decide) (demoWithQueue false [9])
      [⟨4, devBytes (demoMarker 5 ++ demoMarker 6)⟩, ⟨4, devBytes demoGyroPacket⟩]).2.2⟩


/-! ## Bit masks -/

theorem and_one_shiftLeft (m i : Nat) :
    m &&& (1 <<< i) = if m.testBit i then 2 ^ i else 0 := by
  apply Nat.eq_of_testBit_eq
  intro j
  rw [Nat.testBit_and, Nat.one_shiftLeft, Nat.testBit_two_pow]
  split_ifs with h
  · rw [Nat.testBit_two_pow]
    by_cases hij : i = j
    · subst hij; simp [h]
    · simp [hij]
  · rw [Nat.zero_testBit]
    by_cases hij : i = j
    · subst hij; simp [h]
    · simp [hij]

theorem and_one_shiftLeft_ne_zero (m i : Nat) :
    m &&& (1 <<< i) ≠ 0 ↔ m.testBit i = true := by
  rw [and_one_shiftLeft]
  split_ifs with h
  · simp [h]
  · simp [h]

theorem testBit_and_not64 (m w j : Nat) (hj : j < 64) :
    (m &&& not64 (1 <<< w)).testBit j = (m.testBit j && decide (w ≠ j)) := by
  have h64 : (18446744073709551615 : Nat) = 2 ^ 64 - 1 := by norm_num
  rw [Nat.testBit_and, not64, Nat.testBit_xor, Nat.one_shiftLeft, Nat.testBit_two_pow, h64,
    Nat.testBit_two_pow_sub_one]
  by_cases hwj : w = j <;> simp [hwj, hj]

/-! ## Batch timeout -/

theorem range_TotalNumSensors : List.range TotalNumSensors = [0, 1, 2] := by decide

theorem batchTimeoutStep_eq (s : MPLSensor) (bt : Int) (i : Nat) :
    batchTimeoutStep s bt i = if chanEnabled s i then min bt (requestedNs s i) else bt := by
  unfold batchTimeoutStep requestedNs chanEnabled batchActive
  dsimp only
  split_ifs <;> first | rfl | omega

/-- The value `updateBatchTimeout` computes is the one described in words. -/
theorem batchingTimeout_eq_amended (s : MPLSensor) : batchingTimeout s = amendedTimeoutNs s := by
  unfold batchingTimeout amendedTimeoutNs
  rw [range_TotalNumSensors]
  by_cases hb : s.mBatchEnabled = 0
  · simp [hb]
  · rw [if_pos hb, if_neg hb]
    simp only [List.foldl, batchTimeoutStep_eq, List.filter]
    by_cases h0 : chanEnabled s 0 <;> by_cases h1 : chanEnabled s 1 <;>
      by_cases h2 : chanEnabled s 2 <;> simp [h0, h1, h2]

theorem amendedTimeoutNs_bcore (s : MPLSensor) :
    amendedTimeoutNs (bcore s) = amendedTimeoutNs s := rfl

theorem amendedTimeoutNs_le (s : MPLSensor) : amendedTimeoutNs s ≤ BATCH_SENTINEL := by
  unfold amendedTimeoutNs
  rw [range_TotalNumSensors]
  by_cases hb : s.mBatchEnabled = 0
  · rw [if_pos hb]; decide
  · rw [if_neg hb]
    simp only [List.filter]
    by_cases h0 : chanEnabled s 0 <;> by_cases h1 : chanEnabled s 1 <;>
      by_cases h2 : chanEnabled s 2 <;> simp [h0, h1, h2]

theorem setBatchTimeout_bcore (s : MPLSensor) (t : Int) :
    bcore (setBatchTimeout s t) = bcore s := rfl

theorem updateBatchTimeout_bcore (s : MPLSensor) : bcore (updateBatchTimeout s) = bcore s := by
  unfold updateBatchTimeout
  split_ifs
  · exact setBatchTimeout_bcore s _
  · rfl

theorem updateBatchTimeout_ms (s : MPLSensor) :
    (updateBatchTimeout s).mBatchTimeoutInMs =
      if s.mBatchTimeoutInMs ≠ amendedTimeoutNs s then
        wrap32 (Int.tdiv (amendedTimeoutNs s) 1000000)
      else s.mBatchTimeoutInMs := by
  unfold updateBatchTimeout
  rw [batchingTimeout_eq_amended]
  split_ifs <;> rfl

theorem updateBatchTimeout_sysfs (s : MPLSensor) :
    (updateBatchTimeout s).sysfs =
      if s.mBatchTimeoutInMs ≠ amendedTimeoutNs s then
        s.sysfs ++ [Directive.batchTimeout (wrap32 (Int.tdiv (amendedTimeoutNs s) 1000000))]
      else s.sysfs := by
  unfold updateBatchTimeout
  rw [batchingTimeout_eq_amended]
  split_ifs <;> rfl

/-! ## The shape of `enable`, `batch` and `flush` -/

theorem getHandle_valid (handle : Int) (h : ¬ getHandle handle < 0) :
    (handle = 0 ∨ handle = 1 ∨ handle = 2) ∧ getHandle handle = handle := by
  unfold getHandle ID_NUMBER ID_RG ID_A ID_RM RawGyro Accelerometer RawMagneticField at *
  split_ifs at h ⊢ with h1 h2 h3 h4
  · simp at h
  · subst h2; simp
  · subst h3; simp
  · subst h4; simp
  · exfalso
    push_cast at h1
    omega

theorem getHandle_invalid (handle : Int) (h : handle < 0 ∨ (ID_NUMBER : Int) ≤ handle) :
    getHandle handle < 0 := by
  unfold getHandle ID_NUMBER ID_RG ID_A ID_RM RawGyro Accelerometer RawMagneticField at *
  push_cast at h
  split_ifs <;> omega

theorem enable_accept (s : MPLSensor) (handle en now : Int) (hc : s.mChipDetected = true)
    (hw : ¬ getHandle handle < 0) :
    enable s handle en now =
      (0, updateBatchTimeout (enableBody s (getHandle handle).toNat en now)) := by
  unfold enable
  rw [if_neg (show ¬ ((!s.mChipDetected) = true) by simp [hc])]
  dsimp only
  rw [if_neg hw]
  rfl

theorem enable_reject (s : MPLSensor) (handle en now : Int)
    (h : s.mChipDetected = false ∨ getHandle handle < 0) :
    enable s handle en now = (-EINVAL, s) := by
  unfold enable
  by_cases hc : (!s.mChipDetected) = true
  · rw [if_pos hc]
  · rw [if_neg hc]
    dsimp only
    rw [if_pos (h.resolve_left (by simpa using hc))]

/-- The ways `batch` returns: rejected or dry run with the state untouched, or carried out
on the sensor-list entry `e` with the rounded period `p`. -/
theorem batch_cases (s : MPLSensor) (handle : Int) (flags : Nat) (period_ns timeout : Int)
    (r : Int) (s' : MPLSensor) (h : batch s handle flags period_ns timeout = some (r, s')) :
    (r = -EINVAL ∧ s' = s ∧
      (s.mChipDetected = false ∨ getHandle handle < 0 ∨
        flags &&& SENSORS_BATCH_WAKE_UPON_FIFO_FULL ≠ 0)) ∨
    (r = 0 ∧ s' = s ∧ flags &&& SENSORS_BATCH_DRY_RUN ≠ 0) ∨
    (r = 0 ∧ flags &&& SENSORS_BATCH_DRY_RUN = 0 ∧ s.mChipDetected = true ∧
      ¬ getHandle handle < 0 ∧ flags &&& SENSORS_BATCH_WAKE_UPON_FIFO_FULL = 0 ∧
      ∃ e p, s.currentSensorList.get? (findListIndex s.currentSensorList s.mNumSensors handle)
          = some e ∧
        batchPeriod e period_ns = some p ∧
        s' = setRate (updateBatchTimeout
              (batchBody s (getHandle handle).toNat (batchTimeout1 e timeout)))
              (getHandle handle).toNat p) := by
  unfold batch at h
  by_cases hc : (!s.mChipDetected) = true
  · rw [if_pos hc] at h
    cases h
    exact Or.inl ⟨rfl, rfl, Or.inl (by simpa using hc)⟩
  · rw [if_neg hc] at h
    dsimp only at h
    by_cases hw : getHandle handle < 0
    · rw [if_pos hw] at h
      cases h
      exact Or.inl ⟨rfl, rfl, Or.inr (Or.inl hw)⟩
    · rw [if_neg hw] at h
      by_cases hf : flags &&& SENSORS_BATCH_WAKE_UPON_FIFO_FULL ≠ 0
      · rw [if_pos hf] at h
        cases h
        exact Or.inl ⟨rfl, rfl, Or.inr (Or.inr hf)⟩
      · rw [if_neg hf] at h
        cases he : s.currentSensorList.get?
            (findListIndex s.currentSensorList s.mNumSensors handle) with
        | none => rw [he] at h; cases h
        | some e =>
          rw [he] at h
          dsimp only at h
          cases hp : batchPeriod e period_ns with
          | none => rw [hp] at h; cases h
          | some p =>
            rw [hp] at h
            dsimp only at h
            by_cases hd : flags &&& SENSORS_BATCH_DRY_RUN ≠ 0
            · rw [if_pos hd] at h
              cases h
              exact Or.inr (Or.inl ⟨rfl, rfl, hd⟩)
            · rw [if_neg hd] at h
              cases h
              exact Or.inr (Or.inr ⟨rfl, not_not.mp hd, by simpa using hc, hw,
                not_not.mp hf, e, p, rfl, hp, rfl⟩)

theorem setRate_bcore (s : MPLSensor) (w : Nat) (p : Int) :
    bcore (setRate s w p) = bcore s := by
  unfold setRate
  split
  · rfl
  · rfl
  · split_ifs <;> rfl
  · rfl

theorem setRate_ms (s : MPLSensor) (w : Nat) (p : Int) :
    (setRate s w p).mBatchTimeoutInMs = s.mBatchTimeoutInMs := by
  unfold setRate
  split
  · rfl
  · rfl
  · split_ifs <;> rfl
  · rfl

theorem enableBody_ms (s : MPLSensor) (w : Nat) (en now : Int) :
    (enableBody s w en now).mBatchTimeoutInMs = s.mBatchTimeoutInMs := by
  unfold enableBody enableGyro enableAccel enableCompass
  dsimp only
  split_ifs <;> first | rfl | (split <;> rfl)

theorem batchBody_ms (s : MPLSensor) (w : Nat) (t : Int) :
    (batchBody s w t).mBatchTimeoutInMs = s.mBatchTimeoutInMs := by
  unfold batchBody
  split_ifs <;> rfl

theorem amendedTimeoutNs_congr {s t : MPLSensor} (h : bcore s = bcore t) :
    amendedTimeoutNs s = amendedTimeoutNs t := by
  rw [← amendedTimeoutNs_bcore s, ← amendedTimeoutNs_bcore t, h]

/-- After `updateBatchTimeout` the stored value is the converted effective timeout, unless
the nanosecond value coincides with a non-zero stored millisecond value. -/
theorem updateBatchTimeout_result (s : MPLSensor)
    (hg : s.mBatchTimeoutInMs ≠ amendedTimeoutNs s ∨ amendedTimeoutNs s = 0) :
    (updateBatchTimeout s).mBatchTimeoutInMs =
      wrap32 (Int.tdiv (amendedTimeoutNs s) 1000000) := by
  rw [updateBatchTimeout_ms]
  by_cases h : s.mBatchTimeoutInMs ≠ amendedTimeoutNs s
  · rw [if_pos h]
  · rw [if_neg h]
    have h0 := hg.resolve_left h
    rw [not_not.mp h, h0]
    decide

theorem wrap32_tdiv_of_nonneg (m : Int) (h0 : 0 ≤ m) (h1 : m ≤ BATCH_SENTINEL) :
    wrap32 (Int.tdiv m 1000000) = m / 1000000 := by
  have e : Int.tdiv m 1000000 = m / 1000000 := Int.tdiv_eq_ediv h0 (by decide)
  rw [e]
  unfold wrap32
  unfold BATCH_SENTINEL at h1
  omega

/-! ## Claims on the batch timeout -/

/-- C10, as stated, fails: with gyroscope and accelerometer enabled, `batch` for the
gyroscope with a timeout of 50 ms succeeds and leaves `mBatchTimeoutInMs = 0`, because the
accelerometer is enabled and not batching-active; the claimed value, the least latency
among the channels both enabled and batching-active, is 50 ms. -/
theorem C10_counterexample :
    (batch (demoBothOn false) ID_RG 0 5000000 50000000).map
        (fun r => (r.1, r.2.mBatchTimeoutInMs, claimedBatchTimeoutMs r.2)) =
      some (0, 0, 50) := by
  decide

/-- C10 (effective batch timeout), amended.  After a successful `enable` call or a
successful `batch` call that is not a dry run, let `m` be zero when no channel is
batching-active and otherwise the least of the sentinel 100000000000 and, over the enabled
channels, of the requested latency of a batching-active channel and of zero for a channel
that is not batching-active.  When some channel is enabled or no channel is batching-active,
and `m` is zero or differs from the value `mBatchTimeoutInMs` held before the call, then
`mBatchTimeoutInMs` is `(int)(m / 1000000)`, which is the floor of `m / 1000000` when
`m ≥ 0`. -/
theorem C10_effective_batch_timeout (s s' : MPLSensor)
    (hcall : (∃ handle en now, enable s handle en now = (0, s')) ∨
      (∃ handle flags period_ns timeout, flags &&& SENSORS_BATCH_DRY_RUN = 0 ∧
        batch s handle flags period_ns timeout = some (0, s')))
    (_hen : s'.mBatchEnabled = 0 ∨ ∃ c, c < TotalNumSensors ∧ chanEnabled s' c)
    (hguard : s.mBatchTimeoutInMs ≠ amendedTimeoutNs s' ∨ amendedTimeoutNs s' = 0) :
    s'.mBatchTimeoutInMs = wrap32 (Int.tdiv (amendedTimeoutNs s') 1000000) ∧
    (0 ≤ amendedTimeoutNs s' → s'.mBatchTimeoutInMs = amendedTimeoutNs s' / 1000000) := by
  have key : ∀ t : MPLSensor, t.mBatchTimeoutInMs = s.mBatchTimeoutInMs →
      bcore s' = bcore (updateBatchTimeout t) →
      s'.mBatchTimeoutInMs = (updateBatchTimeout t).mBatchTimeoutInMs →
      s'.mBatchTimeoutInMs = wrap32 (Int.tdiv (amendedTimeoutNs s') 1000000) := by
    intro t ht hb hms
    have e : amendedTimeoutNs s' = amendedTimeoutNs t :=
      (amendedTimeoutNs_congr hb).trans (amendedTimeoutNs_congr (updateBatchTimeout_bcore t))
    rw [hms, e]
    apply updateBatchTimeout_result
    rw [ht, ← e]
    exact hguard
  have main : s'.mBatchTimeoutInMs = wrap32 (Int.tdiv (amendedTimeoutNs s') 1000000) := by
    rcases hcall with ⟨handle, en, now, h⟩ | ⟨handle, flags, period_ns, timeout, hdry, h⟩
    · by_cases hrej : s.mChipDetected = false ∨ getHandle handle < 0
      · rw [enable_reject s handle en now hrej] at h
        have : (-EINVAL : Int) = 0 := congrArg Prod.fst h
        exact absurd this (by decide)
      · have hc : s.mChipDetected = true := by
          cases hcd : s.mChipDetected
          · exact absurd (Or.inl hcd) hrej
          · rfl
        have hw : ¬ getHandle handle < 0 := fun hh => hrej (Or.inr hh)
        rw [enable_accept s handle en now hc hw] at h
        have hs : s' = updateBatchTimeout (enableBody s (getHandle handle).toNat en now) :=
          (congrArg Prod.snd h).symm
        exact key (enableBody s (getHandle handle).toNat en now) (enableBody_ms s _ en now)
          (by rw [hs]) (by rw [hs])
    · rcases batch_cases s handle flags period_ns timeout 0 s' h with
        ⟨hr, -, -⟩ | ⟨-, -, hd⟩ | ⟨-, -, -, -, -, e, p, -, -, hs⟩
      · exact absurd hr (by decide)
      · exact absurd hdry hd
      · refine key (batchBody s (getHandle handle).toNat (batchTimeout1 e timeout))
          (batchBody_ms s _ _) ?_ ?_
        · rw [hs, setRate_bcore]
        · rw [hs, setRate_ms]
  exact ⟨main, fun h0 => main.trans (wrap32_tdiv_of_nonneg _ h0 (amendedTimeoutNs_le s'))⟩

theorem C10_effective_batch_timeout_witness :
    ∃ s', batch (demoGyroOn false) ID_RG 0 5000000 50000000 = some (0, s') ∧
      (0 : Nat) &&& SENSORS_BATCH_DRY_RUN = 0 ∧
      (s'.mBatchEnabled = 0 ∨ ∃ c, c < TotalNumSensors ∧ chanEnabled s' c) ∧
      ((demoGyroOn false).mBatchTimeoutInMs ≠ amendedTimeoutNs s' ∨ amendedTimeoutNs s' = 0) ∧
      (s'.mBatchTimeoutInMs = wrap32 (Int.tdiv (amendedTimeoutNs s') 1000000) ∧
        (0 ≤ amendedTimeoutNs s' → s'.mBatchTimeoutInMs = amendedTimeoutNs s' / 1000000)) ∧
      s'.mBatchTimeoutInMs = 50 :=
  ⟨setRate (updateBatchTimeout (batchBody (demoGyroOn false) 0 50000000)) 0 5000000,
   by decide, by decide, Or.inr ⟨0, by decide, by decide⟩, Or.inl (by decide),
   C10_effective_batch_timeout (demoGyroOn false)
      (setRate (updateBatchTimeout (batchBody (demoGyroOn false) 0 50000000)) 0 5000000)
      (Or.inr ⟨ID_RG, 0, 5000000, 50000000, by decide, by decide⟩)
      (Or.inr ⟨0, by decide, by decide⟩) (Or.inl (by decide)),
   by decide⟩

/-- C11, failing input.  On a fresh driver no channel is enabled and `mBatchTimeoutInMs`
is 0.  A successful `batch` call for the (disabled) gyroscope with a timeout of 50 ms makes
`mBatchEnabled` non-zero; the loop of `updateBatchTimeout` then finds no enabled channel
and keeps its start value, the sentinel: the stored timeout becomes 100000 ms and a
set-batch-timeout directive is issued. -/
theorem C11_disabled_channel_changes_timeout :
    (demoDriver false).mEnabled = 0 ∧ (demoDriver false).mBatchTimeoutInMs = 0 ∧
    (batch (demoDriver false) ID_RG 0 5000000 50000000).map
        (fun r => (r.1, r.2.mEnabled, r.2.mBatchTimeoutInMs,
          r.2.sysfs.drop (demoDriver false).sysfs.length)) =
      some (0, 0, 100000, [Directive.batchTimeout 100000, Directive.gyroRate 5000000]) := by
  refine ⟨by decide, by decide, by decide⟩

/-- C12, failing input.  With the gyroscope enabled, `batch` for the gyroscope with a
timeout of 50 ms pushes 50 to the device.  The identical call repeated at once computes the
same effective timeout, yet the guard of `updateBatchTimeout` compares the stored
milliseconds (50) with the computed nanoseconds (50000000), finds them different, and
issues the set-batch-timeout directive again. -/
theorem C12_identical_batch_call_repeats_directive :
    ∃ s1 s2,
      batch (demoGyroOn false) ID_RG 0 5000000 50000000 = some (0, s1) ∧
      batch s1 ID_RG 0 5000000 50000000 = some (0, s2) ∧
      s1.mBatchTimeoutInMs = 50 ∧ amendedTimeoutNs s1 = 50000000 ∧
      s2.mBatchTimeoutInMs = 50 ∧
      s2.sysfs = s1.sysfs ++ [Directive.batchTimeout 50, Directive.gyroRate 5000000] := by
  refine ⟨setRate (updateBatchTimeout (batchBody (demoGyroOn false) 0 50000000)) 0 5000000,
    setRate (updateBatchTimeout (batchBody
      (setRate (updateBatchTimeout (batchBody (demoGyroOn false) 0 50000000)) 0 5000000)
      0 50000000)) 0 5000000, by decide, by decide, by decide, by decide, by decide, by decide⟩

/-- C15, failing input.  The gyroscope is enabled and batching with 50 ms (stored timeout
50).  `enable(ID_RG, 1)` finds the channel already enabled, writes no enable directive and
leaves `mEnabled` and `mEnabledTime` alone, but its `updateBatchTimeout()` call compares the
stored 50 (ms) with the computed 50000000 (ns) and issues a set-batch-timeout directive. -/
theorem C15_noop_enable_issues_directive :
    ∃ s1,
      batch (demoGyroOn false) ID_RG 0 5000000 50000000 = some (0, s1) ∧
      s1.mEnabled &&& (1 <<< RawGyro) ≠ 0 ∧
      (enable s1 ID_RG 1 9).1 = 0 ∧
      (enable s1 ID_RG 1 9).2.mEnabled = s1.mEnabled ∧
      (enable s1 ID_RG 1 9).2.mEnabledTime = s1.mEnabledTime ∧
      (enable s1 ID_RG 1 9).2.sysfs = s1.sysfs ++ [Directive.batchTimeout 50] := by
  refine ⟨setRate (updateBatchTimeout (batchBody (demoGyroOn false) 0 50000000)) 0 5000000,
    by decide, by decide, by decide, by decide, by decide, by decide⟩

/-! ## Flags, latencies and enable times -/


theorem bcore_eq_batchEnabled {s t : MPLSensor} (h : bcore s = bcore t) :
    s.mBatchEnabled = t.mBatchEnabled := by
  have h9 := congrArg MPLSensor.mBatchEnabled h; exact h9

theorem bcore_eq_batchTimeouts {s t : MPLSensor} (h : bcore s = bcore t) :
    s.mBatchTimeouts = t.mBatchTimeouts := by
  have h9 := congrArg MPLSensor.mBatchTimeouts h; exact h9

theorem bcore_eq_enabled {s t : MPLSensor} (h : bcore s = bcore t) :
    s.mEnabled = t.mEnabled := by
  have h9 := congrArg MPLSensor.mEnabled h; exact h9

theorem bcore_eq_enabledTime {s t : MPLSensor} (h : bcore s = bcore t) :
    s.mEnabledTime = t.mEnabledTime := by
  have h9 := congrArg MPLSensor.mEnabledTime h; exact h9

theorem bcore_eq_readSize {s t : MPLSensor} (h : bcore s = bcore t) :
    s.mIIOReadSize = t.mIIOReadSize := by
  have h9 := congrArg MPLSensor.mIIOReadSize h; exact h9

theorem batchActive_iff (s : MPLSensor) (i : Nat) :
    batchActive s i ↔ s.mBatchEnabled.testBit i = true :=
  and_one_shiftLeft_ne_zero _ _

theorem chanEnabled_iff (s : MPLSensor) (i : Nat) :
    chanEnabled s i ↔ s.mEnabled.testBit i = true :=
  and_one_shiftLeft_ne_zero _ _

theorem testBit_or_one_shiftLeft (m w j : Nat) :
    (m ||| (1 <<< w)).testBit j = (m.testBit j || decide (w = j)) := by
  rw [Nat.testBit_or, Nat.one_shiftLeft, Nat.testBit_two_pow]

theorem Arr3_get_set {α : Type} (a : Arr3 α) (i j : Nat) (v : α) (hi : i < 3) (hj : j < 3) :
    (a.set i v).get j = if i = j then v else a.get j := by
  interval_cases i <;> interval_cases j <;> rfl

/-- The effect of the flag update of `batch` on the batching-active flags and latencies. -/
theorem batchBody_spec (s : MPLSensor) (w : Nat) (t1 : Int) (hw : w < 3) :
    (t1 = 0 → ¬ batchActive (batchBody s w t1) w ∧
      (batchBody s w t1).mBatchTimeouts.get w = BATCH_SENTINEL) ∧
    (t1 ≠ 0 → batchActive (batchBody s w t1) w ∧
      (batchBody s w t1).mBatchTimeouts.get w = t1) ∧
    (∀ j, j < 3 → j ≠ w →
      (batchActive (batchBody s w t1) j ↔ batchActive s j) ∧
      (batchBody s w t1).mBatchTimeouts.get j = s.mBatchTimeouts.get j) := by
  refine ⟨fun h0 => ?_, fun h0 => ?_, fun j hj hjw => ?_⟩
  · have e : batchBody s w t1 =
        { s with mBatchEnabled := s.mBatchEnabled &&& not64 (1 <<< w),
                 mBatchTimeouts := s.mBatchTimeouts.set w BATCH_SENTINEL } := by
      unfold batchBody; rw [if_pos h0]
    rw [e, batchActive_iff]
    dsimp only
    rw [testBit_and_not64 _ _ _ (by omega), Arr3_get_set _ _ _ _ hw hw]
    simp
  · have e : batchBody s w t1 =
        { s with mBatchEnabled := s.mBatchEnabled ||| (1 <<< w),
                 mBatchTimeouts := s.mBatchTimeouts.set w t1 } := by
      unfold batchBody; rw [if_neg h0]
    rw [e, batchActive_iff]
    dsimp only
    rw [testBit_or_one_shiftLeft, Arr3_get_set _ _ _ _ hw hw]
    simp
  · by_cases h0 : t1 = 0
    · have e : batchBody s w t1 =
          { s with mBatchEnabled := s.mBatchEnabled &&& not64 (1 <<< w),
                   mBatchTimeouts := s.mBatchTimeouts.set w BATCH_SENTINEL } := by
        unfold batchBody; rw [if_pos h0]
      rw [e, batchActive_iff, batchActive_iff]
      dsimp only
      rw [testBit_and_not64 _ _ _ (by omega), Arr3_get_set _ _ _ _ hw hj]
      have : w ≠ j := fun h => hjw h.symm
      simp [this]
    · have e : batchBody s w t1 =
          { s with mBatchEnabled := s.mBatchEnabled ||| (1 <<< w),
                   mBatchTimeouts := s.mBatchTimeouts.set w t1 } := by
        unfold batchBody; rw [if_neg h0]
      rw [e, batchActive_iff, batchActive_iff]
      dsimp only
      rw [testBit_or_one_shiftLeft, Arr3_get_set _ _ _ _ hw hj]
      have : w ≠ j := fun h => hjw h.symm
      simp [this]

theorem getHandle_toNat_lt (handle : Int) (h : ¬ getHandle handle < 0) :
    (getHandle handle).toNat < 3 := by
  obtain ⟨h1, h2⟩ := getHandle_valid handle h
  rw [h2]
  rcases h1 with h | h | h <;> rw [h] <;> decide

/-- The sensor-list entry `batch` finds for a valid handle once the list is populated. -/
theorem sensorList_entry (L : Layout) (handle : Int) (h : ¬ getHandle handle < 0) :
    ∃ e, (sRawSensorList L).get? (findListIndex (sRawSensorList L) 3 handle) = some e ∧
      (e.fifoMaxEventCount = 0 ↔ handle = ID_RM) := by
  obtain ⟨h1, -⟩ := getHandle_valid handle h
  rcases h1 with h | h | h <;> subst h
  · exact ⟨_, rfl, by dsimp only; decide⟩
  · exact ⟨_, rfl, by dsimp only; decide⟩
  · exact ⟨_, rfl, by decide⟩

/-- C13, as stated, fails for the magnetometer: its sensor-list entry has
`fifoMaxEventCount = 0`, so `batch` replaces the positive timeout by 0 before it updates the
flags: after a successful non-dry-run `batch(ID_RM, 0, 50000000, 50000000)` the
magnetometer's bit of `mBatchEnabled` is clear and `mBatchTimeouts` holds the sentinel. -/
theorem C13_counterexample :
    (batch (demoGyroOn true) ID_RM 0 50000000 50000000).map
        (fun r => (r.1, decide (batchActive r.2 RawMagneticField),
          r.2.mBatchTimeouts.get RawMagneticField)) =
      some (0, false, 100000000000) := by
  decide

/-- C13 (effect of `batch` on the batch request), amended.  Once the sensor list is
populated, after a successful non-dry-run `batch(handle, flags, period_ns, timeout)` call on
channel `w`: let `t` be `timeout`, except that for the magnetometer, which does not support
batch mode (`fifoMaxEventCount = 0`), a positive `timeout` counts as 0.  If `t = 0` the bit
of `w` in `mBatchEnabled` is clear and `mBatchTimeouts[w]` is the sentinel 100000000000; if
`t ≠ 0` the bit is set and `mBatchTimeouts[w] = timeout`; the flags and latencies of the
other channels are unchanged. -/
theorem C13_batch_request (L : Layout) (s s' : MPLSensor) (handle : Int) (flags : Nat)
    (period_ns timeout : Int)
    (hlist : s.currentSensorList = sRawSensorList L) (hnum : s.mNumSensors = 3)
    (hdry : flags &&& SENSORS_BATCH_DRY_RUN = 0)
    (h : batch s handle flags period_ns timeout = some (0, s')) :
    (getHandle handle).toNat < 3 ∧ ((getHandle handle).toNat : Int) = handle ∧
    ((if handle = ID_RM ∧ timeout > 0 then 0 else timeout) = 0 →
      ¬ batchActive s' (getHandle handle).toNat ∧
      s'.mBatchTimeouts.get (getHandle handle).toNat = BATCH_SENTINEL) ∧
    ((if handle = ID_RM ∧ timeout > 0 then 0 else timeout) ≠ 0 →
      batchActive s' (getHandle handle).toNat ∧
      s'.mBatchTimeouts.get (getHandle handle).toNat = timeout) ∧
    (∀ j, j < 3 → j ≠ (getHandle handle).toNat →
      (batchActive s' j ↔ batchActive s j) ∧
      s'.mBatchTimeouts.get j = s.mBatchTimeouts.get j) := by
  rcases batch_cases s handle flags period_ns timeout 0 s' h with
    ⟨hr, -, -⟩ | ⟨-, -, hd⟩ | ⟨-, -, -, hw, -, e, p, he, -, hs⟩
  · exact absurd hr (by decide)
  · exact absurd hdry hd
  · have hlt := getHandle_toNat_lt handle hw
    obtain ⟨e', he', hfifo⟩ := sensorList_entry L handle hw
    rw [hlist, hnum, he'] at he
    have hee : e' = e := Option.some.inj he
    subst hee
    have ht1 : batchTimeout1 e' timeout =
        if handle = ID_RM ∧ timeout > 0 then 0 else timeout := by
      unfold batchTimeout1
      by_cases hm : handle = ID_RM
      · rw [if_neg (not_not.mpr (hfifo.mpr hm))]
        by_cases hp : timeout > 0
        · rw [if_pos hp, if_pos ⟨hm, hp⟩]
        · rw [if_neg hp, if_neg (fun h => hp h.2)]
      · rw [if_pos (fun h => hm (hfifo.mp h)), if_neg (fun h => hm h.1)]
    have hb : bcore s' = bcore (batchBody s (getHandle handle).toNat (batchTimeout1 e' timeout)) := by
      rw [hs, setRate_bcore, updateBatchTimeout_bcore]
    have hbe := bcore_eq_batchEnabled hb
    have hbt := bcore_eq_batchTimeouts hb
    have hact : ∀ j, batchActive s' j ↔
        batchActive (batchBody s (getHandle handle).toNat (batchTimeout1 e' timeout)) j := by
      intro j
      unfold batchActive
      rw [hbe]
    obtain ⟨b1, b2, b3⟩ := batchBody_spec s (getHandle handle).toNat (batchTimeout1 e' timeout) hlt
    have hnat : ((getHandle handle).toNat : Int) = handle := by
      obtain ⟨h1, h2⟩ := getHandle_valid handle hw
      rw [h2]
      rcases h1 with h | h | h <;> rw [h] <;> decide
    refine ⟨hlt, hnat, fun h0 => ?_, fun h0 => ?_, fun j hj hjw => ?_⟩
    · rw [← ht1] at h0
      rw [hact, hbt]
      exact b1 h0
    · have h0' : batchTimeout1 e' timeout ≠ 0 := by rw [ht1]; exact h0
      have hto : batchTimeout1 e' timeout = timeout := by
        rw [ht1]
        split_ifs at h0 ⊢ with hc
        · exact absurd rfl h0
        · rfl
      rw [hact, hbt]
      obtain ⟨c1, c2⟩ := b2 h0'
      exact ⟨c1, c2.trans hto⟩
    · rw [hact, hbt]
      exact b3 j hj hjw

theorem C13_batch_request_witness :
    ∃ s', (demoGyroOn false).currentSensorList = sRawSensorList iamLayout ∧
      (demoGyroOn false).mNumSensors = 3 ∧ (0 : Nat) &&& SENSORS_BATCH_DRY_RUN = 0 ∧
      batch (demoGyroOn false) ID_A 0 5000000 50000000 = some (0, s') ∧
      ((getHandle ID_A).toNat < 3 ∧ ((getHandle ID_A).toNat : Int) = ID_A ∧
        ((if ID_A = ID_RM ∧ (50000000 : Int) > 0 then 0 else (50000000 : Int)) = 0 →
          ¬ batchActive s' (getHandle ID_A).toNat ∧
          s'.mBatchTimeouts.get (getHandle ID_A).toNat = BATCH_SENTINEL) ∧
        ((if ID_A = ID_RM ∧ (50000000 : Int) > 0 then 0 else (50000000 : Int)) ≠ 0 →
          batchActive s' (getHandle ID_A).toNat ∧
          s'.mBatchTimeouts.get (getHandle ID_A).toNat = 50000000) ∧
        (∀ j, j < 3 → j ≠ (getHandle ID_A).toNat →
          (batchActive s' j ↔ batchActive (demoGyroOn false) j) ∧
          s'.mBatchTimeouts.get j = (demoGyroOn false).mBatchTimeouts.get j)) :=
  ⟨setRate (updateBatchTimeout (batchBody (demoGyroOn false) 1 50000000)) 1 5000000,
   by decide, by decide, by decide, by decide,
   C13_batch_request iamLayout (demoGyroOn false)
     (setRate (updateBatchTimeout (batchBody (demoGyroOn false) 1 50000000)) 1 5000000)
     ID_A 0 5000000 50000000 (by decide) (by decide) (by decide) (by decide)⟩

theorem enableBody_eq (s : MPLSensor) (w : Nat) (en now : Int) :
    enableBody s w en now =
      if ((if en ≠ 0 then 1 else 0) <<< w) ≠ ((enablePre s w en).mEnabled &&& (1 <<< w)) then
        enableChange (enablePre s w en) w en now
      else enablePre s w en := rfl

theorem enablePre_eq (s : MPLSensor) (w : Nat) (en : Int) :
    enablePre s w en =
      { s with
          mBatchEnabled :=
            if en = 0 then s.mBatchEnabled &&& not64 (1 <<< w) else s.mBatchEnabled,
          mIIOReadSize := if s.mEnabled = 0 then 0 else s.mIIOReadSize } := by
  unfold enablePre
  by_cases he : en = 0
  · simp only [if_pos he]
    by_cases hm : s.mEnabled = 0
    · simp only [if_pos hm]
    · simp only [if_neg hm]
  · simp only [if_neg he]
    by_cases hm : s.mEnabled = 0
    · simp only [if_pos hm]
    · simp only [if_neg hm]

theorem enablePre_enabled (s : MPLSensor) (w : Nat) (en : Int) :
    (enablePre s w en).mEnabled = s.mEnabled := by
  rw [enablePre_eq]

theorem enableChange_fields (p : MPLSensor) (w : Nat) (en now : Int) (hw : w < 3) :
    (enableChange p w en now).mEnabled =
      (p.mEnabled &&& not64 (1 <<< w)) ||| ((if en ≠ 0 then 1 else 0) <<< w) ∧
    (enableChange p w en now).mEnabledTime = p.mEnabledTime.set w (if en ≠ 0 then now else 0) ∧
    (enableChange p w en now).mIIOReadSize = p.mIIOReadSize ∧
    (enableChange p w en now).mBatchEnabled = p.mBatchEnabled ∧
    (enableChange p w en now).mBatchTimeouts = p.mBatchTimeouts ∧
    (enableChange p w en now).mBatchTimeoutInMs = p.mBatchTimeoutInMs ∧
    (enableChange p w en now).mFlushSensorEnabledVector = p.mFlushSensorEnabledVector ∧
    (enableChange p w en now).mChipDetected = p.mChipDetected := by
  unfold enableChange enableGyro enableAccel enableCompass
  interval_cases w
  · exact ⟨rfl, rfl, rfl, rfl, rfl, rfl, rfl, rfl⟩
  · exact ⟨rfl, rfl, rfl, rfl, rfl, rfl, rfl, rfl⟩
  · dsimp only
    split_ifs <;> exact ⟨rfl, rfl, rfl, rfl, rfl, rfl, rfl, rfl⟩

theorem enable_cond_iff (m w : Nat) (en : Int) :
    ((if en ≠ 0 then 1 else 0) <<< w ≠ m &&& (1 <<< w)) ↔ (decide (en ≠ 0) ≠ m.testBit w) := by
  rw [and_one_shiftLeft]
  have hp : (2 : Nat) ^ w ≠ 0 := by positivity
  by_cases he : en ≠ 0 <;> cases hb : m.testBit w <;>
    simp [he, hb, Nat.one_shiftLeft, hp, hp.symm]

theorem getHandle_of_valid (handle : Int)
    (hv : handle = ID_RG ∨ handle = ID_A ∨ handle = ID_RM) :
    ¬ getHandle handle < 0 ∧ getHandle handle = handle ∧ handle.toNat < 3 ∧
      (handle.toNat : Int) = handle := by
  rcases hv with h | h | h <;> subst h <;> decide

/-- What the statements of `enable` before `updateBatchTimeout()` do to the members the
claims speak about. -/
theorem enableBody_fields (s : MPLSensor) (w : Nat) (en now : Int) (hw : w < 3) :
    (enableBody s w en now).mEnabled =
      (if decide (en ≠ 0) ≠ s.mEnabled.testBit w then
        (s.mEnabled &&& not64 (1 <<< w)) ||| ((if en ≠ 0 then 1 else 0) <<< w)
      else s.mEnabled) ∧
    (enableBody s w en now).mEnabledTime =
      (if decide (en ≠ 0) ≠ s.mEnabled.testBit w then
        s.mEnabledTime.set w (if en ≠ 0 then now else 0)
      else s.mEnabledTime) ∧
    (enableBody s w en now).mIIOReadSize = (if s.mEnabled = 0 then 0 else s.mIIOReadSize) ∧
    (enableBody s w en now).mBatchEnabled =
      (if en = 0 then s.mBatchEnabled &&& not64 (1 <<< w) else s.mBatchEnabled) ∧
    (enableBody s w en now).mChipDetected = s.mChipDetected ∧
    (enableBody s w en now).mFlushSensorEnabledVector = s.mFlushSensorEnabledVector := by
  rw [enableBody_eq, enablePre_enabled]
  by_cases hch : decide (en ≠ 0) ≠ s.mEnabled.testBit w
  · rw [if_pos ((enable_cond_iff _ _ _).mpr hch), if_pos hch, if_pos hch]
    obtain ⟨f1, f2, f3, f4, -, -, f7, f8⟩ := enableChange_fields (enablePre s w en) w en now hw
    rw [f1, f2, f3, f4, f7, f8, enablePre_eq]
    exact ⟨rfl, rfl, rfl, rfl, rfl, rfl⟩
  · rw [if_neg (fun h => hch ((enable_cond_iff _ _ _).mp h)), if_neg hch, if_neg hch,
      enablePre_eq]
    exact ⟨rfl, rfl, rfl, rfl, rfl, rfl⟩

/-- What an accepted `enable` call does to the members the claims speak about. -/
theorem enable_fields (s : MPLSensor) (handle en now : Int) (hc : s.mChipDetected = true)
    (hw : ¬ getHandle handle < 0) :
    (enable s handle en now).1 = 0 ∧
    (enable s handle en now).2.mEnabled =
      (if decide (en ≠ 0) ≠ s.mEnabled.testBit (getHandle handle).toNat then
        (s.mEnabled &&& not64 (1 <<< (getHandle handle).toNat)) |||
          ((if en ≠ 0 then 1 else 0) <<< (getHandle handle).toNat)
      else s.mEnabled) ∧
    (enable s handle en now).2.mEnabledTime =
      (if decide (en ≠ 0) ≠ s.mEnabled.testBit (getHandle handle).toNat then
        s.mEnabledTime.set (getHandle handle).toNat (if en ≠ 0 then now else 0)
      else s.mEnabledTime) ∧
    (enable s handle en now).2.mIIOReadSize = (if s.mEnabled = 0 then 0 else s.mIIOReadSize) ∧
    (enable s handle en now).2.mBatchEnabled =
      (if en = 0 then s.mBatchEnabled &&& not64 (1 <<< (getHandle handle).toNat)
       else s.mBatchEnabled) ∧
    (enable s handle en now).2.mChipDetected = true ∧
    (enable s handle en now).2.mFlushSensorEnabledVector = s.mFlushSensorEnabledVector := by
  have hlt := getHandle_toNat_lt handle hw
  rw [enable_accept s handle en now hc hw]
  have hb := updateBatchTimeout_bcore (enableBody s (getHandle handle).toNat en now)
  have e1 := bcore_eq_enabled hb
  have e2 := bcore_eq_enabledTime hb
  have e3 := bcore_eq_readSize hb
  have e4 := bcore_eq_batchEnabled hb
  have e5 : (updateBatchTimeout (enableBody s (getHandle handle).toNat en now)).mChipDetected =
      (enableBody s (getHandle handle).toNat en now).mChipDetected := by
    have h9 := congrArg MPLSensor.mChipDetected hb; exact h9
  have e6 : (updateBatchTimeout
        (enableBody s (getHandle handle).toNat en now)).mFlushSensorEnabledVector =
      (enableBody s (getHandle handle).toNat en now).mFlushSensorEnabledVector := by
    have h9 := congrArg MPLSensor.mFlushSensorEnabledVector hb; exact h9
  obtain ⟨f1, f2, f3, f4, f5, f6⟩ := enableBody_fields s (getHandle handle).toNat en now hlt
  exact ⟨rfl, e1.trans f1, e2.trans f2, e3.trans f3, e4.trans f4, (e5.trans f5).trans hc,
    e6.trans f6⟩

theorem batch_reject (s : MPLSensor) (handle : Int) (flags : Nat) (period_ns timeout : Int)
    (h : s.mChipDetected = false ∨ getHandle handle < 0) :
    batch s handle flags period_ns timeout = some (-EINVAL, s) := by
  unfold batch
  by_cases hc : (!s.mChipDetected) = true
  · rw [if_pos hc]
  · rw [if_neg hc]
    dsimp only
    rw [if_pos (h.resolve_left (by simpa using hc))]

theorem flush_reject (s : MPLSensor) (handle : Int)
    (h : s.mChipDetected = false ∨ getHandle handle < 0) :
    flush s handle = (-EINVAL, s) := by
  unfold flush
  by_cases hc : (!s.mChipDetected) = true
  · rw [if_pos hc]
  · rw [if_neg hc]
    dsimp only
    rw [if_pos (h.resolve_left (by simpa using hc))]

/-! ## Claims on `enable` -/

/-- C16 (transitions of the enable timestamp).  An accepted `enable(handle, en)` call at
time `now` sets `mEnabledTime` of the addressed channel to `now` when the channel goes from
disabled to enabled, to 0 when it goes from enabled to disabled, leaves it unchanged when
the requested state is the current one, and never changes the entries of the other
channels. -/
theorem C16_enabled_time (s : MPLSensor) (handle en now : Int)
    (hc : s.mChipDetected = true)
    (hv : handle = ID_RG ∨ handle = ID_A ∨ handle = ID_RM) :
    (¬ chanEnabled s handle.toNat → en ≠ 0 →
      (enable s handle en now).2.mEnabledTime.get handle.toNat = now) ∧
    (chanEnabled s handle.toNat → en = 0 →
      (enable s handle en now).2.mEnabledTime.get handle.toNat = 0) ∧
    ((chanEnabled s handle.toNat ↔ en ≠ 0) →
      (enable s handle en now).2.mEnabledTime = s.mEnabledTime) ∧
    (∀ j, j < 3 → j ≠ handle.toNat →
      (enable s handle en now).2.mEnabledTime.get j = s.mEnabledTime.get j) := by
  obtain ⟨hw, hg, hlt, -⟩ := getHandle_of_valid handle hv
  obtain ⟨-, -, ht, -⟩ := enable_fields s handle en now hc hw
  rw [hg] at ht
  rw [ht]
  refine ⟨fun hd he => ?_, fun hd he => ?_, fun hsame => ?_, fun j hj hjw => ?_⟩
  · have hb : s.mEnabled.testBit handle.toNat = false := by
      rw [chanEnabled_iff] at hd
      simpa using hd
    rw [if_pos (by simp [he, hb]), Arr3_get_set _ _ _ _ hlt hlt, if_pos rfl, if_pos he]
  · have hb : s.mEnabled.testBit handle.toNat = true := (chanEnabled_iff _ _).mp hd
    rw [if_pos (by simp [he, hb]), Arr3_get_set _ _ _ _ hlt hlt, if_pos rfl,
      if_neg (not_not.mpr he)]
  · rw [chanEnabled_iff] at hsame
    rw [if_neg]
    by_cases he : en ≠ 0
    · simp [he, hsame.mpr he]
    · have : s.mEnabled.testBit handle.toNat = false := by
        cases hb : s.mEnabled.testBit handle.toNat
        · rfl
        · exact absurd (hsame.mp hb) he
      simp [he, this]
  · by_cases hch : decide (en ≠ 0) ≠ s.mEnabled.testBit handle.toNat
    · rw [if_pos hch, Arr3_get_set _ _ _ _ hlt hj, if_neg (fun h => hjw h.symm)]
    · rw [if_neg hch]

theorem C16_enabled_time_witness :
    (demoDriver false).mChipDetected = true ∧ (ID_RG = ID_RG ∨ ID_RG = ID_A ∨ ID_RG = ID_RM) ∧
    ((¬ chanEnabled (demoDriver false) ID_RG.toNat → (1 : Int) ≠ 0 →
        (enable (demoDriver false) ID_RG 1 5).2.mEnabledTime.get ID_RG.toNat = 5) ∧
      (chanEnabled (demoDriver false) ID_RG.toNat → (1 : Int) = 0 →
        (enable (demoDriver false) ID_RG 1 5).2.mEnabledTime.get ID_RG.toNat = 0) ∧
      ((chanEnabled (demoDriver false) ID_RG.toNat ↔ (1 : Int) ≠ 0) →
        (enable (demoDriver false) ID_RG 1 5).2.mEnabledTime = (demoDriver false).mEnabledTime) ∧
      (∀ j, j < 3 → j ≠ ID_RG.toNat →
        (enable (demoDriver false) ID_RG 1 5).2.mEnabledTime.get j =
          (demoDriver false).mEnabledTime.get j)) :=
  ⟨by decide, Or.inl rfl,
   C16_enabled_time (demoDriver false) ID_RG 1 5 (by decide) (Or.inl rfl)⟩

/-- C17, as stated, fails: the gyroscope is enabled on a fresh driver, a read delivers the
first 5 bytes of a RAW_GYRO packet, which become the carry, and `enable(ID_RG, 0)` then
returns with no channel enabled and `mIIOReadSize = 5`: the reset of `enable` is tested
before the enabled state changes. -/
theorem C17_counterexample :
    (readMpuEvents iamLayout (enable (demoDriver false) ID_RG 1 5).2 4
        (devBytes (demoGyroPacket.take 5))).map
        (fun r => (r.s.mIIOReadSize, (enable r.s ID_RG 0 9).1, (enable r.s ID_RG 0 9).2.mEnabled,
          (enable r.s ID_RG 0 9).2.mIIOReadSize)) =
      some (5, 0, 0, 5) := by
  decide

/-- C17 (reset of the read-size accounting), amended.  An accepted `enable` call that is
entered with no channel enabled (`mEnabled = 0`) returns with `mIIOReadSize = 0`; an
accepted call entered with some channel enabled leaves `mIIOReadSize` as it was, also when
it disables the last channel. -/
theorem C17_read_size_reset (s : MPLSensor) (handle en now : Int)
    (hc : s.mChipDetected = true)
    (hv : handle = ID_RG ∨ handle = ID_A ∨ handle = ID_RM) :
    (s.mEnabled = 0 → (enable s handle en now).2.mIIOReadSize = 0) ∧
    (s.mEnabled ≠ 0 → (enable s handle en now).2.mIIOReadSize = s.mIIOReadSize) := by
  obtain ⟨hw, -, -, -⟩ := getHandle_of_valid handle hv
  obtain ⟨-, -, -, hsz, -⟩ := enable_fields s handle en now hc hw
  rw [hsz]
  exact ⟨fun h => if_pos h, fun h => if_neg h⟩

theorem C17_read_size_reset_witness :
    (demoDriver false).mChipDetected = true ∧ (ID_RG = ID_RG ∨ ID_RG = ID_A ∨ ID_RG = ID_RM) ∧
    (demoDriver false).mEnabled = 0 ∧
    (enable (demoDriver false) ID_RG 1 5).2.mIIOReadSize = 0 :=
  ⟨by decide, Or.inl rfl, by decide,
   (C17_read_size_reset (demoDriver false) ID_RG 1 5 (by decide) (Or.inl rfl)).1 (by decide)⟩

/-- C18 (bad requests are rejected without side effects).  When no chip was detected, or
the handle is negative or at least `ID_NUMBER`, each of `enable`, `batch` and `flush`
returns `-EINVAL` and leaves the whole driver state, the record of issued directives
included, as it was. -/
theorem C18_reject_bad_requests (s : MPLSensor) (handle en now : Int) (flags : Nat)
    (period_ns timeout : Int)
    (h : s.mChipDetected = false ∨ handle < 0 ∨ (ID_NUMBER : Int) ≤ handle) :
    enable s handle en now = (-EINVAL, s) ∧
    batch s handle flags period_ns timeout = some (-EINVAL, s) ∧
    flush s handle = (-EINVAL, s) := by
  have h' : s.mChipDetected = false ∨ getHandle handle < 0 :=
    h.imp id (getHandle_invalid handle)
  exact ⟨enable_reject s handle en now h', batch_reject s handle flags period_ns timeout h',
    flush_reject s handle h'⟩

theorem C18_reject_bad_requests_witness :
    ((demoGyroOn false).mChipDetected = false ∨ (7 : Int) < 0 ∨ (ID_NUMBER : Int) ≤ 7) ∧
    (enable (demoGyroOn false) 7 1 5 = (-EINVAL, demoGyroOn false) ∧
      batch (demoGyroOn false) 7 0 5000000 0 = some (-EINVAL, demoGyroOn false) ∧
      flush (demoGyroOn false) 7 = (-EINVAL, demoGyroOn false)) :=
  ⟨Or.inr (Or.inr (by decide)),
   C18_reject_bad_requests (demoGyroOn false) 7 1 5 0 5000000 0 (Or.inr (Or.inr (by decide)))⟩

/-! ## The enabled state over sequences of calls -/

theorem core_eq_mEnabled {s t : MPLSensor} (h : core s = core t) : s.mEnabled = t.mEnabled := by
  have h9 := congrArg MPLSensor.mEnabled h; exact h9

theorem frame_eq_mEnabled {s t : MPLSensor} (h : frame s = frame t) :
    s.mEnabled = t.mEnabled := by
  have h9 := congrArg MPLSensor.mEnabled h; exact h9

theorem carryOver_mEnabled (ls : LoopState) : (carryOver ls).mEnabled = ls.s.mEnabled := by
  unfold carryOver
  split_ifs <;> rfl

theorem readMpuEvents_mEnabled (L : Layout) (s : MPLSensor) (count : Int)
    (dev : Int → ReadOutcome) (r : MpuResult) (hr : readMpuEvents L s count dev = some r) :
    r.s.mEnabled = s.mEnabled := by
  unfold readMpuEvents at hr
  by_cases hen : s.mEnabled = 0
  · rw [if_pos hen] at hr
    cases hr
    rfl
  · rw [if_neg hen] at hr
    dsimp only at hr
    cases hd : dev (readNbytes L s count) with
    | error =>
      rw [hd] at hr
      cases hr
      rfl
    | data bs =>
      rw [hd] at hr
      dsimp only at hr
      by_cases hl : bs.length = 0
      · rw [if_pos hl] at hr
        cases hr
        rfl
      · rw [if_neg hl] at hr
        cases hloop : decodeLoop L (s.mIIOReadSize + bs.length)
            { s := { s with mIIOReadBuffer := writeAt s.mIIOReadBuffer s.mIIOReadSize bs,
                            mIIOReadSize := s.mIIOReadSize + bs.length },
              ptr := 0,
              count := if s.mCompassSensor then count - L.COMPASS_SEN_EVENT_RESV_SZ else count,
              numEventReceived := 0, left_over := 0, out := [], markers := [], calls := [] } with
        | none =>
          rw [hloop] at hr
          cases hr
        | some ls' =>
          rw [hloop] at hr
          cases hr
          have := decodeLoop_induct L (fun x => x.s.mEnabled = s.mEnabled)
            (fun x _ hx => (frame_eq_mEnabled (decodeIter_frame L x)).trans hx) _ _ _ hloop rfl
          dsimp only
          rw [carryOver_mEnabled]
          exact this

theorem readCompassEvents_mEnabled (L : Layout) (s : MPLSensor) (count : Int) (sample : Vec3)
    (ts : Int) : (readCompassEvents L s count sample ts).s.mEnabled = s.mEnabled := by
  have h : ∀ c1 : Int, (readEvents
      { s with mCachedCompassData := sample, mCompassTimestamp := ts } c1).s.mEnabled =
      s.mEnabled := by
    intro c1
    have h9 := core_eq_mEnabled (readEvents_core
      { s with mCachedCompassData := sample, mCompassTimestamp := ts } c1)
    exact h9
  unfold readCompassEvents
  dsimp only
  generalize (if count > (L.COMPASS_SEN_EVENT_RESV_SZ : Int) then
    (L.COMPASS_SEN_EVENT_RESV_SZ : Int) else count) = c1
  by_cases hcs : s.mCompassSensor = true
  · rw [if_pos hcs]
    by_cases hn : (readEvents
        { s with mCachedCompassData := sample, mCompassTimestamp := ts } c1).numEventReceived > 0
    · rw [if_pos hn]
      exact h c1
    · rw [if_neg hn]
      exact h c1
  · rw [if_neg hcs]

theorem batchBody_mEnabled (s : MPLSensor) (w : Nat) (t : Int) :
    (batchBody s w t).mEnabled = s.mEnabled := by
  unfold batchBody
  split_ifs <;> rfl

theorem batch_mEnabled (s : MPLSensor) (handle : Int) (flags : Nat) (period_ns timeout : Int)
    (r : Int) (s' : MPLSensor) (h : batch s handle flags period_ns timeout = some (r, s')) :
    s'.mEnabled = s.mEnabled := by
  rcases batch_cases s handle flags period_ns timeout r s' h with
    ⟨-, hs, -⟩ | ⟨-, hs, -⟩ | ⟨-, -, -, -, -, e, p, -, -, hs⟩
  · rw [hs]
  · rw [hs]
  · have hb : bcore s' = bcore (batchBody s (getHandle handle).toNat (batchTimeout1 e timeout)) := by
      rw [hs, setRate_bcore, updateBatchTimeout_bcore]
    exact (bcore_eq_enabled hb).trans (batchBody_mEnabled _ _ _)

theorem flush_mEnabled (s : MPLSensor) (handle : Int) :
    (flush s handle).2.mEnabled = s.mEnabled := by
  unfold flush
  dsimp only
  split_ifs <;> rfl

/-- The bits of `mEnabled` after an accepted `enable` call. -/
theorem enable_testBit (s : MPLSensor) (handle en now : Int) (hc : s.mChipDetected = true)
    (hw : ¬ getHandle handle < 0) (j : Nat) (hj : j < 64) :
    (enable s handle en now).2.mEnabled.testBit j =
      if j = (getHandle handle).toNat then decide (en ≠ 0) else s.mEnabled.testBit j := by
  obtain ⟨-, hm, -⟩ := enable_fields s handle en now hc hw
  rw [hm]
  by_cases hch : decide (en ≠ 0) ≠ s.mEnabled.testBit (getHandle handle).toNat
  · rw [if_pos hch, Nat.testBit_or, testBit_and_not64 _ _ _ hj]
    by_cases he : en ≠ 0
    · rw [if_pos he, Nat.one_shiftLeft, Nat.testBit_two_pow]
      by_cases hjw : j = (getHandle handle).toNat
      · subst hjw; simp [he]
      · have : (getHandle handle).toNat ≠ j := fun h => hjw h.symm
        simp [hjw, this]
    · rw [if_neg he, Nat.zero_shiftLeft, Nat.zero_testBit]
      by_cases hjw : j = (getHandle handle).toNat
      · subst hjw; simp [he]
      · have : (getHandle handle).toNat ≠ j := fun h => hjw h.symm
        simp [hjw, this]
  · rw [if_neg hch]
    by_cases hjw : j = (getHandle handle).toNat
    · subst hjw
      rw [if_pos rfl]
      exact (not_not.mp hch).symm
    · rw [if_neg hjw]

theorem runEnables_chip (s : MPLSensor) (calls : List EnableCall)
    (hc : s.mChipDetected = true)
    (hv : ∀ x ∈ calls, x.handle = ID_RG ∨ x.handle = ID_A ∨ x.handle = ID_RM) :
    ∀ c, c < 3 →
      (chanEnabled (runEnables s calls) c ↔
        lastRequest (decide (chanEnabled s c)) c calls = true) := by
  induction calls generalizing s with
  | nil =>
    intro c _
    simp [runEnables, lastRequest]
  | cons x xs ih =>
    intro c hc3
    obtain ⟨hw, hg, hlt, hnat⟩ := getHandle_of_valid x.handle (hv x (List.mem_cons_self _ _))
    obtain ⟨-, -, -, -, -, hchip, -⟩ := enable_fields s x.handle x.en x.now hc hw
    have hbit := enable_testBit s x.handle x.en x.now hc hw c (by omega)
    have := ih (enable s x.handle x.en x.now).2 hchip
      (fun y hy => hv y (List.mem_cons_of_mem _ hy)) c hc3
    unfold runEnables lastRequest
    rw [this]
    have hinit : decide (chanEnabled (enable s x.handle x.en x.now).2 c) =
        (if getHandle x.handle = c then decide (x.en ≠ 0) else decide (chanEnabled s c)) := by
      have e1 : decide (chanEnabled (enable s x.handle x.en x.now).2 c) =
          (enable s x.handle x.en x.now).2.mEnabled.testBit c := by
        rw [Bool.eq_iff_iff]
        simp [chanEnabled_iff]
      have e2 : decide (chanEnabled s c) = s.mEnabled.testBit c := by
        rw [Bool.eq_iff_iff]
        simp [chanEnabled_iff]
      rw [e1, e2, hbit, hg]
      by_cases hcw : c = x.handle.toNat
      · rw [if_pos hcw, if_pos (by rw [hcw, hnat])]
      · rw [if_neg hcw, if_neg (fun h => hcw (by rw [h]; rfl))]
    rw [hinit]

/-- C14 (the enabled state reflects the enable calls).  Starting from a freshly constructed
driver with a chip detected, after any sequence of `enable` calls with valid handles,
channel `c` is enabled if and only if the most recent call addressing `c` had `en ≠ 0`
(and is disabled if no call addressed it).  Any `enable` call leaves the bits of `mEnabled`
other than that of the addressed channel as they were, and `batch`, `flush`, `readEvents`,
`readMpuEvents` and `readCompassEvents` never change `mEnabled`. -/
theorem C14_enable_state (L : Layout) (raw : MPLSensor) (compass : Bool)
    (g a co : Option (List Int)) (calls : List EnableCall)
    (hv : ∀ x ∈ calls, x.handle = ID_RG ∨ x.handle = ID_A ∨ x.handle = ID_RM) :
    (∀ c, c < 3 →
      (chanEnabled (runEnables (construct L raw compass true g a co) calls) c ↔
        lastRequest false c calls = true)) ∧
    (∀ (s : MPLSensor) (handle en now : Int) (j : Nat), j < 64 → (j : Int) ≠ getHandle handle →
      (enable s handle en now).2.mEnabled.testBit j = s.mEnabled.testBit j) ∧
    (∀ (s : MPLSensor) (handle : Int) (flags : Nat) (period_ns timeout r : Int)
        (s' : MPLSensor),
      batch s handle flags period_ns timeout = some (r, s') → s'.mEnabled = s.mEnabled) ∧
    (∀ (s : MPLSensor) (handle : Int), (flush s handle).2.mEnabled = s.mEnabled) ∧
    (∀ (s : MPLSensor) (count : Int), (readEvents s count).s.mEnabled = s.mEnabled) ∧
    (∀ (s : MPLSensor) (count : Int) (dev : Int → ReadOutcome) (r : MpuResult),
      readMpuEvents L s count dev = some r → r.s.mEnabled = s.mEnabled) ∧
    (∀ (s : MPLSensor) (count : Int) (sample : Vec3) (ts : Int),
      (readCompassEvents L s count sample ts).s.mEnabled = s.mEnabled) := by
  refine ⟨fun c hc => ?_, fun s handle en now j hj hne => ?_,
    fun s handle flags period_ns timeout r s' h => batch_mEnabled s handle flags period_ns timeout r s' h,
    flush_mEnabled, fun s count => core_eq_mEnabled (readEvents_core s count),
    fun s count dev r h => readMpuEvents_mEnabled L s count dev r h,
    fun s count sample ts => readCompassEvents_mEnabled L s count sample ts⟩
  · have h := runEnables_chip (construct L raw compass true g a co) calls rfl hv c hc
    have h0 : decide (chanEnabled (construct L raw compass true g a co) c) = false := by
      rw [decide_eq_false_iff_not, chanEnabled_iff]
      have : (construct L raw compass true g a co).mEnabled = 0 := rfl
      rw [this, Nat.zero_testBit]
      exact Bool.false_ne_true
    rw [h0] at h
    exact h
  · by_cases hrej : s.mChipDetected = false ∨ getHandle handle < 0
    · rw [enable_reject s handle en now hrej]
    · have hc : s.mChipDetected = true := by
        cases hcd : s.mChipDetected
        · exact absurd (Or.inl hcd) hrej
        · rfl
      have hw : ¬ getHandle handle < 0 := fun hh => hrej (Or.inr hh)
      rw [enable_testBit s handle en now hc hw j hj, if_neg]
      intro hjw
      apply hne
      rw [hjw]
      exact Int.toNat_of_nonneg (not_lt.mp hw)

theorem C14_enable_state_witness :
    (∀ x ∈ [EnableCall.mk ID_RG 1 5, EnableCall.mk ID_A 1 6, EnableCall.mk ID_RG 0 7],
      x.handle = ID_RG ∨ x.handle = ID_A ∨ x.handle = ID_RM) ∧
    (chanEnabled (runEnables (demoDriver false)
        [EnableCall.mk ID_RG 1 5, EnableCall.mk ID_A 1 6, EnableCall.mk ID_RG 0 7])
        Accelerometer ↔
      lastRequest false Accelerometer
        [EnableCall.mk ID_RG 1 5, EnableCall.mk ID_A 1 6, EnableCall.mk ID_RG 0 7] = true) ∧
    (runEnables (demoDriver false)
        [EnableCall.mk ID_RG 1 5, EnableCall.mk ID_A 1 6, EnableCall.mk ID_RG 0 7]).mEnabled = 2 :=
  ⟨by decide,
   (C14_enable_state iamLayout demoRaw false (some identityMatrix) (some identityMatrix)
      (some identityMatrix)
      [EnableCall.mk ID_RG 1 5, EnableCall.mk ID_A 1 6, EnableCall.mk ID_RG 0 7]
      (by decide)).1 Accelerometer (by decide),
   by decide⟩

/-! ## Orientation transform -/

theorem wrap32_of_range (z : Int) (h0 : -2147483648 ≤ z) (h1 : z < 2147483648) :
    wrap32 z = z := by
  unfold wrap32
  omega

/-- C19 (orientation transform).  Each of the three handlers stores in its pending event
the body-frame vector `out[i] = r[0] * M[3i] + r[1] * M[3i+1] + r[2] * M[3i+2]` of the cached
raw sample `r` and the channel's 9-entry row-major mounting matrix `M`, computed in 32-bit
arithmetic; with the identity matrix `out = r` for every sample of 32-bit integers, and with
`M = (0,-1,0, 1,0,0, 0,0,1)` the sample `(1,2,3)` yields `(-2,1,3)`. -/
theorem C19_orientation_transform (s : MPLSensor) (r : Vec3) (m0 m1 m2 m3 m4 m5 m6 m7 m8 : Int)
    (hx : -2147483648 ≤ r.x ∧ r.x < 2147483648)
    (hy : -2147483648 ≤ r.y ∧ r.y < 2147483648)
    (hz : -2147483648 ≤ r.z ∧ r.z < 2147483648) :
    ((rawGyroHandler s).2.mPendingEvents.get RawGyro).payload =
      Payload.vec (toBodyFrame s.mCachedGyroData s.mGyroOrientationMatrix)
        SENSOR_STATUS_UNRELIABLE ∧
    ((accelHandler s).2.mPendingEvents.get Accelerometer).payload =
      Payload.vec (toBodyFrame s.mCachedAccelData s.mAccelOrientationMatrix)
        SENSOR_STATUS_UNRELIABLE ∧
    ((rawCompassHandler s).2.mPendingEvents.get RawMagneticField).payload =
      Payload.vec (toBodyFrame s.mCachedCompassData s.mCompassOrientationMatrix)
        SENSOR_STATUS_UNRELIABLE ∧
    toBodyFrame r [m0, m1, m2, m3, m4, m5, m6, m7, m8] =
      { x := wrap32 (r.x * m0 + r.y * m1 + r.z * m2),
        y := wrap32 (r.x * m3 + r.y * m4 + r.z * m5),
        z := wrap32 (r.x * m6 + r.y * m7 + r.z * m8) } ∧
    toBodyFrame r [1, 0, 0, 0, 1, 0, 0, 0, 1] = r ∧
    toBodyFrame ⟨1, 2, 3⟩ [0, -1, 0, 1, 0, 0, 0, 0, 1] = ⟨-2, 1, 3⟩ := by
  refine ⟨rfl, rfl, rfl, rfl, ?_, by decide⟩
  have e : toBodyFrame r [1, 0, 0, 0, 1, 0, 0, 0, 1] =
      { x := wrap32 (r.x * 1 + r.y * 0 + r.z * 0),
        y := wrap32 (r.x * 0 + r.y * 1 + r.z * 0),
        z := wrap32 (r.x * 0 + r.y * 0 + r.z * 1) } := rfl
  rw [e]
  have ex : r.x * 1 + r.y * 0 + r.z * 0 = r.x := by ring
  have ey : r.x * 0 + r.y * 1 + r.z * 0 = r.y := by ring
  have ez : r.x * 0 + r.y * 0 + r.z * 1 = r.z := by ring
  rw [ex, ey, ez, wrap32_of_range _ hx.1 hx.2, wrap32_of_range _ hy.1 hy.2,
    wrap32_of_range _ hz.1 hz.2]

theorem C19_orientation_transform_witness :
    ((-2147483648 : Int) ≤ (Vec3.mk 100 (-7) 16384).x ∧ (Vec3.mk 100 (-7) 16384).x < 2147483648) ∧
    toBodyFrame ⟨100, -7, 16384⟩ [1, 0, 0, 0, 1, 0, 0, 0, 1] = ⟨100, -7, 16384⟩ ∧
    toBodyFrame ⟨1, 2, 3⟩ [0, -1, 0, 1, 0, 0, 0, 0, 1] = ⟨-2, 1, 3⟩ :=
  ⟨by decide,
   (C19_orientation_transform (demoGyroOn false) ⟨100, -7, 16384⟩ 0 0 0 0 0 0 0 0 0
      (by decide) (by decide) (by decide)).2.2.2.2.1,
   (C19_orientation_transform (demoGyroOn false) ⟨100, -7, 16384⟩ 0 0 0 0 0 0 0 0 0
      (by decide) (by decide) (by decide)).2.2.2.2.2⟩

/-! ## Resynchronisation after unknown bytes -/

theorem writeAt_length (bs : List Nat) : ∀ (buf : List Nat) (off : Nat),
    (writeAt buf off bs).length = buf.length := by
  induction bs with
  | nil => intro buf off; rfl
  | cons b bs ih =>
    intro buf off
    rw [writeAt, ih, List.length_set]

theorem writeAt_getD_lt (bs : List Nat) : ∀ (buf : List Nat) (off k : Nat), k < off →
    (writeAt buf off bs).getD k 0 = buf.getD k 0 := by
  induction bs with
  | nil => intro buf off k _; rfl
  | cons b bs ih =>
    intro buf off k hk
    rw [writeAt, ih _ _ _ (by omega)]
    simp only [List.getD_eq_getElem?_getD]
    rw [List.getElem?_set_ne (by omega)]

theorem writeAt_getD (bs : List Nat) : ∀ (buf : List Nat) (off i : Nat),
    off + bs.length ≤ buf.length → i < bs.length →
    (writeAt buf off bs).getD (off + i) 0 = bs.getD i 0 := by
  induction bs with
  | nil => intro buf off i _ hi; simp at hi
  | cons b bs ih =>
    intro buf off i hlen hi
    rw [writeAt]
    simp only [List.length_cons] at hlen hi
    cases i with
    | zero =>
      show (writeAt (buf.set off b) (off + 1) bs).getD off 0 = b
      rw [writeAt_getD_lt bs (buf.set off b) (off + 1) off (by omega)]
      simp only [List.getD_eq_getElem?_getD]
      rw [List.getElem?_set_self (by omega)]
      rfl
    | succ j =>
      have h := ih (buf.set off b) (off + 1) j (by rw [List.length_set]; omega) (by omega)
      have e : off + (j + 1) = off + 1 + j := by omega
      rw [e, h]
      rfl

theorem rdU8_writeAt (buf bs : List Nat) (i : Nat) (hlen : bs.length ≤ buf.length)
    (hi : i < bs.length) : rdU8 (writeAt buf 0 bs) i = rdU8 bs i := by
  unfold rdU8
  have h := writeAt_getD bs buf 0 i (by omega) hi
  rw [Nat.zero_add] at h
  rw [h]

theorem rdU8_append_right (g p : List Nat) (j : Nat) :
    rdU8 (g ++ p) (g.length + j) = rdU8 p j := by
  unfold rdU8
  simp only [List.getD_eq_getElem?_getD]
  rw [List.getElem?_append_right (by omega)]
  simp

/-- Reading inside a packet that was stored behind `g` bytes. -/
theorem rdU8_shift (buf g p : List Nat) (j : Nat) (hlen : g.length + p.length ≤ buf.length)
    (hj : j < p.length) :
    rdU8 (writeAt buf 0 (g ++ p)) (g.length + j) = rdU8 (writeAt buf 0 p) j := by
  rw [rdU8_writeAt buf (g ++ p) _ (by rw [List.length_append]; exact hlen)
      (by rw [List.length_append]; omega),
    rdU8_writeAt buf p j (by omega) hj, rdU8_append_right]

theorem rdU16_shift (buf g p : List Nat) (j : Nat) (hlen : g.length + p.length ≤ buf.length)
    (hj : j + 1 < p.length) :
    rdU16 (writeAt buf 0 (g ++ p)) (g.length + j) = rdU16 (writeAt buf 0 p) j := by
  unfold rdU16
  rw [rdU8_shift buf g p j hlen (by omega), Nat.add_assoc,
    rdU8_shift buf g p (j + 1) hlen (by omega)]

theorem rdU32_shift (buf g p : List Nat) (j : Nat) (hlen : g.length + p.length ≤ buf.length)
    (hj : j + 3 < p.length) :
    rdU32 (writeAt buf 0 (g ++ p)) (g.length + j) = rdU32 (writeAt buf 0 p) j := by
  unfold rdU32
  rw [rdU8_shift buf g p j hlen (by omega), Nat.add_assoc g.length j 1,
    rdU8_shift buf g p (j + 1) hlen (by omega), Nat.add_assoc g.length j 2,
    rdU8_shift buf g p (j + 2) hlen (by omega), Nat.add_assoc g.length j 3,
    rdU8_shift buf g p (j + 3) hlen (by omega)]

theorem rdS32_shift (buf g p : List Nat) (j : Nat) (hlen : g.length + p.length ≤ buf.length)
    (hj : j + 3 < p.length) :
    rdS32 (writeAt buf 0 (g ++ p)) (g.length + j) = rdS32 (writeAt buf 0 p) j := by
  unfold rdS32
  rw [rdU32_shift buf g p j hlen hj]

theorem rdS64_shift (buf g p : List Nat) (j : Nat) (hlen : g.length + p.length ≤ buf.length)
    (hj : j + 7 < p.length) :
    rdS64 (writeAt buf 0 (g ++ p)) (g.length + j) = rdS64 (writeAt buf 0 p) j := by
  unfold rdS64
  rw [rdU32_shift buf g p j hlen (by omega), Nat.add_assoc g.length j 4,
    rdU32_shift buf g p (j + 4) hlen (by omega)]

theorem rdU16_writeAt (buf bs : List Nat) (i : Nat) (hlen : bs.length ≤ buf.length)
    (hi : i + 1 < bs.length) : rdU16 (writeAt buf 0 bs) i = rdU16 bs i := by
  unfold rdU16
  rw [rdU8_writeAt buf bs i hlen (by omega), rdU8_writeAt buf bs (i + 1) hlen hi]

/-! ### The stream buffer is a frame of event assembly -/

theorem setBuf_setBuf (s : MPLSensor) (b c : List Nat) (n m : Nat) :
    setBuf (setBuf s b n) c m = setBuf s c m := rfl

theorem setBuf_self (s : MPLSensor) : setBuf s s.mIIOReadBuffer s.mIIOReadSize = s := rfl

theorem mHandlers_setBuf (i : Nat) (s : MPLSensor) (b : List Nat) (n : Nat) :
    mHandlers i (setBuf s b n) = ((mHandlers i s).1, setBuf (mHandlers i s).2 b n) := by
  unfold mHandlers
  split
  · rfl
  · rfl
  · rfl

theorem readEventsFlush_setBuf (s : MPLSensor) (count : Int) (b : List Nat) (n : Nat) :
    readEventsFlush (setBuf s b n) count =
      { readEventsFlush s count with s := setBuf (readEventsFlush s count).s b n } := by
  unfold readEventsFlush
  rw [metaHandler_flush, metaHandler_flush]
  by_cases hq : s.mFlushSensorEnabledVector ≠ []
  · have hq' : (setBuf s b n).mFlushSensorEnabledVector ≠ [] := hq
    rw [if_pos hq', if_pos hq]
    dsimp only
    by_cases hc : (1 : Int) = 1 ∧ count > 0
    · rw [if_pos hc, if_pos hc]
      rfl
    · rw [if_neg hc, if_neg hc]
      rfl
  · have hq' : ¬ (setBuf s b n).mFlushSensorEnabledVector ≠ [] := hq
    rw [if_neg hq', if_neg hq]

theorem readEventsStep_setBuf (acc : EvAcc) (i : Nat) (b : List Nat) (n : Nat) :
    readEventsStep { acc with s := setBuf acc.s b n } i =
      { readEventsStep acc i with s := setBuf (readEventsStep acc i).s b n } := by
  unfold readEventsStep
  dsimp only
  rw [mHandlers_setBuf]
  by_cases he : acc.s.mEnabled &&& (1 <<< i) ≠ 0
  · have he' : (setBuf acc.s b n).mEnabled &&& (1 <<< i) ≠ 0 := he
    rw [if_pos he', if_pos he]
    dsimp only
    by_cases hc : (mHandlers i acc.s).1 ≠ 0 ∧ acc.count > 0
    · rw [if_pos hc, if_pos hc]
      rfl
    · rw [if_neg hc, if_neg hc]
  · have he' : ¬ (setBuf acc.s b n).mEnabled &&& (1 <<< i) ≠ 0 := he
    rw [if_neg he', if_neg he]

theorem foldl_readEventsStep_setBuf (l : List Nat) (b : List Nat) (n : Nat) :
    ∀ acc : EvAcc,
      l.foldl readEventsStep { acc with s := setBuf acc.s b n } =
        { l.foldl readEventsStep acc with s := setBuf (l.foldl readEventsStep acc).s b n } := by
  induction l with
  | nil => intro acc; rfl
  | cons i l ih =>
    intro acc
    rw [List.foldl_cons, List.foldl_cons, readEventsStep_setBuf]
    exact ih (readEventsStep acc i)

theorem readEvents_setBuf (s : MPLSensor) (count : Int) (b : List Nat) (n : Nat) :
    readEvents (setBuf s b n) count =
      { readEvents s count with s := setBuf (readEvents s count).s b n } := by
  unfold readEvents
  rw [readEventsFlush_setBuf]
  exact foldl_readEventsStep_setBuf _ b n (readEventsFlush s count)

/-! ### The `switch` depends on the buffer through the values it reads -/

theorem decodeSwitch_eq (L : Layout) (s : MPLSensor) (ptr lo : Nat) :
    decodeSwitch L s ptr lo =
      applyHeader L s (rdU16 s.mIIOReadBuffer ptr) (rdS32 s.mIIOReadBuffer (ptr + 4))
        (rdS32 s.mIIOReadBuffer (ptr + 8)) (rdS32 s.mIIOReadBuffer (ptr + 12))
        (rdS64 s.mIIOReadBuffer (ptr + 16)) (s.mIIOReadSize - ptr) ptr lo := rfl

theorem applyHeader_setBuf (L : Layout) (s : MPLSensor) (b : List Nat) (n : Nat)
    (header : Nat) (w4 w8 w12 t16 : Int) (rem p q lo : Nat) :
    applyHeader L (setBuf s b n) header w4 w8 w12 t16 rem p lo =
      shiftResult (applyHeader L s header w4 w8 w12 t16 rem q lo) b n p q := by
  unfold applyHeader shiftResult
  split_ifs
  · simp only [Nat.sub_self, Nat.add_zero]
  · simp only [Nat.add_sub_cancel_left]; rfl
  · simp only [Nat.sub_self, Nat.add_zero]
  · simp only [Nat.add_sub_cancel_left]; rfl
  · simp only [Nat.sub_self, Nat.add_zero]
  · simp only [Nat.add_sub_cancel_left]; rfl
  · simp only [Nat.sub_self, Nat.add_zero]
  · simp only [Nat.add_sub_cancel_left]; rfl
  · simp only [Nat.add_sub_cancel_left]

/-- A marker packet is decoded from its header and the word at offset 4 alone. -/
theorem applyHeader_congr (L : Layout) (s : MPLSensor) (header : Nat)
    (w4 w8 w12 t16 v8 v12 u16 : Int) (rem p lo : Nat)
    (h : header = L.DATA_FORMAT_RAW_GYRO ∨ header = L.DATA_FORMAT_ACCEL →
      w8 = v8 ∧ w12 = v12 ∧ t16 = u16) :
    applyHeader L s header w4 w8 w12 t16 rem p lo =
      applyHeader L s header w4 v8 v12 u16 rem p lo := by
  by_cases hk : header = L.DATA_FORMAT_RAW_GYRO ∨ header = L.DATA_FORMAT_ACCEL
  · obtain ⟨e1, e2, e3⟩ := h hk
    rw [e1, e2, e3]
  · push_neg at hk
    unfold applyHeader
    simp only [if_neg hk.1, if_neg hk.2]

/-- The `switch` at position `p` of one buffer and at position `q` of another act alike when
they read the same values and have as many bytes left. -/
theorem decodeSwitch_shift (L : Layout) (t : MPLSensor) (b : List Nat) (n p q lo : Nat)
    (h0 : rdU16 b p = rdU16 t.mIIOReadBuffer q)
    (h4 : rdS32 b (p + 4) = rdS32 t.mIIOReadBuffer (q + 4))
    (hs : rdU16 t.mIIOReadBuffer q = L.DATA_FORMAT_RAW_GYRO ∨
        rdU16 t.mIIOReadBuffer q = L.DATA_FORMAT_ACCEL →
      rdS32 b (p + 8) = rdS32 t.mIIOReadBuffer (q + 8) ∧
      rdS32 b (p + 12) = rdS32 t.mIIOReadBuffer (q + 12) ∧
      rdS64 b (p + 16) = rdS64 t.mIIOReadBuffer (q + 16))
    (hrem : n - p = t.mIIOReadSize - q) :
    decodeSwitch L (setBuf t b n) p lo = shiftResult (decodeSwitch L t q lo) b n p q := by
  rw [decodeSwitch_eq, decodeSwitch_eq]
  show applyHeader L (setBuf t b n) (rdU16 b p) (rdS32 b (p + 4)) (rdS32 b (p + 8))
    (rdS32 b (p + 12)) (rdS64 b (p + 16)) (n - p) p lo = _
  rw [h0, h4, hrem, applyHeader_congr L (setBuf t b n) _ _ _ _ _ _ _ _ _ _ _ hs]
  exact applyHeader_setBuf L t b n _ _ _ _ _ _ p q lo

theorem decodeSwitch_unknown (L : Layout) (s : MPLSensor) (ptr lo : Nat)
    (h : ¬ knownHeader L (rdU16 s.mIIOReadBuffer ptr)) :
    decodeSwitch L s ptr lo =
      { s := s, ptr := ptr + 1, data_found := false, left_over := lo, detected := none } := by
  unfold knownHeader at h
  push_neg at h
  obtain ⟨h1, h2, h3, h4⟩ := h
  unfold decodeSwitch
  dsimp only
  rw [if_neg h1, if_neg h2, if_neg h3, if_neg h4]

/-! ### One iteration, moved to another position -/

theorem decodeIter_unknown (L : Layout) (ls : LoopState)
    (h : ¬ knownHeader L (rdU16 ls.s.mIIOReadBuffer ls.ptr)) (hlo : ls.left_over = 0) :
    decodeIter L ls = ({ ls with ptr := ls.ptr + 1 }, false) := by
  obtain ⟨s, ptr, count, num, lo, out, markers, calls⟩ := ls
  dsimp only at h hlo
  subst hlo
  unfold decodeIter
  dsimp only
  rw [decodeSwitch_unknown L s ptr 0 h]
  simp

theorem decodeIter_calls (L : Layout) (ls : LoopState) :
    (decodeIter L ls).1.calls =
      if (decodeSwitch L ls.s ls.ptr ls.left_over).data_found then ls.calls ++ [ls.count]
      else ls.calls := by
  unfold decodeIter
  dsimp only
  split_ifs <;> rfl

/-- An iteration at position `p` of one buffer and at the decode position of another act
alike when they read the same values and have as many bytes left. -/
theorem decodeIter_shift (L : Layout) (ls : LoopState) (b : List Nat) (n p : Nat)
    (h0 : rdU16 b p = rdU16 ls.s.mIIOReadBuffer ls.ptr)
    (h4 : rdS32 b (p + 4) = rdS32 ls.s.mIIOReadBuffer (ls.ptr + 4))
    (hs : rdU16 ls.s.mIIOReadBuffer ls.ptr = L.DATA_FORMAT_RAW_GYRO ∨
        rdU16 ls.s.mIIOReadBuffer ls.ptr = L.DATA_FORMAT_ACCEL →
      rdS32 b (p + 8) = rdS32 ls.s.mIIOReadBuffer (ls.ptr + 8) ∧
      rdS32 b (p + 12) = rdS32 ls.s.mIIOReadBuffer (ls.ptr + 12) ∧
      rdS64 b (p + 16) = rdS64 ls.s.mIIOReadBuffer (ls.ptr + 16))
    (hrem : n - p = ls.s.mIIOReadSize - ls.ptr) :
    decodeIter L { ls with s := setBuf ls.s b n, ptr := p } =
      (shiftLoop (decodeIter L ls).1 b n p ls.ptr, (decodeIter L ls).2) := by
  obtain ⟨s, q, count, num, lo, out, markers, calls⟩ := ls
  dsimp only at h0 h4 hs hrem ⊢
  unfold decodeIter
  dsimp only
  rw [decodeSwitch_shift L s b n p q lo h0 h4 hs hrem]
  generalize decodeSwitch L s q lo = r
  obtain ⟨rs, rp, rf, rl, rd⟩ := r
  unfold shiftResult
  dsimp only
  rw [readEvents_setBuf]
  generalize readEvents rs count = e
  obtain ⟨es, eo, ec, en⟩ := e
  dsimp only
  cases rf
  · simp [shiftLoop]
  · simp only [if_true]
    unfold shiftLoop
    split_ifs <;> rfl

/-! ### The loop over unknown bytes followed by one packet -/

theorem iterate_add (L : Layout) : ∀ (m n : Nat) (ls : LoopState),
    iterate L (m + n) ls = iterate L n (iterate L m ls) := by
  intro m
  induction m with
  | zero => intro n ls; rw [Nat.zero_add]; rfl
  | succ k ih =>
    intro n ls
    rw [Nat.succ_add]
    exact ih n (decodeIter L ls).1

/-- A complete packet at the decode position is consumed whole. -/
theorem decodeSwitch_complete (L : Layout) (hwf : L.wf) (s : MPLSensor) (ptr lo : Nat)
    (p : List Nat) (h0 : rdU16 s.mIIOReadBuffer ptr = rdU16 p 0)
    (hrem : s.mIIOReadSize - ptr = p.length) (hp : completePacket L p) :
    (decodeSwitch L s ptr lo).ptr = ptr + p.length ∧
    (decodeSwitch L s ptr lo).left_over = lo ∧
    (decodeSwitch L s ptr lo).data_found = true := by
  rcases hp with ⟨hh, hl⟩ | ⟨hh, hl⟩ | ⟨hh, hl⟩ | ⟨hh, hl⟩
  · rw [decodeSwitch_marker L s ptr lo (h0.trans hh) (by omega), hl]
    exact ⟨rfl, rfl, rfl⟩
  · rw [decodeSwitch_empty_marker L hwf s ptr lo (h0.trans hh) (by omega), hl]
    exact ⟨rfl, rfl, rfl⟩
  · rw [decodeSwitch_gyro L hwf s ptr lo (h0.trans hh) (by omega), hl]
    exact ⟨rfl, rfl, rfl⟩
  · rw [decodeSwitch_accel L hwf s ptr lo (h0.trans hh) (by omega), hl]
    exact ⟨rfl, rfl, rfl⟩

theorem completePacket_length (L : Layout) (hfit : L.fieldsFit) (p : List Nat)
    (hp : completePacket L p) : 8 ≤ p.length := by
  obtain ⟨f1, f2, f3, f4⟩ := hfit
  rcases hp with ⟨-, hl⟩ | ⟨-, hl⟩ | ⟨-, hl⟩ | ⟨-, hl⟩ <;> omega

/-- The last iteration of the loop: when it ends at the fill level, the loop returns
its state. -/
theorem decodeLoop_last (L : Layout) (fuel : Nat) (ls : LoopState) (hfuel : 0 < fuel)
    (hptr : ls.ptr < ls.s.mIIOReadSize)
    (hend : ¬ (decodeIter L ls).1.ptr < (decodeIter L ls).1.s.mIIOReadSize) :
    decodeLoop L fuel ls = some (decodeIter L ls).1 := by
  obtain ⟨k, rfl⟩ : ∃ k, fuel = k + 1 := ⟨fuel - 1, by omega⟩
  unfold decodeLoop
  rw [if_pos hptr]
  dsimp only
  cases hb : (decodeIter L ls).2
  · rw [if_neg (by simp)]
    exact decodeLoop_done L k _ hend
  · rw [if_pos rfl]

/-- Unknown bytes are skipped one at a time, and nothing but the decode position changes. -/
theorem decodeLoop_skip (L : Layout) (ls : LoopState) (n : Nat) (hlo : ls.left_over = 0)
    (hptr0 : ls.ptr = 0) (hn : n < ls.s.mIIOReadSize)
    (hunk : ∀ i, i < n → ¬ knownHeader L (rdU16 ls.s.mIIOReadBuffer i)) :
    ∀ k, k ≤ n →
      iterate L k ls = { ls with ptr := k } ∧
      ∀ f, decodeLoop L (k + f) ls = decodeLoop L f { ls with ptr := k } := by
  intro k
  induction k with
  | zero =>
    intro _
    obtain ⟨s, ptr, count, num, lo, out, markers, calls⟩ := ls
    dsimp only at hptr0
    subst hptr0
    refine ⟨rfl, fun f => ?_⟩
    rw [Nat.zero_add]
  | succ j ih =>
    intro hj
    obtain ⟨e1, e2⟩ := ih (by omega)
    have hstep : decodeIter L { ls with ptr := j } = ({ ls with ptr := j + 1 }, false) :=
      decodeIter_unknown L { ls with ptr := j } (hunk j (by omega)) hlo
    constructor
    · have h := iterate_add L j 1 ls
      rw [h, e1]
      show (decodeIter L { ls with ptr := j }).1 = _
      rw [hstep]
    · intro f
      have e : j + 1 + f = j + (f + 1) := by omega
      rw [e, e2 (f + 1)]
      show (if j < ls.s.mIIOReadSize then _ else _) = _
      rw [if_pos (by omega)]
      dsimp only
      rw [hstep]
      rfl

theorem readMpuEvents_loop (L : Layout) (s : MPLSensor) (count : Int) (bs : List Nat)
    (hen : s.mEnabled ≠ 0) (hbs : bs.length ≠ 0) :
    readMpuEvents L s count (devBytes bs) =
      (decodeLoop L (s.mIIOReadSize + bs.length) (loopStart L s count bs)).map
        (fun ls => { s := carryOver ls, numEventReceived := ls.numEventReceived, out := ls.out,
                     markers := ls.markers, calls := ls.calls }) := by
  unfold readMpuEvents devBytes
  rw [if_neg hen]
  dsimp only
  rw [if_neg hbs]
  show (match decodeLoop L (s.mIIOReadSize + bs.length) (loopStart L s count bs) with
    | none => none
    | some ls => some _) = _
  cases decodeLoop L (s.mIIOReadSize + bs.length) (loopStart L s count bs) <;> rfl

theorem loopStart_empty (L : Layout) (s : MPLSensor) (count : Int) (bs : List Nat)
    (hcarry : s.mIIOReadSize = 0) :
    loopStart L s count bs =
      { s := setBuf s (writeAt s.mIIOReadBuffer 0 bs) bs.length, ptr := 0,
        count := if s.mCompassSensor then count - L.COMPASS_SEN_EVENT_RESV_SZ else count,
        numEventReceived := 0, left_over := 0, out := [], markers := [], calls := [] } := by
  unfold loopStart
  rw [hcarry, Nat.zero_add]
  rfl

theorem carryOver_none (ls : LoopState) (h : ls.left_over = 0) :
    carryOver ls = setBuf ls.s ls.s.mIIOReadBuffer 0 := by
  unfold carryOver
  rw [if_neg (by omega)]
  rfl

/-- The decode loop over `g` unknown bytes followed by one complete packet `p`, against
the loop over `p` alone. -/
theorem decodeLoop_resync (L : Layout) (hwf : L.wf) (hfit : L.fieldsFit) (t : MPLSensor)
    (c : Int) (buf g p : List Nat) (hlen : g.length + p.length ≤ buf.length)
    (hunk : ∀ i, i < g.length → ¬ knownHeader L (rdU16 (g ++ p) i))
    (hp : completePacket L p) (ls1 ls2 : LoopState)
    (h1 : ls1 = { s := setBuf t (writeAt buf 0 (g ++ p)) (g ++ p).length, ptr := 0, count := c,
                  numEventReceived := 0, left_over := 0, out := [], markers := [], calls := [] })
    (h2 : ls2 = { s := setBuf t (writeAt buf 0 p) p.length, ptr := 0, count := c,
                  numEventReceived := 0, left_over := 0, out := [], markers := [], calls := [] }) :
    (∀ i, i ≤ g.length → iterate L i ls1 = { ls1 with ptr := i }) ∧
    decodeLoop L (g ++ p).length ls1 =
      some (shiftLoop (decodeIter L ls2).1 (writeAt buf 0 (g ++ p)) (g ++ p).length g.length 0) ∧
    decodeLoop L p.length ls2 = some (decodeIter L ls2).1 ∧
    (decodeIter L ls2).1.left_over = 0 ∧
    (decodeIter L ls2).1.calls = [c] := by
  have hp8 := completePacket_length L hfit p hp
  have hgp : (g ++ p).length = g.length + p.length := List.length_append g p
  have hp24 : rdU16 p 0 = L.DATA_FORMAT_RAW_GYRO ∨ rdU16 p 0 = L.DATA_FORMAT_ACCEL →
      24 ≤ p.length := by
    obtain ⟨-, -, f3, f4⟩ := hfit
    obtain ⟨a1, a2, a3, a4, a5, a6, -, -, -, -⟩ := hwf
    intro hk
    rcases hp with ⟨hh, hl⟩ | ⟨hh, hl⟩ | ⟨hh, hl⟩ | ⟨hh, hl⟩
    · rcases hk with hk | hk
      · exact absurd (hh.symm.trans hk) a2
      · exact absurd (hh.symm.trans hk) a3
    · rcases hk with hk | hk
      · exact absurd (hh.symm.trans hk) a4
      · exact absurd (hh.symm.trans hk) a5
    · omega
    · omega
  -- the packet alone
  have s2s : ls2.s = setBuf t (writeAt buf 0 p) p.length := by rw [h2]
  have s2p : ls2.ptr = 0 := by rw [h2]
  have s2l : ls2.left_over = 0 := by rw [h2]
  have s2c : ls2.calls = [] := by rw [h2]
  have s2n : ls2.count = c := by rw [h2]
  have s2b : ls2.s.mIIOReadBuffer = writeAt buf 0 p := by rw [s2s]; rfl
  have s2z : ls2.s.mIIOReadSize = p.length := by rw [s2s]; rfl
  have hd2 := decodeSwitch_complete L hwf ls2.s ls2.ptr ls2.left_over p
    (by rw [s2b, s2p]; exact rdU16_writeAt buf p 0 (by omega) (by omega))
    (by rw [s2z, s2p]; rfl) hp
  have x2p : (decodeIter L ls2).1.ptr = p.length := by
    rw [decodeIter_ptr, hd2.1, s2p, Nat.zero_add]
  have x2l : (decodeIter L ls2).1.left_over = 0 := by
    rw [decodeIter_left_over, hd2.2.1, s2l]
  have x2c : (decodeIter L ls2).1.calls = [c] := by
    rw [decodeIter_calls, hd2.2.2, if_pos rfl, s2c, s2n]
    rfl
  have x2z : (decodeIter L ls2).1.s.mIIOReadSize = p.length :=
    (frame_eq_size (decodeIter_frame L ls2)).trans s2z
  have x2end : ¬ (decodeIter L ls2).1.ptr < (decodeIter L ls2).1.s.mIIOReadSize := by
    rw [x2p, x2z]; omega
  have r2 : decodeLoop L p.length ls2 = some (decodeIter L ls2).1 :=
    decodeLoop_last L p.length ls2 (by omega) (by rw [s2p, s2z]; omega) x2end
  -- the unknown bytes
  have s1s : ls1.s = setBuf t (writeAt buf 0 (g ++ p)) (g ++ p).length := by rw [h1]
  have s1p : ls1.ptr = 0 := by rw [h1]
  have s1l : ls1.left_over = 0 := by rw [h1]
  have s1b : ls1.s.mIIOReadBuffer = writeAt buf 0 (g ++ p) := by rw [s1s]; rfl
  have s1z : ls1.s.mIIOReadSize = (g ++ p).length := by rw [s1s]; rfl
  have skip := decodeLoop_skip L ls1 g.length s1l s1p (by rw [s1z, hgp]; omega)
    (fun i hi => by
      rw [s1b, rdU16_writeAt buf (g ++ p) i (by omega) (by omega)]
      exact hunk i hi)
  -- the packet behind them
  have hmove : ({ ls1 with ptr := g.length } : LoopState) =
      { ls2 with s := setBuf ls2.s (writeAt buf 0 (g ++ p)) (g ++ p).length,
                 ptr := g.length } := by
    rw [h1, h2]
    rfl
  have hshift := decodeIter_shift L ls2 (writeAt buf 0 (g ++ p)) (g ++ p).length g.length
    (by rw [s2b, s2p]; exact rdU16_shift buf g p 0 hlen (by omega))
    (by rw [s2b, s2p]; exact rdS32_shift buf g p 4 hlen (by omega))
    (by
      rw [s2b, s2p, rdU16_writeAt buf p 0 (by omega) (by omega)]
      intro hk
      have h24 := hp24 hk
      exact ⟨rdS32_shift buf g p 8 hlen (by omega), rdS32_shift buf g p 12 hlen (by omega),
        rdS64_shift buf g p 16 hlen (by omega)⟩)
    (by rw [s2z, s2p, hgp]; omega)
  have y1 : (decodeIter L { ls1 with ptr := g.length }).1 =
      shiftLoop (decodeIter L ls2).1 (writeAt buf 0 (g ++ p)) (g ++ p).length g.length 0 := by
    rw [hmove, hshift, s2p]
  have y1end : ¬ (decodeIter L { ls1 with ptr := g.length }).1.ptr <
      (decodeIter L { ls1 with ptr := g.length }).1.s.mIIOReadSize := by
    rw [y1]
    show ¬ g.length + ((decodeIter L ls2).1.ptr - 0) < (g ++ p).length
    rw [x2p, hgp]
    omega
  have r1 : decodeLoop L (g ++ p).length ls1 =
      some (shiftLoop (decodeIter L ls2).1 (writeAt buf 0 (g ++ p)) (g ++ p).length
        g.length 0) := by
    rw [hgp, (skip g.length (le_refl _)).2 p.length,
      decodeLoop_last L p.length { ls1 with ptr := g.length } (by omega)
        (by show g.length < ls1.s.mIIOReadSize; rw [s1z, hgp]; omega) y1end, y1, hgp]
  exact ⟨fun i hi => (skip i hi).1, r1, r2, x2l, x2c⟩

/-- C20 (single-byte resynchronisation).  Let the carry be empty, some channel be enabled,
and the device deliver `g` bytes followed by one complete packet `p`, where no 2-byte
window starting inside the `g` bytes is a known header and the buffer holds them all.  Then
the decode loop of `readMpuEvents` moves over the `g` bytes one at a time and changes
nothing but the decode position, and the call ends as the call on `p` alone does: the same
events, return value, detected markers and `readEvents` calls (one, for `p`), an empty
carry, and the same state but for the bytes left in the stream buffer. -/
theorem C20_resynchronisation (L : Layout) (hwf : L.wf) (hfit : L.fieldsFit) (s : MPLSensor)
    (count : Int) (g p : List Nat)
    (hen : s.mEnabled ≠ 0) (hcarry : s.mIIOReadSize = 0)
    (hlen : g.length + p.length ≤ s.mIIOReadBuffer.length)
    (hunk : ∀ i, i < g.length → ¬ knownHeader L (rdU16 (g ++ p) i))
    (hp : completePacket L p) :
    (∀ i, i ≤ g.length →
      iterate L i (loopStart L s count (g ++ p)) =
        { loopStart L s count (g ++ p) with ptr := i }) ∧
    ∃ r1 r2, readMpuEvents L s count (devBytes (g ++ p)) = some r1 ∧
      readMpuEvents L s count (devBytes p) = some r2 ∧
      r1.out = r2.out ∧ r1.numEventReceived = r2.numEventReceived ∧
      r1.markers = r2.markers ∧ r1.calls = r2.calls ∧
      r2.calls = [if s.mCompassSensor then count - L.COMPASS_SEN_EVENT_RESV_SZ else count] ∧
      r1.s.mIIOReadSize = 0 ∧ r2.s.mIIOReadSize = 0 ∧
      { r1.s with mIIOReadBuffer := r2.s.mIIOReadBuffer } = r2.s := by
  have hp8 := completePacket_length L hfit p hp
  have hgp : (g ++ p).length = g.length + p.length := List.length_append g p
  obtain ⟨k1, r1, r2, xl, xc⟩ := decodeLoop_resync L hwf hfit s
    (if s.mCompassSensor then count - L.COMPASS_SEN_EVENT_RESV_SZ else count)
    s.mIIOReadBuffer g p hlen hunk hp (loopStart L s count (g ++ p)) (loopStart L s count p)
    (loopStart_empty L s count (g ++ p) hcarry) (loopStart_empty L s count p hcarry)
  refine ⟨k1, ?_⟩
  rw [readMpuEvents_loop L s count (g ++ p) hen (by omega),
    readMpuEvents_loop L s count p hen (by omega), hcarry, Nat.zero_add, Nat.zero_add, r1, r2]
  generalize (decodeIter L (loopStart L s count p)).1 = x at xl xc ⊢
  have c2 : carryOver x = setBuf x.s x.s.mIIOReadBuffer 0 := carryOver_none x xl
  have c1 : carryOver (shiftLoop x (writeAt s.mIIOReadBuffer 0 (g ++ p)) (g ++ p).length
      g.length 0) =
      setBuf x.s (writeAt s.mIIOReadBuffer 0 (g ++ p)) 0 := by
    exact carryOver_none (shiftLoop x (writeAt s.mIIOReadBuffer 0 (g ++ p)) (g ++ p).length
      g.length 0) xl
  refine ⟨_, _, rfl, rfl, ?_⟩
  dsimp only
  rw [c1, c2]
  exact ⟨rfl, rfl, rfl, rfl, xc, rfl, rfl, rfl⟩

theorem C20_resynchronisation_witness :
    (demoGyroOn false).mEnabled ≠ 0 ∧ completePacket iamLayout demoGyroPacket ∧
    (∀ i, i < [255, 255, 255].length →
      ¬ knownHeader iamLayout (rdU16 ([255, 255, 255] ++ demoGyroPacket) i)) ∧
    ∃ r1 r2,
      readMpuEvents iamLayout (demoGyroOn false) 4
        (devBytes ([255, 255, 255] ++ demoGyroPacket)) = some r1 ∧
      readMpuEvents iamLayout (demoGyroOn false) 4 (devBytes demoGyroPacket) = some r2 ∧
      r1.out = r2.out ∧ r1.numEventReceived = r2.numEventReceived ∧
      r1.markers = r2.markers ∧ r1.calls = r2.calls ∧
      r2.calls = [if (demoGyroOn false).mCompassSensor then
        4 - iamLayout.COMPASS_SEN_EVENT_RESV_SZ else 4] ∧
      r1.s.mIIOReadSize = 0 ∧ r2.s.mIIOReadSize = 0 ∧
      { r1.s with mIIOReadBuffer := r2.s.mIIOReadBuffer } = r2.s :=
  ⟨by decide, by decide, by decide,
   (C20_resynchronisation iamLayout (by decide) (by decide) (demoGyroOn false) 4
      [255, 255, 255] demoGyroPacket (by decide) (by decide) (by decide) (by decide)
      (by decide)).2⟩

/-! ## The three ways `readMpuEvents` returns -/

/-- A call of `readMpuEvents` drains the device with no channel enabled, returns at once
when the device has an error or no data, or runs the decode loop over the carry followed by
the bytes delivered. -/
theorem readMpuEvents_cases (L : Layout) (s : MPLSensor) (count : Int)
    (dev : Int → ReadOutcome) :
    (s.mEnabled = 0 ∧ ∃ b,
      readMpuEvents L s count dev =
        some { s := setBuf s b 0, numEventReceived := 0, out := [], markers := [],
               calls := [] }) ∨
    (s.mEnabled ≠ 0 ∧
      (dev (readNbytes L s count) = ReadOutcome.error ∨
        dev (readNbytes L s count) = ReadOutcome.data []) ∧
      readMpuEvents L s count dev =
        some { s := s, numEventReceived := 0, out := [], markers := [], calls := [] }) ∨
    (s.mEnabled ≠ 0 ∧ ∃ bs, dev (readNbytes L s count) = ReadOutcome.data bs ∧ bs ≠ [] ∧
      readMpuEvents L s count dev =
        (decodeLoop L (s.mIIOReadSize + bs.length) (loopStart L s count bs)).map
          (fun ls => { s := carryOver ls, numEventReceived := ls.numEventReceived,
                       out := ls.out, markers := ls.markers, calls := ls.calls })) := by
  unfold readMpuEvents
  by_cases hen : s.mEnabled = 0
  · rw [if_pos hen]
    exact Or.inl ⟨hen, _, rfl⟩
  · rw [if_neg hen]
    dsimp only
    cases hd : dev (readNbytes L s count) with
    | error => exact Or.inr (Or.inl ⟨hen, Or.inl rfl, rfl⟩)
    | data bs =>
      dsimp only
      by_cases hl : bs.length = 0
      · rw [if_pos hl]
        have hnil : bs = [] := List.length_eq_zero.mp hl
        exact Or.inr (Or.inl ⟨hen, Or.inr (by rw [hnil]), rfl⟩)
      · rw [if_neg hl]
        refine Or.inr (Or.inr ⟨hen, bs, rfl, fun h => hl (by rw [h]; rfl), ?_⟩)
        show (match decodeLoop L (s.mIIOReadSize + bs.length) (loopStart L s count bs) with
          | none => none
          | some ls => some _) = _
        cases decodeLoop L (s.mIIOReadSize + bs.length) (loopStart L s count bs) <;> rfl

/-! ## Calls that do not decode -/

/-- C22 (nothing enabled).  With no channel enabled, `readMpuEvents` returns 0 events
whatever the device delivers, writes no event, empties the carry, and leaves the rest of
the state but the bytes of the read buffer as it was: the cached samples, the cached and
previous timestamps and the flush queue in particular. -/
theorem C22_nothing_enabled (L : Layout) (s : MPLSensor) (count : Int)
    (dev : Int → ReadOutcome) (hen : s.mEnabled = 0) :
    ∃ r, readMpuEvents L s count dev = some r ∧
      r.numEventReceived = 0 ∧ r.out = [] ∧ r.s.mIIOReadSize = 0 ∧
      setBuf r.s s.mIIOReadBuffer s.mIIOReadSize = s ∧
      r.s.mCachedGyroData = s.mCachedGyroData ∧ r.s.mCachedAccelData = s.mCachedAccelData ∧
      r.s.mCachedCompassData = s.mCachedCompassData ∧
      r.s.mGyroSensorTimestamp = s.mGyroSensorTimestamp ∧
      r.s.mAccelSensorTimestamp = s.mAccelSensorTimestamp ∧
      r.s.mCompassTimestamp = s.mCompassTimestamp ∧
      r.s.mGyroSensorPrevTimestamp = s.mGyroSensorPrevTimestamp ∧
      r.s.mAccelSensorPrevTimestamp = s.mAccelSensorPrevTimestamp ∧
      r.s.mCompassPrevTimestamp = s.mCompassPrevTimestamp ∧
      r.s.mFlushSensorEnabledVector = s.mFlushSensorEnabledVector := by
  rcases readMpuEvents_cases L s count dev with ⟨-, b, h⟩ | ⟨h, -⟩ | ⟨h, -⟩
  · exact ⟨_, h, rfl, rfl, rfl, rfl, rfl, rfl, rfl, rfl, rfl, rfl, rfl, rfl, rfl, rfl⟩
  · exact absurd hen h
  · exact absurd hen h

theorem C22_nothing_enabled_witness :
    (demoDriver false).mEnabled = 0 ∧
    ∃ r, readMpuEvents iamLayout (demoDriver false) 4 (devBytes demoGyroPacket) = some r ∧
      r.numEventReceived = 0 ∧ r.out = [] ∧ r.s.mIIOReadSize = 0 ∧
      r.s.mFlushSensorEnabledVector = (demoDriver false).mFlushSensorEnabledVector := by
  obtain ⟨r, h, h1, h2, h3, -, -, -, -, -, -, -, -, -, -, h4⟩ :=
    C22_nothing_enabled iamLayout (demoDriver false) 4 (devBytes demoGyroPacket) (by decide)
  exact ⟨by decide, r, h, h1, h2, h3, h4⟩

/-- C23 (device error or no data).  With some channel enabled, when the device `read`
returns a negative value or zero bytes, `readMpuEvents` returns 0 events, writes none and
leaves the whole driver state as it was. -/
theorem C23_read_error_or_no_data (L : Layout) (s : MPLSensor) (count : Int)
    (dev : Int → ReadOutcome) (hen : s.mEnabled ≠ 0)
    (hdev : dev (readNbytes L s count) = ReadOutcome.error ∨
      dev (readNbytes L s count) = ReadOutcome.data []) :
    readMpuEvents L s count dev =
      some { s := s, numEventReceived := 0, out := [], markers := [], calls := [] } := by
  rcases readMpuEvents_cases L s count dev with ⟨h, -⟩ | ⟨-, -, h⟩ | ⟨-, bs, hd, hbs, -⟩
  · exact absurd h hen
  · exact h
  · rcases hdev with h | h
    · rw [h] at hd
      cases hd
    · rw [h] at hd
      cases hd
      exact absurd rfl hbs

theorem C23_read_error_or_no_data_witness :
    (demoGyroOn false).mEnabled ≠ 0 ∧
    readMpuEvents iamLayout (demoGyroOn false) 4 (fun _ => ReadOutcome.error) =
      some { s := demoGyroOn false, numEventReceived := 0, out := [], markers := [],
             calls := [] } :=
  ⟨by decide,
   C23_read_error_or_no_data iamLayout (demoGyroOn false) 4 (fun _ => ReadOutcome.error)
     (by decide) (Or.inl rfl)⟩

/-! ## Termination of the decode loop -/

theorem decodeIter_stop (L : Layout) (ls : LoopState) (h : (decodeIter L ls).2 = true) :
    (decodeIter L ls).1.left_over ≠ 0 ∨ (decodeIter L ls).1.count ≤ 0 := by
  unfold decodeIter at h ⊢
  dsimp only at h ⊢
  generalize decodeSwitch L ls.s ls.ptr ls.left_over = r at h ⊢
  generalize readEvents r.s ls.count = e at h ⊢
  split_ifs at h ⊢ with h1 h2 h3 h4
  · exact Or.inr (le_of_eq h3)
  · exact Or.inr (le_of_lt h4)
  · exact Or.inl (by simpa using h)
  · exact Or.inl (by simpa using h)
  · exact Or.inl (by simpa using h)

/-- C27 (the decode loop terminates).  When every packet kind has a positive size, each
iteration of the decode loop of `readMpuEvents` either leaves the loop (with a truncated
packet left over or the output capacity used up) or moves the decode position forward by at
least one byte, keeping the fill level; so the loop ends within as many iterations as there
are bytes between the decode position and the fill level, and `readMpuEvents` returns on
every input. -/
theorem C27_decode_loop_terminates (L : Layout) (hwf : L.wf) :
    (∀ ls : LoopState, ls.ptr < ls.s.mIIOReadSize → ls.left_over = 0 →
      ((decodeIter L ls).2 = true ∧
        ((decodeIter L ls).1.left_over ≠ 0 ∨ (decodeIter L ls).1.count ≤ 0)) ∨
      ((decodeIter L ls).2 = false ∧ ls.ptr + 1 ≤ (decodeIter L ls).1.ptr ∧
        (decodeIter L ls).1.left_over = 0 ∧
        (decodeIter L ls).1.s.mIIOReadSize = ls.s.mIIOReadSize)) ∧
    (∀ (ls : LoopState) (fuel : Nat), ls.left_over = 0 → ls.s.mIIOReadSize - ls.ptr ≤ fuel →
      ∃ ls', decodeLoop L fuel ls = some ls') ∧
    (∀ (s : MPLSensor) (count : Int) (bs : List Nat),
      ∃ ls', decodeLoop L (s.mIIOReadSize + bs.length) (loopStart L s count bs) = some ls') ∧
    (∀ (s : MPLSensor) (count : Int) (dev : Int → ReadOutcome),
      ∃ r, readMpuEvents L s count dev = some r) := by
  refine ⟨fun ls hptr hlo => ?_, fun ls fuel hlo hf => decodeLoop_total L hwf fuel ls hlo hf,
    fun s count bs => decodeLoop_total L hwf _ _ rfl (by show _ - 0 ≤ _; exact le_refl _),
    fun s count dev => ?_⟩
  · cases hb : (decodeIter L ls).2 with
    | true => exact Or.inl ⟨rfl, decodeIter_stop L ls hb⟩
    | false =>
      obtain ⟨hp, hl⟩ := decodeIter_progress L hwf ls hptr hlo hb
      exact Or.inr ⟨rfl, hp, hl, frame_eq_size (decodeIter_frame L ls)⟩
  · obtain ⟨r, h, -⟩ := readMpuEvents_spec L hwf s count dev
    exact ⟨r, h⟩

theorem C27_decode_loop_terminates_witness :
    iamLayout.wf ∧
    ∃ r, readMpuEvents iamLayout (demoGyroOn false) 4
      (devBytes ([255, 255, 255] ++ demoGyroPacket)) = some r :=
  ⟨by decide,
   (C27_decode_loop_terminates iamLayout (by decide)).2.2.2 (demoGyroOn false) 4
     (devBytes ([255, 255, 255] ++ demoGyroPacket))⟩

/-! ## The carry -/

theorem applyHeader_carry (L : Layout) (s : MPLSensor) (header : Nat) (w4 w8 w12 t16 : Int)
    (rem ptr lo : Nat) :
    (applyHeader L s header w4 w8 w12 t16 rem ptr lo).left_over = lo ∨
    ∃ sz, packetSize L header = some sz ∧ rem < sz ∧
      (applyHeader L s header w4 w8 w12 t16 rem ptr lo).left_over = rem ∧
      (applyHeader L s header w4 w8 w12 t16 rem ptr lo).ptr = ptr := by
  unfold applyHeader packetSize
  split_ifs
  · exact Or.inr ⟨_, rfl, by assumption, rfl, rfl⟩
  · exact Or.inl rfl
  · exact Or.inr ⟨_, rfl, by assumption, rfl, rfl⟩
  · exact Or.inl rfl
  · exact Or.inr ⟨_, rfl, by assumption, rfl, rfl⟩
  · exact Or.inl rfl
  · exact Or.inr ⟨_, rfl, by assumption, rfl, rfl⟩
  · exact Or.inl rfl
  · exact Or.inl rfl

/-- An iteration leaves `left_over` as it was, or stops at a recognised header whose packet
is longer than the bytes left, which it records as left over. -/
theorem decodeIter_carry (L : Layout) (ls : LoopState) :
    (decodeIter L ls).1.left_over = ls.left_over ∨
    ∃ sz, packetSize L (rdU16 ls.s.mIIOReadBuffer ls.ptr) = some sz ∧
      ls.s.mIIOReadSize - ls.ptr < sz ∧
      (decodeIter L ls).1.left_over = ls.s.mIIOReadSize - ls.ptr ∧
      (decodeIter L ls).1.ptr = ls.ptr := by
  rw [decodeIter_left_over, decodeIter_ptr, decodeSwitch_eq]
  exact applyHeader_carry L ls.s _ _ _ _ _ _ ls.ptr ls.left_over

/-- What the decode loop leaves over: nothing, or the bytes from a recognised header to the
fill level, fewer than the size of that packet kind. -/
theorem decodeLoop_carry (L : Layout) (hwf : L.wf) :
    ∀ (fuel : Nat) (ls ls' : LoopState), ls.left_over = 0 →
      decodeLoop L fuel ls = some ls' →
      ls'.left_over = 0 ∨
      ∃ sz, packetSize L (rdU16 ls.s.mIIOReadBuffer ls'.ptr) = some sz ∧
        ls'.ptr < ls.s.mIIOReadSize ∧ ls'.left_over = ls.s.mIIOReadSize - ls'.ptr ∧
        ls'.left_over < sz := by
  intro fuel
  induction fuel with
  | zero =>
    intro ls ls' hlo h
    unfold decodeLoop at h
    split_ifs at h
    cases h
    exact Or.inl hlo
  | succ n ih =>
    intro ls ls' hlo h
    by_cases hptr : ls.ptr < ls.s.mIIOReadSize
    · cases hb : (decodeIter L ls).2 with
      | true =>
        simp [decodeLoop, hptr, hb] at h
        rw [← h]
        rcases decodeIter_carry L ls with hc | ⟨sz, h1, h2, h3, h4⟩
        · exact Or.inl (hc.trans hlo)
        · refine Or.inr ⟨sz, ?_, ?_, ?_, ?_⟩
          · rw [h4]; exact h1
          · rw [h4]; exact hptr
          · rw [h4]; exact h3
          · rw [h3]; exact h2
      | false =>
        simp [decodeLoop, hptr, hb] at h
        obtain ⟨-, hl⟩ := decodeIter_progress L hwf ls hptr hlo hb
        have hf := decodeIter_frame L ls
        have hres := ih (decodeIter L ls).1 ls' hl h
        rw [frame_eq_buffer hf, frame_eq_size hf] at hres
        exact hres
    · rw [decodeLoop_done L _ ls hptr] at h
      cases h
      exact Or.inl hlo

theorem decodeLoop_frame (L : Layout) (fuel : Nat) (ls ls' : LoopState)
    (h : decodeLoop L fuel ls = some ls') : frame ls'.s = frame ls.s :=
  decodeLoop_induct L (fun x => frame x.s = frame ls.s)
    (fun x _ hx => (decodeIter_frame L x).trans hx) fuel ls ls' h rfl

theorem getD_take_drop (l : List Nat) (p n j : Nat) (hj : j < n) :
    ((l.drop p).take n).getD j 0 = l.getD (p + j) 0 := by
  simp only [List.getD_eq_getElem?_getD]
  rw [List.getElem?_take_of_lt hj, List.getElem?_drop]

/-- The bytes `memmove` brings to the front of the buffer. -/
theorem memmoveFront_getD (buf : List Nat) (p n j : Nat) (hlen : p + n ≤ buf.length)
    (hj : j < n) : (memmoveFront buf p n).getD j 0 = buf.getD (p + j) 0 := by
  unfold memmoveFront
  have hl : ((buf.drop p).take n).length = n := by
    rw [List.length_take, List.length_drop]
    omega
  have h := writeAt_getD ((buf.drop p).take n) buf 0 j (by omega) (by omega)
  rw [Nat.zero_add] at h
  rw [h, getD_take_drop buf p n j hj]

theorem carryOver_some (ls : LoopState) (h : 0 < ls.left_over) :
    carryOver ls =
      setBuf ls.s (memmoveFront ls.s.mIIOReadBuffer ls.ptr ls.left_over) ls.left_over := by
  unfold carryOver
  rw [if_pos h]
  rfl

theorem packetSize_le (L : Layout) (h sz B : Nat) (hs : packetSize L h = some sz)
    (h1 : L.DATA_FORMAT_MARKER_SZ ≤ B) (h2 : L.DATA_FORMAT_EMPTY_MARKER_SZ ≤ B)
    (h3 : L.DATA_FORMAT_RAW_GYRO_SZ ≤ B) (h4 : L.DATA_FORMAT_ACCEL_SZ ≤ B) : sz ≤ B := by
  unfold packetSize at hs
  split_ifs at hs <;> cases hs <;> assumption

/-- The carry a call of `readMpuEvents` leaves: empty, the carry it found (when the device
has an error or no data), or the bytes from a recognised header to the fill level, fewer
than the size of that packet kind, moved to the front of the read buffer. -/
theorem readMpuEvents_carry (L : Layout) (hwf : L.wf) (s : MPLSensor) (count : Int)
    (dev : Int → ReadOutcome) :
    ∃ r, readMpuEvents L s count dev = some r ∧
      (r.s.mIIOReadSize = 0 ∨ r.s = s ∨
        ∃ bs ptr sz, dev (readNbytes L s count) = ReadOutcome.data bs ∧
          packetSize L (rdU16 (writeAt s.mIIOReadBuffer s.mIIOReadSize bs) ptr) = some sz ∧
          ptr + r.s.mIIOReadSize = s.mIIOReadSize + bs.length ∧
          0 < r.s.mIIOReadSize ∧ r.s.mIIOReadSize < sz ∧
          (s.mIIOReadSize + bs.length ≤ s.mIIOReadBuffer.length →
            ∀ j, j < r.s.mIIOReadSize →
              r.s.mIIOReadBuffer.getD j 0 =
                (writeAt s.mIIOReadBuffer s.mIIOReadSize bs).getD (ptr + j) 0)) := by
  rcases readMpuEvents_cases L s count dev with ⟨-, b, h⟩ | ⟨-, -, h⟩ | ⟨-, bs, hd, -, h⟩
  · exact ⟨_, h, Or.inl rfl⟩
  · exact ⟨_, h, Or.inr (Or.inl rfl)⟩
  · obtain ⟨ls', hls⟩ := decodeLoop_total L hwf (s.mIIOReadSize + bs.length)
      (loopStart L s count bs) rfl (by show _ - 0 ≤ _; exact le_refl _)
    rw [hls] at h
    refine ⟨_, h, ?_⟩
    have hf := decodeLoop_frame L _ _ _ hls
    have hb : ls'.s.mIIOReadBuffer = writeAt s.mIIOReadBuffer s.mIIOReadSize bs :=
      frame_eq_buffer hf
    rcases decodeLoop_carry L hwf _ _ ls' rfl hls with h0 | ⟨sz, h1, h2, h3, h4⟩
    · left
      show (carryOver ls').mIIOReadSize = 0
      rw [carryOver_none ls' h0]
      rfl
    · have h1' : packetSize L (rdU16 (writeAt s.mIIOReadBuffer s.mIIOReadSize bs) ls'.ptr) =
          some sz := h1
      have h2' : ls'.ptr < s.mIIOReadSize + bs.length := h2
      have h3' : ls'.left_over = s.mIIOReadSize + bs.length - ls'.ptr := h3
      have hpos : 0 < ls'.left_over := by omega
      have hsz : (carryOver ls').mIIOReadSize = ls'.left_over := by
        rw [carryOver_some ls' hpos]
        rfl
      have hbuf : (carryOver ls').mIIOReadBuffer =
          memmoveFront (writeAt s.mIIOReadBuffer s.mIIOReadSize bs) ls'.ptr ls'.left_over := by
        rw [carryOver_some ls' hpos, ← hb]
        rfl
      right
      right
      refine ⟨bs, ls'.ptr, sz, hd, h1', ?_, ?_, ?_, ?_⟩
      · show ls'.ptr + (carryOver ls').mIIOReadSize = _
        rw [hsz]
        omega
      · show 0 < (carryOver ls').mIIOReadSize
        rw [hsz]
        exact hpos
      · show (carryOver ls').mIIOReadSize < sz
        rw [hsz]
        exact h4
      · intro hfit j hj
        have hj' : j < ls'.left_over := by
          have : j < (carryOver ls').mIIOReadSize := hj
          rw [hsz] at this
          exact this
        show (carryOver ls').mIIOReadBuffer.getD j 0 = _
        rw [hbuf]
        exact memmoveFront_getD _ _ _ _ (by rw [writeAt_length]; omega) hj'

/-- C21 (the carry).  When every packet kind has a positive size, every call of
`readMpuEvents` returns, and the carry it leaves is empty, or is the carry it found (the
device had an error or no data), or starts at a header the decoder recognised: then
`0 < mIIOReadSize <` the size of that packet kind, the carry is the bytes from that header
to the fill level, and, when the bytes delivered fit the read buffer, they are at the
front of the buffer.  Hence over any sequence of calls `mIIOReadSize` stays below every
bound that no packet size exceeds, the capacity of the read buffer in particular. -/
theorem C21_carry_invariant (L : Layout) (hwf : L.wf) :
    (∀ (s : MPLSensor) (count : Int) (dev : Int → ReadOutcome),
      ∃ r, readMpuEvents L s count dev = some r ∧
        (r.s.mIIOReadSize = 0 ∨ r.s = s ∨
          ∃ bs ptr sz, dev (readNbytes L s count) = ReadOutcome.data bs ∧
            packetSize L (rdU16 (writeAt s.mIIOReadBuffer s.mIIOReadSize bs) ptr) = some sz ∧
            ptr + r.s.mIIOReadSize = s.mIIOReadSize + bs.length ∧
            0 < r.s.mIIOReadSize ∧ r.s.mIIOReadSize < sz ∧
            (s.mIIOReadSize + bs.length ≤ s.mIIOReadBuffer.length →
              ∀ j, j < r.s.mIIOReadSize →
                r.s.mIIOReadBuffer.getD j 0 =
                  (writeAt s.mIIOReadBuffer s.mIIOReadSize bs).getD (ptr + j) 0))) ∧
    (∀ B : Nat, L.DATA_FORMAT_MARKER_SZ ≤ B → L.DATA_FORMAT_EMPTY_MARKER_SZ ≤ B →
      L.DATA_FORMAT_RAW_GYRO_SZ ≤ B → L.DATA_FORMAT_ACCEL_SZ ≤ B →
      ∀ (ps : List Pass) (s : MPLSensor) (rr : RunResult), s.mIIOReadSize < B →
        runPasses L s ps = some rr → rr.s.mIIOReadSize < B) := by
  refine ⟨readMpuEvents_carry L hwf, fun B b1 b2 b3 b4 ps => ?_⟩
  have hB : 0 < B := by
    obtain ⟨-, -, -, -, -, -, p1, -, -, -⟩ := hwf
    omega
  induction ps with
  | nil =>
    intro s rr hs h
    unfold runPasses at h
    cases h
    exact hs
  | cons p ps ih =>
    intro s rr hs h
    unfold runPasses at h
    obtain ⟨r, hr, hc⟩ := readMpuEvents_carry L hwf s p.count p.dev
    rw [hr] at h
    dsimp only at h
    cases hrest : runPasses L r.s ps with
    | none => rw [hrest] at h; cases h
    | some rr' =>
      rw [hrest] at h
      cases h
      refine ih r.s rr' ?_ hrest
      rcases hc with h0 | h0 | ⟨bs, ptr, sz, -, hk, -, -, hlt, -⟩
      · rw [h0]; exact hB
      · rw [h0]; exact hs
      · exact lt_of_lt_of_le hlt (packetSize_le L _ sz B hk b1 b2 b3 b4)

theorem C21_carry_invariant_witness :
    iamLayout.wf ∧
    (∃ r, readMpuEvents iamLayout (demoGyroOn false) 4 (devBytes (demoGyroPacket.take 5)) =
        some r ∧
      (r.s.mIIOReadSize = 0 ∨ r.s = demoGyroOn false ∨
        ∃ bs ptr sz,
          devBytes (demoGyroPacket.take 5) (readNbytes iamLayout (demoGyroOn false) 4) =
            ReadOutcome.data bs ∧
          packetSize iamLayout
            (rdU16 (writeAt (demoGyroOn false).mIIOReadBuffer
              (demoGyroOn false).mIIOReadSize bs) ptr) = some sz ∧
          ptr + r.s.mIIOReadSize = (demoGyroOn false).mIIOReadSize + bs.length ∧
          0 < r.s.mIIOReadSize ∧ r.s.mIIOReadSize < sz ∧
          ((demoGyroOn false).mIIOReadSize + bs.length ≤
              (demoGyroOn false).mIIOReadBuffer.length →
            ∀ j, j < r.s.mIIOReadSize →
              r.s.mIIOReadBuffer.getD j 0 =
                (writeAt (demoGyroOn false).mIIOReadBuffer
                  (demoGyroOn false).mIIOReadSize bs).getD (ptr + j) 0))) ∧
    (readMpuEvents iamLayout (demoGyroOn false) 4 (devBytes (demoGyroPacket.take 5))).map
        (fun r => (r.s.mIIOReadSize, r.s.mIIOReadBuffer.take 5)) =
      some (5, [2, 0, 0, 0, 100]) :=
  ⟨by decide,
   (C21_carry_invariant iamLayout (by decide)).1 (demoGyroOn false) 4
     (devBytes (demoGyroPacket.take 5)),
   by decide⟩

/-! ## The two-packet scenario -/

/-- C24: on a freshly constructed driver with identity mounting matrices, the gyroscope
enabled at time 5 and the accelerometer at time 6, one `readMpuEvents` pass with room for 8
events over a RAW_GYRO packet (100, 0, 0) at 1000 followed by a RAW_ACCEL packet
(0, 0, 16384) at 1000 writes four events, not two: each of the two `readEvents` calls first
emits a flush-complete event, for the entries the constructor's `resize(TotalNumSensors)`
left in the flush queue.  With the flush queue emptied first, the same pass writes exactly
the gyroscope event and the accelerometer event. -/
theorem C24_scenario_emits_flush_events :
    (readMpuEvents iamLayout (demoBothOn false) 8
        (devBytes (demoGyroPacket ++ demoAccelPacket))).map
        (fun r => (r.numEventReceived, r.out, r.s.mFlushSensorEnabledVector)) =
      some (4,
        [flushEvent 0,
         { sensor := ID_RG, type := SENSOR_TYPE_GYROSCOPE_UNCALIBRATED, timestamp := 1000,
           payload := Payload.vec ⟨100, 0, 0⟩ SENSOR_STATUS_UNRELIABLE },
         flushEvent 0,
         { sensor := ID_A, type := SENSOR_TYPE_ACCELEROMETER, timestamp := 1000,
           payload := Payload.vec ⟨0, 0, 16384⟩ SENSOR_STATUS_UNRELIABLE }],
        [0]) ∧
    (readMpuEvents iamLayout { demoBothOn false with mFlushSensorEnabledVector := [] } 8
        (devBytes (demoGyroPacket ++ demoAccelPacket))).map
        (fun r => (r.numEventReceived, r.out)) =
      some (2,
        [{ sensor := ID_RG, type := SENSOR_TYPE_GYROSCOPE_UNCALIBRATED, timestamp := 1000,
           payload := Payload.vec ⟨100, 0, 0⟩ SENSOR_STATUS_UNRELIABLE },
         { sensor := ID_A, type := SENSOR_TYPE_ACCELEROMETER, timestamp := 1000,
           payload := Payload.vec ⟨0, 0, 16384⟩ SENSOR_STATUS_UNRELIABLE }]) := by
  constructor <;> decide

/-! ## Rate rounding in `batch` -/

theorem wrap64_of_range (z : Int) (h0 : -9223372036854775808 ≤ z)
    (h1 : z < 9223372036854775808) : wrap64 z = z := by
  unfold wrap64
  omega

/-- The quotient `(10^9 + (p - 1)) / p` is the least `k` with `10^9 ≤ k * p`. -/
theorem ceil_quotient (p : Int) (hp : 1 ≤ p) :
    ((1000000000 + (p - 1)) / p - 1) * p < 1000000000 ∧
    1000000000 ≤ (1000000000 + (p - 1)) / p * p ∧
    1 ≤ (1000000000 + (p - 1)) / p ∧ (1000000000 + (p - 1)) / p ≤ 1000000000 := by
  have hp0 : 0 < p := by omega
  have h1 := Int.ediv_mul_le (1000000000 + (p - 1)) (ne_of_gt hp0)
  have h2 := Int.lt_ediv_add_one_mul_self (1000000000 + (p - 1)) hp0
  have hk1 : 1 ≤ (1000000000 + (p - 1)) / p := by
    by_contra hc
    have : (1000000000 + (p - 1)) / p + 1 ≤ 1 := by omega
    nlinarith
  refine ⟨by nlinarith, by nlinarith, hk1, ?_⟩
  by_contra hc
  have : 1000000001 ≤ (1000000000 + (p - 1)) / p := by omega
  nlinarith

/-- The rounded period `10^9 / k` for the quotient `k` of `ceil_quotient`. -/
theorem floor_quotient (p k : Int) (hp : 1 ≤ p) (hk : k = (1000000000 + (p - 1)) / p) :
    1000000000 / k * k ≤ 1000000000 ∧ 1000000000 < (1000000000 / k + 1) * k ∧
    1000000000 / k ≤ p ∧ (p ∣ 1000000000 → 1000000000 / k = p) := by
  obtain ⟨c1, c2, c3, c4⟩ := ceil_quotient p hp
  rw [← hk] at c1 c2 c3 c4
  have hk0 : 0 < k := by omega
  have h1 := Int.ediv_mul_le 1000000000 (ne_of_gt hk0)
  have h2 := Int.lt_ediv_add_one_mul_self 1000000000 hk0
  have hle : 1000000000 / k ≤ p := by
    by_contra hc
    have : p + 1 ≤ 1000000000 / k := by omega
    nlinarith
  refine ⟨h1, h2, hle, fun hd => ?_⟩
  obtain ⟨m, hm⟩ := hd
  have hmk : k = m := by
    have hp0 : 0 < p := by omega
    have a1 : (k - 1) * p < p * m := by rw [← hm]; exact c1
    have a2 : p * m ≤ k * p := by rw [← hm]; exact c2
    have b1 : k - 1 < m := by
      by_contra hc
      have : m ≤ k - 1 := by omega
      nlinarith
    have b2 : m ≤ k := by
      by_contra hc
      have : k + 1 ≤ m := by omega
      nlinarith
    omega
  rw [hmk] at hk0 ⊢
  rw [hm, Int.mul_ediv_cancel _ (ne_of_gt hk0)]

/-- The period `batch` goes on with, for a request in the range where the 64-bit sum does
not overflow. -/
theorem batchPeriod_rounded (e : sensor_t) (p : Int) (h1 : 1 ≤ p)
    (h2 : p ≤ 9223372035854775808) (hne : p ≠ e.maxDelay * 1000) :
    batchPeriod e p =
      some (if (if 1000000000 / ((1000000000 + (p - 1)) / p) > e.maxDelay * 1000
                then e.maxDelay * 1000 else 1000000000 / ((1000000000 + (p - 1)) / p))
              < e.minDelay * 1000
            then e.minDelay * 1000
            else (if 1000000000 / ((1000000000 + (p - 1)) / p) > e.maxDelay * 1000
                  then e.maxDelay * 1000 else 1000000000 / ((1000000000 + (p - 1)) / p))) := by
  obtain ⟨-, -, c3, c4⟩ := ceil_quotient p h1
  unfold batchPeriod NS_PER_SECOND
  rw [if_pos hne, if_neg (by omega : ¬ p = 0)]
  dsimp only
  rw [wrap64_of_range (p - 1) (by omega) (by omega),
    wrap64_of_range (1000000000 + (p - 1)) (by omega) (by omega),
    Int.tdiv_eq_ediv (by omega) (by omega),
    wrap32_of_range _ (by omega) (by omega), if_neg (by omega),
    Int.tdiv_eq_ediv (by omega) (by omega)]
  rfl

/-- Whatever period is asked for, the period `batch` goes on with lies between the delays
of the sensor-list entry. -/
theorem batchPeriod_clamped (e : sensor_t) (p q : Int) (h : batchPeriod e p = some q)
    (hmm : e.minDelay * 1000 ≤ e.maxDelay * 1000) :
    e.minDelay * 1000 ≤ q ∧ q ≤ e.maxDelay * 1000 := by
  unfold batchPeriod at h
  dsimp only at h
  rw [Option.map_eq_some'] at h
  obtain ⟨r, -, hq⟩ := h
  rw [← hq]
  split_ifs <;> constructor <;> omega

/-- C25: the rate rounding of `batch` divides by zero at the top of the range of
`period_ns`.  For the gyroscope entry of the sensor list and `period_ns = 2^63 - 1` the
64-bit sum `NS_PER_SECOND + (period_ns - 1)` wraps to a negative number, the quotient
`period_ns_int` is 0 and `batch` divides `NS_PER_SECOND` by it, where the claim says that no
division by zero occurs for any `period_ns ≥ 1`.  At `period_ns = 2^63 - 10^9`, the largest
request for which the sum does not wrap, the same code rounds the period to `10^9` and
clamps it to `maxDelay * 1000`. -/
theorem C25_rounding_divides_by_zero :
    (1 : Int) ≤ 9223372036854775807 ∧
    (sRawSensorList iamLayout).head? =
      some { handle := ID_RG, minDelay := 5000, maxDelay := 320000, fifoMaxEventCount := 59 } ∧
    (9223372036854775807 : Int) ≠ 320000 * 1000 ∧
    batchPeriod { handle := ID_RG, minDelay := 5000, maxDelay := 320000,
                  fifoMaxEventCount := 59 } 9223372036854775807 = none ∧
    batch (demoGyroOn false) ID_RG 0 9223372036854775807 0 = none ∧
    batchPeriod { handle := ID_RG, minDelay := 5000, maxDelay := 320000,
                  fifoMaxEventCount := 59 } 9223372035854775808 = some 320000000 := by
  decide

/-- The rate rounding of `batch` on the range where the 64-bit sum does not wrap.  For a
sensor-list entry whose `minDelay` is at
most its `maxDelay` and every requested `period_ns` with `1 ≤ period_ns ≤ 2^63 - 10^9` that
differs from `maxDelay * 1000`: no division by zero occurs; with `k` the least integer such
that `10^9 ≤ k * period_ns` (the requested frequency rounded up to whole Hz) and `r` the
greatest integer such that `r * k ≤ 10^9`, `r ≤ period_ns`, `r = period_ns` when
`period_ns` divides `10^9`, and the period `batch` hands to the rate directive is `r`
clamped to `[minDelay * 1000, maxDelay * 1000]`.  For every `period_ns` for which `batch`
reaches the rate directive, the period handed over lies in that interval. -/
theorem batchPeriod_rounding_in_range (e : sensor_t) (p : Int) (h1 : 1 ≤ p)
    (h2 : p ≤ 9223372035854775808) (hne : p ≠ e.maxDelay * 1000)
    (hmm : e.minDelay * 1000 ≤ e.maxDelay * 1000) :
    (∃ k r q, (k - 1) * p < 1000000000 ∧ 1000000000 ≤ k * p ∧
      r * k ≤ 1000000000 ∧ 1000000000 < (r + 1) * k ∧
      r ≤ p ∧ (p ∣ 1000000000 → r = p) ∧
      batchPeriod e p = some q ∧
      q = max (e.minDelay * 1000) (min r (e.maxDelay * 1000)) ∧
      e.minDelay * 1000 ≤ q ∧ q ≤ e.maxDelay * 1000 ∧
      ∀ (s s' : MPLSensor) (handle : Int) (flags : Nat) (timeout : Int),
        s.currentSensorList.get? (findListIndex s.currentSensorList s.mNumSensors handle) =
          some e →
        flags &&& SENSORS_BATCH_DRY_RUN = 0 →
        batch s handle flags p timeout = some (0, s') →
        s' = setRate (updateBatchTimeout
              (batchBody s (getHandle handle).toNat (batchTimeout1 e timeout)))
              (getHandle handle).toNat q) ∧
    (∀ p' q' : Int, batchPeriod e p' = some q' →
      e.minDelay * 1000 ≤ q' ∧ q' ≤ e.maxDelay * 1000) := by
  obtain ⟨c1, c2, -, -⟩ := ceil_quotient p h1
  obtain ⟨d1, d2, d3, d4⟩ := floor_quotient p _ h1 rfl
  have hq := batchPeriod_rounded e p h1 h2 hne
  have hcl := batchPeriod_clamped e p _ hq hmm
  refine ⟨⟨(1000000000 + (p - 1)) / p, 1000000000 / ((1000000000 + (p - 1)) / p), _,
    c1, c2, d1, d2, d3, d4, hq, ?_, hcl.1, hcl.2, ?_⟩,
    fun p' q' h => batchPeriod_clamped e p' q' h hmm⟩
  · split_ifs <;> omega
  · intro s s' handle flags timeout he hdry h
    rcases batch_cases s handle flags p timeout 0 s' h with
      ⟨hr, -, -⟩ | ⟨-, -, hd⟩ | ⟨-, -, -, -, -, e', q', he', hq', hs⟩
    · exact absurd hr (by decide)
    · exact absurd hdry hd
    · rw [he] at he'
      have hee : e = e' := Option.some.inj he'
      subst hee
      rw [hq] at hq'
      have hqq := Option.some.inj hq'
      rw [hs, ← hqq]

theorem batchPeriod_rounding_in_range_example :
    ((1 : Int) ≤ 3000000 ∧ (3000000 : Int) ≤ 9223372035854775808 ∧
      (3000000 : Int) ≠ (sensor_t.mk ID_RG 5000 320000 59).maxDelay * 1000 ∧
      (sensor_t.mk ID_RG 5000 320000 59).minDelay * 1000 ≤
        (sensor_t.mk ID_RG 5000 320000 59).maxDelay * 1000) ∧
    batchPeriod (sensor_t.mk ID_RG 5000 320000 59) 3000000 = some 5000000 ∧
    (∀ p' q' : Int, batchPeriod (sensor_t.mk ID_RG 5000 320000 59) p' = some q' →
      (sensor_t.mk ID_RG 5000 320000 59).minDelay * 1000 ≤ q' ∧
      q' ≤ (sensor_t.mk ID_RG 5000 320000 59).maxDelay * 1000) :=
  ⟨by decide, by decide,
   (batchPeriod_rounding_in_range (sensor_t.mk ID_RG 5000 320000 59) 3000000 (by decide) (by decide)
      (by decide) (by decide)).2⟩

/-! ## The flags of `batch` -/

theorem batchPeriod_some (e : sensor_t) (p : Int) (h1 : 1 ≤ p)
    (h2 : p ≤ 9223372035854775808) : ∃ q, batchPeriod e p = some q := by
  by_cases hne : p ≠ e.maxDelay * 1000
  · exact ⟨_, batchPeriod_rounded e p h1 h2 hne⟩
  · unfold batchPeriod
    rw [if_neg hne]
    exact ⟨_, rfl⟩

theorem batch_wake (s : MPLSensor) (handle : Int) (flags : Nat) (period_ns timeout : Int)
    (hf : flags &&& SENSORS_BATCH_WAKE_UPON_FIFO_FULL ≠ 0) :
    batch s handle flags period_ns timeout = some (-EINVAL, s) := by
  by_cases hr : s.mChipDetected = false ∨ getHandle handle < 0
  · exact batch_reject s handle flags period_ns timeout hr
  · push_neg at hr
    unfold batch
    rw [if_neg (by simp [hr.1])]
    dsimp only
    rw [if_neg (not_lt.mpr hr.2), if_pos hf]

theorem batch_dry_run (s : MPLSensor) (handle : Int) (flags : Nat) (period_ns timeout : Int)
    (e : sensor_t) (hc : s.mChipDetected = true) (hw : ¬ getHandle handle < 0)
    (hf : flags &&& SENSORS_BATCH_WAKE_UPON_FIFO_FULL = 0)
    (hd : flags &&& SENSORS_BATCH_DRY_RUN ≠ 0)
    (he : s.currentSensorList.get? (findListIndex s.currentSensorList s.mNumSensors handle) =
      some e)
    (hp : ∃ q, batchPeriod e period_ns = some q) :
    batch s handle flags period_ns timeout = some (0, s) := by
  obtain ⟨q, hq⟩ := hp
  unfold batch
  rw [if_neg (by simp [hc])]
  dsimp only
  rw [if_neg hw, if_neg (not_not.mpr hf), he]
  dsimp only
  rw [hq]
  dsimp only
  rw [if_pos hd]

/-- C26, as stated, fails: with no chip detected `batch` with `SENSORS_BATCH_DRY_RUN` returns
`-EINVAL`, not 0; and with a chip detected, the gyroscope enabled and `period_ns = 0` the
dry run divides by zero in the rate rounding, before it reaches its `return 0`. -/
theorem C26_counterexample :
    SENSORS_BATCH_DRY_RUN &&& SENSORS_BATCH_WAKE_UPON_FIFO_FULL = 0 ∧
    (batch (construct iamLayout demoRaw false false none none none) ID_RG
        SENSORS_BATCH_DRY_RUN 5000000 0).map (fun r => r.1) = some (-22) ∧
    batch (demoGyroOn false) ID_RG SENSORS_BATCH_DRY_RUN 0 0 = none := by
  decide

/-- C26 (the flags of `batch`), amended.  For every state and handle, `batch` with
`SENSORS_BATCH_WAKE_UPON_FIFO_FULL` set returns `-EINVAL`.  With a chip detected, the sensor
list populated, a valid handle and `1 ≤ period_ns ≤ 2^63 - 10^9`, `batch` with
`SENSORS_BATCH_DRY_RUN` set and `SENSORS_BATCH_WAKE_UPON_FIFO_FULL` clear returns 0.
Whenever `batch` with one of the two flags set returns, the whole driver state, the record
of issued directives included, is as before the call. -/
theorem C26_batch_flags (L : Layout) (s : MPLSensor) (handle : Int) (flags : Nat)
    (period_ns timeout : Int) :
    (flags &&& SENSORS_BATCH_WAKE_UPON_FIFO_FULL ≠ 0 →
      batch s handle flags period_ns timeout = some (-EINVAL, s)) ∧
    (flags &&& SENSORS_BATCH_WAKE_UPON_FIFO_FULL = 0 → flags &&& SENSORS_BATCH_DRY_RUN ≠ 0 →
      s.mChipDetected = true → (handle = ID_RG ∨ handle = ID_A ∨ handle = ID_RM) →
      s.currentSensorList = sRawSensorList L → s.mNumSensors = 3 →
      1 ≤ period_ns → period_ns ≤ 9223372035854775808 →
      batch s handle flags period_ns timeout = some (0, s)) ∧
    (flags &&& SENSORS_BATCH_WAKE_UPON_FIFO_FULL ≠ 0 ∨ flags &&& SENSORS_BATCH_DRY_RUN ≠ 0 →
      ∀ (r : Int) (s' : MPLSensor), batch s handle flags period_ns timeout = some (r, s') →
        s' = s) := by
  refine ⟨batch_wake s handle flags period_ns timeout, ?_, ?_⟩
  · intro hf hd hc hv hlist hnum h1 h2
    obtain ⟨hw, -, -, -⟩ := getHandle_of_valid handle hv
    obtain ⟨e, he, -⟩ := sensorList_entry L handle hw
    exact batch_dry_run s handle flags period_ns timeout e hc hw hf hd
      (by rw [hlist, hnum]; exact he) (batchPeriod_some e period_ns h1 h2)
  · intro hflag r s' h
    rcases batch_cases s handle flags period_ns timeout r s' h with
      ⟨-, hs, -⟩ | ⟨-, hs, -⟩ | ⟨-, hd, -, -, hf, -⟩
    · exact hs
    · exact hs
    · rcases hflag with h' | h'
      · exact absurd hf h'
      · exact absurd hd h'

theorem C26_batch_flags_witness :
    batch (demoGyroOn false) ID_RG SENSORS_BATCH_WAKE_UPON_FIFO_FULL 5000000 0 =
      some (-EINVAL, demoGyroOn false) ∧
    batch (demoGyroOn false) ID_RG SENSORS_BATCH_DRY_RUN 5000000 50000000 =
      some (0, demoGyroOn false) :=
  ⟨(C26_batch_flags iamLayout (demoGyroOn false) ID_RG SENSORS_BATCH_WAKE_UPON_FIFO_FULL
      5000000 0).1 (by decide),
   (C26_batch_flags iamLayout (demoGyroOn false) ID_RG SENSORS_BATCH_DRY_RUN
      5000000 50000000).2.1 (by decide) (by decide) (by decide) (Or.inl rfl) (by decide)
      (by decide) (by decide) (by decide)⟩

/-! ## Streaming and batching channels -/

theorem foldl_min_le_init (l : List Int) : ∀ a : Int, l.foldl min a ≤ a := by
  induction l with
  | nil => intro a; exact le_refl a
  | cons x l ih =>
    intro a
    rw [List.foldl_cons]
    exact le_trans (ih (min a x)) (min_le_left a x)

theorem foldl_min_le_mem (l : List Int) : ∀ (a x : Int), x ∈ l → l.foldl min a ≤ x := by
  induction l with
  | nil => intro a x hx; cases hx
  | cons y l ih =>
    intro a x hx
    rw [List.foldl_cons]
    rcases List.mem_cons.mp hx with h | h
    · rw [h]
      exact le_trans (foldl_min_le_init l (min a y)) (min_le_right a y)
    · exact ih (min a y) x h

theorem foldl_min_mem (l : List Int) : ∀ a : Int, l.foldl min a = a ∨ l.foldl min a ∈ l := by
  induction l with
  | nil => intro a; exact Or.inl rfl
  | cons y l ih =>
    intro a
    rw [List.foldl_cons]
    rcases ih (min a y) with h | h
    · rw [h]
      rcases min_choice a y with h' | h'
      · exact Or.inl h'
      · exact Or.inr (by rw [h']; exact List.mem_cons_self y l)
    · exact Or.inr (List.mem_cons_of_mem y h)

/-- The value `updateBatchTimeout` computes when some channel is batching-active: it is at
most the sentinel and at most what every enabled channel asks for, and it is the sentinel
or what some enabled channel asks for. -/
theorem batchingTimeout_min (s : MPLSensor) (hb : s.mBatchEnabled ≠ 0) :
    batchingTimeout s ≤ BATCH_SENTINEL ∧
    (∀ c, c < 3 → chanEnabled s c → batchingTimeout s ≤ requestedNs s c) ∧
    (batchingTimeout s = BATCH_SENTINEL ∨
      ∃ c, c < 3 ∧ chanEnabled s c ∧ batchingTimeout s = requestedNs s c) := by
  rw [batchingTimeout_eq_amended]
  unfold amendedTimeoutNs
  rw [if_neg hb]
  refine ⟨foldl_min_le_init _ _, fun c hc he => ?_, ?_⟩
  · apply foldl_min_le_mem
    rw [List.mem_map]
    refine ⟨c, ?_, rfl⟩
    rw [List.mem_filter]
    exact ⟨List.mem_range.mpr hc, decide_eq_true he⟩
  · rcases foldl_min_mem
      (((List.range TotalNumSensors).filter (fun c => chanEnabled s c)).map (requestedNs s))
      BATCH_SENTINEL with h | h
    · exact Or.inl h
    · rw [List.mem_map] at h
      obtain ⟨c, hc, hreq⟩ := h
      rw [List.mem_filter] at hc
      exact Or.inr ⟨c, List.mem_range.mp hc.1, of_decide_eq_true hc.2, hreq.symm⟩

/-- An enabled channel that streams makes the computed timeout 0, unless an enabled
batching-active channel holds a negative latency. -/
theorem batchingTimeout_streaming (s : MPLSensor) (c : Nat) (hc : c < 3)
    (he : chanEnabled s c) (hn : ¬ batchActive s c)
    (hnn : ∀ c', c' < 3 → chanEnabled s c' → batchActive s c' → 0 ≤ s.mBatchTimeouts.get c') :
    batchingTimeout s = 0 := by
  by_cases hb : s.mBatchEnabled = 0
  · unfold batchingTimeout
    rw [if_neg (not_not.mpr hb)]
  · obtain ⟨-, h2, h3⟩ := batchingTimeout_min s hb
    have hle : batchingTimeout s ≤ 0 := by
      have := h2 c hc he
      unfold requestedNs at this
      rw [if_neg hn] at this
      exact this
    have hge : 0 ≤ batchingTimeout s := by
      rcases h3 with h | ⟨c', hc', he', h⟩
      · rw [h]; decide
      · rw [h]
        unfold requestedNs
        split_ifs with ha
        · exact hnn c' hc' he' ha
        · exact le_refl 0
    omega

theorem batchActive_ne_zero (s : MPLSensor) (c : Nat) (h : batchActive s c) :
    s.mBatchEnabled ≠ 0 := by
  intro h0
  unfold batchActive at h
  rw [h0] at h
  exact h (Nat.zero_and _)

/-- C28, as stated, fails: with the gyroscope alone enabled and batching with a latency of
200 s, the computed timeout is the sentinel 100 s, not the least latency of the enabled
channels; and with the gyroscope enabled and batching with the latency -50000000 while the
accelerometer is enabled and streams, the computed timeout is -50000000, not 0. -/
theorem C28_counterexample :
    (batch (demoGyroOn false) ID_RG 0 5000000 200000000000).map
        (fun r => (decide (batchActive r.2 RawGyro), decide (chanEnabled r.2 RawGyro),
          decide (chanEnabled r.2 Accelerometer), decide (chanEnabled r.2 RawMagneticField))) =
      some (true, true, false, false) ∧
    (batch (demoGyroOn false) ID_RG 0 5000000 200000000000).map
        (fun r => (r.2.mBatchTimeouts.get RawGyro, batchingTimeout r.2)) =
      some (200000000000, 100000000000) ∧
    (batch (demoBothOn false) ID_RG 0 5000000 (-50000000)).map
        (fun r => (decide (batchActive r.2 RawGyro), decide (chanEnabled r.2 RawGyro),
          decide (batchActive r.2 Accelerometer), decide (chanEnabled r.2 Accelerometer))) =
      some (true, true, false, true) ∧
    (batch (demoBothOn false) ID_RG 0 5000000 (-50000000)).map (fun r => batchingTimeout r.2) =
      some (-50000000) := by
  decide

/-- C28 (a streaming channel turns batching off), amended.  When some channel is
batching-active, the timeout `updateBatchTimeout` computes is 0 if some enabled channel is
not batching-active and no enabled batching-active channel holds a negative latency; and if
every enabled channel is batching-active it is the least of the sentinel 100000000000 and
of `mBatchTimeouts` over the enabled channels. -/
theorem C28_streaming_disables_batching (s : MPLSensor)
    (hb : ∃ c, c < 3 ∧ batchActive s c) :
    ((∃ c, c < 3 ∧ chanEnabled s c ∧ ¬ batchActive s c) →
      (∀ c, c < 3 → chanEnabled s c → batchActive s c → 0 ≤ s.mBatchTimeouts.get c) →
      batchingTimeout s = 0) ∧
    ((∀ c, c < 3 → chanEnabled s c → batchActive s c) →
      batchingTimeout s ≤ BATCH_SENTINEL ∧
      (∀ c, c < 3 → chanEnabled s c → batchingTimeout s ≤ s.mBatchTimeouts.get c) ∧
      (batchingTimeout s = BATCH_SENTINEL ∨
        ∃ c, c < 3 ∧ chanEnabled s c ∧ batchingTimeout s = s.mBatchTimeouts.get c)) := by
  obtain ⟨c0, -, hc0⟩ := hb
  have hne := batchActive_ne_zero s c0 hc0
  constructor
  · rintro ⟨c, hc, he, hn⟩ hnn
    exact batchingTimeout_streaming s c hc he hn hnn
  · intro hall
    obtain ⟨h1, h2, h3⟩ := batchingTimeout_min s hne
    have hreq : ∀ c, c < 3 → chanEnabled s c → requestedNs s c = s.mBatchTimeouts.get c := by
      intro c hc he
      unfold requestedNs
      rw [if_pos (hall c hc he)]
    refine ⟨h1, fun c hc he => ?_, ?_⟩
    · rw [← hreq c hc he]
      exact h2 c hc he
    · rcases h3 with h | ⟨c, hc, he, h⟩
      · exact Or.inl h
      · exact Or.inr ⟨c, hc, he, by rw [h, hreq c hc he]⟩

theorem C28_streaming_disables_batching_witness :
    ∃ s', batch (demoBothOn false) ID_RG 0 5000000 50000000 = some (0, s') ∧
      (∃ c, c < 3 ∧ batchActive s' c) ∧
      (∃ c, c < 3 ∧ chanEnabled s' c ∧ ¬ batchActive s' c) ∧
      batchingTimeout s' = 0 :=
  ⟨setRate (updateBatchTimeout (batchBody (demoBothOn false) 0 50000000)) 0 5000000,
   by decide, ⟨0, by decide⟩, ⟨1, by decide⟩,
   (C28_streaming_disables_batching
      (setRate (updateBatchTimeout (batchBody (demoBothOn false) 0 50000000)) 0 5000000)
      ⟨0, by decide⟩).1 ⟨1, by decide⟩ (by decide)⟩

/-! ## Disabling a channel and its batch request -/

theorem enable_batch_testBit (t : MPLSensor) (h2 en2 now2 : Int) (j : Nat)
    (h : (enable t h2 en2 now2).2.mBatchEnabled.testBit j = true) :
    t.mBatchEnabled.testBit j = true := by
  by_cases hrej : t.mChipDetected = false ∨ getHandle h2 < 0
  · rw [enable_reject t h2 en2 now2 hrej] at h
    exact h
  · push_neg at hrej
    obtain ⟨-, -, -, -, hb, -⟩ := enable_fields t h2 en2 now2 (by simpa using hrej.1)
      (not_lt.mpr hrej.2)
    rw [hb] at h
    split_ifs at h
    · rw [Nat.testBit_and] at h
      exact (Bool.and_eq_true _ _ ▸ h).1
    · exact h

theorem updateBatchTimeout_ms_zero (x : MPLSensor) (h : batchingTimeout x = 0) :
    (updateBatchTimeout x).mBatchTimeoutInMs = 0 := by
  unfold updateBatchTimeout
  rw [h]
  by_cases hm : x.mBatchTimeoutInMs ≠ 0
  · rw [if_pos hm]
    rfl
  · rw [if_neg hm]
    exact not_not.mp hm

theorem batchingTimeout_congr {s t : MPLSensor} (h : bcore s = bcore t) :
    batchingTimeout s = batchingTimeout t := by
  rw [batchingTimeout_eq_amended, batchingTimeout_eq_amended, amendedTimeoutNs_congr h]

/-- C29, as stated, fails.  In a state with no chip detected `enable(ID_RG, 0)` is rejected
and a batching-active flag that is set stays set.  And on a driver with a chip: the gyroscope
is enabled and `batch` stores the latency -50000000 for it; the accelerometer is then
disabled and enabled again.  It is enabled and not batching-active, but the timeout
`updateBatchTimeout` computes is -50000000 and the value pushed is -50 ms, not 0. -/
theorem C29_counterexample :
    (enable { demoRaw with mBatchEnabled := 1 } ID_RG 0 5).1 = -22 ∧
    batchActive (enable { demoRaw with mBatchEnabled := 1 } ID_RG 0 5).2 RawGyro ∧
    (batch (demoGyroOn false) ID_RG 0 5000000 (-50000000)).map
        (fun r =>
          (decide (chanEnabled (enable (enable r.2 ID_A 0 7).2 ID_A 1 8).2 Accelerometer),
           decide (batchActive (enable (enable r.2 ID_A 0 7).2 ID_A 1 8).2 Accelerometer),
           batchingTimeout (enable (enable r.2 ID_A 0 7).2 ID_A 1 8).2,
           (enable (enable r.2 ID_A 0 7).2 ID_A 1 8).2.mBatchTimeoutInMs)) =
      some (true, false, -50000000, -50) := by
  decide

/-- C29 (disabling a channel cancels its batch request), amended.  With a chip detected
and a valid handle `h`, after `enable(h, 0)` the batching-active flag of the channel is
clear, whether or not the channel was enabled before; no `enable` call sets a
batching-active flag, so a following `enable(h, 1)` leaves the channel enabled and not
batching-active; and while a channel is enabled and not batching-active, the timeout
`updateBatchTimeout` computes is 0 (and the value stored by the `enable` call is 0 ms),
provided no enabled batching-active channel holds a negative latency. -/
theorem C29_disable_cancels_batch (s : MPLSensor) (handle now : Int)
    (hc : s.mChipDetected = true)
    (hv : handle = ID_RG ∨ handle = ID_A ∨ handle = ID_RM) :
    ¬ batchActive (enable s handle 0 now).2 handle.toNat ∧
    (∀ (t : MPLSensor) (h2 en2 now2 : Int) (j : Nat),
      ¬ batchActive t j → ¬ batchActive (enable t h2 en2 now2).2 j) ∧
    (∀ now2 : Int,
      chanEnabled (enable (enable s handle 0 now).2 handle 1 now2).2 handle.toNat ∧
      ¬ batchActive (enable (enable s handle 0 now).2 handle 1 now2).2 handle.toNat ∧
      ((∀ c, c < 3 → chanEnabled (enable (enable s handle 0 now).2 handle 1 now2).2 c →
          batchActive (enable (enable s handle 0 now).2 handle 1 now2).2 c →
          0 ≤ (enable (enable s handle 0 now).2 handle 1 now2).2.mBatchTimeouts.get c) →
        batchingTimeout (enable (enable s handle 0 now).2 handle 1 now2).2 = 0 ∧
        (enable (enable s handle 0 now).2 handle 1 now2).2.mBatchTimeoutInMs = 0)) ∧
    (∀ (t : MPLSensor) (c : Nat), c < 3 → chanEnabled t c → ¬ batchActive t c →
      (∀ c', c' < 3 → chanEnabled t c' → batchActive t c' → 0 ≤ t.mBatchTimeouts.get c') →
      batchingTimeout t = 0) := by
  obtain ⟨hw, hg, hlt, -⟩ := getHandle_of_valid handle hv
  have keep : ∀ (t : MPLSensor) (h2 en2 now2 : Int) (j : Nat),
      ¬ batchActive t j → ¬ batchActive (enable t h2 en2 now2).2 j := by
    intro t h2 en2 now2 j hn hb
    rw [batchActive_iff] at hn hb
    exact hn (enable_batch_testBit t h2 en2 now2 j hb)
  have hoff : ¬ batchActive (enable s handle 0 now).2 handle.toNat := by
    obtain ⟨-, -, -, -, hb, -⟩ := enable_fields s handle 0 now hc hw
    rw [batchActive_iff, hb, if_pos rfl, hg, testBit_and_not64 _ _ _ (by omega)]
    simp
  have hc1 : (enable s handle 0 now).2.mChipDetected = true :=
    (enable_fields s handle 0 now hc hw).2.2.2.2.2.1
  refine ⟨hoff, keep, fun now2 => ?_, fun t c hlt' he hn hnn =>
    batchingTimeout_streaming t c hlt' he hn hnn⟩
  have hon : chanEnabled (enable (enable s handle 0 now).2 handle 1 now2).2 handle.toNat := by
    rw [chanEnabled_iff, enable_testBit _ handle 1 now2 hc1 hw _ (by omega), hg, if_pos rfl]
    decide
  have hoff2 := keep (enable s handle 0 now).2 handle 1 now2 handle.toNat hoff
  refine ⟨hon, hoff2, fun hnn => ?_⟩
  have hz := batchingTimeout_streaming _ handle.toNat hlt hon hoff2 hnn
  refine ⟨hz, ?_⟩
  have hacc := enable_accept (enable s handle 0 now).2 handle 1 now2 hc1 hw
  have hz' : batchingTimeout (updateBatchTimeout
      (enableBody (enable s handle 0 now).2 (getHandle handle).toNat 1 now2)) = 0 := by
    have := hz
    rw [hacc] at this
    exact this
  rw [hacc]
  exact updateBatchTimeout_ms_zero _
    ((batchingTimeout_congr (updateBatchTimeout_bcore _)).symm.trans hz')

theorem C29_disable_cancels_batch_witness :
    (demoBothOn false).mChipDetected = true ∧ (ID_A = ID_RG ∨ ID_A = ID_A ∨ ID_A = ID_RM) ∧
    ¬ batchActive (enable (demoBothOn false) ID_A 0 7).2 ID_A.toNat ∧
    chanEnabled (enable (enable (demoBothOn false) ID_A 0 7).2 ID_A 1 8).2 ID_A.toNat ∧
    ¬ batchActive (enable (enable (demoBothOn false) ID_A 0 7).2 ID_A 1 8).2 ID_A.toNat :=
  ⟨by decide, Or.inr (Or.inl rfl),
   (C29_disable_cancels_batch (demoBothOn false) ID_A 7 (by decide) (Or.inr (Or.inl rfl))).1,
   ((C29_disable_cancels_batch (demoBothOn false) ID_A 7 (by decide)
      (Or.inr (Or.inl rfl))).2.2.1 8).1,
   ((C29_disable_cancels_batch (demoBothOn false) ID_A 7 (by decide)
      (Or.inr (Or.inl rfl))).2.2.1 8).2.1⟩

end Iam20680
